import Mathlib

/-!
# Gemini proxy: model selection, sessions, tools, routes and the stream client

A shallow embedding of `server/geminiConfig.js` (`is404OrNotSupported`,
`pickBestModel`, `getGeminiModelName`, `getModelFallbackList`),
`server/geminiProxy.js` (`withRetry`, `buildSystemHistory`,
`streamChatInternal`, `chatWithToolsInternal`), `server/youtubeTools.js`
(`resolveField`, the four tools and `executeTool`), `executeTool` and
`resolveCol` of `server/csvToolsServer.js`, the `/api/gemini/stream` and
`/api/gemini/chat` handlers of `server/index.js`, and `streamChat` of
`src/services/gemini.js`.

The backend SDK and the tool dispatcher are external: they are a record of
state-passing functions (`Env`) over an arbitrary world state `σ`, so every
theorem quantifies over every behaviour they can show.  Each embedded
function returns, next to its result and the new world state, the list of
external actions it performed (`Act`), in order.

Loaded videos and rows are JSON objects (`Record`) unless a definition says
otherwise; a call that throws in the source returns an error here, also a
TypeError from a method that a value does not have.
-/

namespace GeminiProxy

/-! ## Values -/

/-- JSON-like JavaScript values (numbers are integers here). -/
inductive JVal where
  | null : JVal
  | bool (b : Bool) : JVal
  | num (n : Int) : JVal
  | str (s : String) : JVal
  | arr (items : List JVal) : JVal
  | obj (fields : List (String × JVal)) : JVal

/-- JavaScript truthiness of a value. -/
def JVal.truthy : JVal → Bool
  | .null => false
  | .bool b => b
  | .num n => n != 0
  | .str s => s != ""
  | .arr _ => true
  | .obj _ => true

/-- Truthiness of a property read: a missing property reads `undefined`. -/
def truthyField : Option JVal → Bool
  | none => false
  | some v => v.truthy

/-- Truthiness of a string-valued property that may be missing. -/
def truthyStr : Option String → Bool
  | none => false
  | some s => s != ""

/-- A thrown value, seen through `err?.message || String(err)`. -/
structure Err where
  message : String
deriving DecidableEq, Repr

/-- `String.prototype.includes`. -/
def includes (s sub : String) : Bool :=
  s.toList.tails.any (fun t => sub.toList.isPrefixOf t)

/-- `String.prototype.startsWith`. -/
def startsWith (s pre : String) : Bool :=
  pre.toList.isPrefixOf s.toList

/-! ## geminiConfig.js -/

/-- `FALLBACK_MODELS` of geminiConfig.js. -/
def FALLBACK_MODELS : List String :=
  ["gemini-2.0-flash", "gemini-1.5-flash", "gemini-1.5-flash-8b", "gemini-1.5-pro", "gemini-pro"]

/-- `is404OrNotSupported(err)`: the "model unusable" classification. -/
def is404OrNotSupported (err : Err) : Bool :=
  let msg := err.message
  includes msg "404" ||
  includes msg "not found" ||
  includes msg "not supported" ||
  (includes msg "Model" && includes msg "does not exist")

/-! ## Objects exchanged with the backend -/

/-- A tool result: a plain object, as the ordered list of its own fields. -/
abbrev ToolResult := List (String × JVal)

/-- Property read `o[k]` on a plain object. -/
def getField (o : ToolResult) (k : String) : Option JVal :=
  (o.find? (fun kv => kv.1 == k)).map (fun kv => kv.2)

/-- The statement `delete o[k]`. -/
def deleteField (o : ToolResult) (k : String) : ToolResult :=
  o.filter (fun kv => !(kv.1 == k))

/-- The `functionCall` member of a response part. -/
structure FunctionCall where
  name : String
  args : JVal

/-- The `executableCode` member of a response part. -/
structure ExecutableCode where
  language : Option String
  code : String

/-- The `codeExecutionResult` member of a response part. -/
structure CodeExecutionResult where
  outcome : String
  output : String

/-- The `inlineData` member of a part. -/
structure InlineData where
  mimeType : Option String
  data : String

/-- One part of a backend response or of a streamed chunk. -/
structure Part where
  text : Option String := none
  functionCall : Option FunctionCall := none
  executableCode : Option ExecutableCode := none
  codeExecutionResult : Option CodeExecutionResult := none
  inlineData : Option InlineData := none

/-- A backend response, seen through the three expressions the sessions
evaluate on it: `response.candidates?.[0]?.content?.parts || []`,
`response.candidates?.[0]?.groundingMetadata` and the call `response.text()`
(which the SDK lets throw). -/
structure Response where
  parts : List Part
  groundingMetadata : Option JVal := none
  text : Except Err String

/-- What `chat.sendMessageStream` resolves to: the chunks the stream delivers
(each as `chunk.candidates?.[0]?.content?.parts || []`), the error the stream
raises after them (if any), and the outcome of `await result.response`. -/
structure StreamResult where
  chunks : List (List Part)
  streamError : Option Err := none
  response : Except Err Response

/-- A part of an outbound message. -/
inductive OutPart where
  | text (text : String) : OutPart
  | inlineData (mimeType : String) (data : String) : OutPart
  | functionResponse (name : String) (result : ToolResult) : OutPart

/-- A turn of the chat history handed to `startChat`. -/
structure Turn where
  role : String
  parts : List OutPart

/-- The `tools` member of the model configuration. -/
inductive Tools where
  | search : Tools
  | codeExecution : Tools
  | functionDeclarations : Tools

/-- The chat object: model name, tools and the history it was started with. -/
structure Chat where
  model : String
  tools : Tools
  history : List Turn

/-- External actions, in the order they are performed. -/
inductive Act where
  | startChat (chat : Chat) : Act
  | send (chat : Chat) (parts : List OutPart) : Act
  | sendStream (chat : Chat) (parts : List OutPart) : Act
  | tool (name : String) (args : JVal) : Act
  | delay (ms : Nat) : Act
  | listModels (apiKey : String) : Act

/-- Is the action an execution of the tool dispatcher? -/
def Act.isTool : Act → Bool
  | .tool _ _ => true
  | _ => false

/-- Is the action a backend call? -/
def Act.isSend : Act → Bool
  | .send _ _ => true
  | .sendStream _ _ => true
  | _ => false

/-- The candidate for which `model.startChat` opens a chat, if the action is one. -/
def Act.started? : Act → Option String
  | .startChat c => some c.model
  | _ => none

/-- The candidates attempted, in order: one chat is started per attempt. -/
def attempted (acts : List Act) : List String :=
  acts.filterMap Act.started?

/-- Number of tool-dispatcher executions in a list of actions. -/
def toolCount (acts : List Act) : Nat :=
  acts.countP Act.isTool

/-- The external collaborators, as state-passing functions on a world `σ`. -/
structure Env (σ : Type) where
  sendMessage : Chat → List OutPart → σ → Except Err Response × σ
  sendMessageStream : Chat → List OutPart → σ → Except Err StreamResult × σ
  executeTool : String → JVal → JVal → σ → Except Err ToolResult × σ

/-- A computation: result (or thrown error), new world, actions performed. -/
abbrev Run (σ α : Type) := σ → Except Err α × σ × List Act

/-! ## geminiProxy.js: retry policy -/

def MAX_RETRIES : Nat := 3

def INITIAL_DELAY_MS : Nat := 2000

/-- `isRateLimitError(err)`. -/
def isRateLimitError (err : Err) : Bool :=
  includes err.message "429" || includes err.message "Resource exhausted"

/-- The `for` loop of `withRetry`, from iteration `attempt`, with `n`
iterations left (`n = MAX_RETRIES + 1 - attempt`). -/
def withRetryLoop {σ α : Type} (fn : Run σ α) : Nat → Nat → Option Err → Run σ α
  | 0, _, lastError, s =>
    (.error (lastError.getD ⟨"undefined"⟩), s, [])
  | n + 1, attempt, _, s =>
    match fn s with
    | (.ok v, s1, a1) => (.ok v, s1, a1)
    | (.error err, s1, a1) =>
      if attempt < MAX_RETRIES && isRateLimitError err then
        let delay := INITIAL_DELAY_MS * 2 ^ attempt
        match withRetryLoop fn n (attempt + 1) (some err) s1 with
        | (r, s2, a2) => (r, s2, a1 ++ Act.delay delay :: a2)
      else
        (.error err, s1, a1)

/-- `withRetry(fn)`. -/
def withRetry {σ α : Type} (fn : Run σ α) : Run σ α :=
  withRetryLoop fn (MAX_RETRIES + 1) 0 none

/-! ## geminiProxy.js: building the conversation -/

/-- `friendlyGeminiError()`. -/
def friendlyGeminiError : Err :=
  ⟨"Gemini is not available right now. No supported model could be reached. Please try again later."⟩

/-- A caller-supplied history entry. -/
structure HistMsg where
  role : String
  content : Option String

/-- A caller-supplied image. -/
structure Img where
  mimeType : Option String
  data : String

/-- The caller identity. -/
structure UserInfo where
  firstName : Option String := none
  lastName : Option String := none

/-- The arguments of both sessions.  `newMessage` is `none` when the argument
is `undefined`; `systemPrompt` is what `loadSystemPrompt()` returns. -/
structure Args where
  systemPrompt : String := ""
  history : List HistMsg := []
  newMessage : Option String
  channelData : JVal := JVal.arr []
  imageParts : List Img := []
  useCodeExecution : Bool := false
  userInfo : Option UserInfo := none

/-- `buildSystemHistory(userInfo)`. -/
def buildSystemHistory (systemInstruction : String) (userInfo : Option UserInfo) : List Turn :=
  if systemInstruction == "" && userInfo.isNone then []
  else
    let preamble0 := if systemInstruction != "" then systemInstruction else ""
    let firstName := userInfo.bind (fun u => u.firstName)
    let preamble :=
      match firstName with
      | some fn =>
        if fn != "" then
          let last :=
            match userInfo.bind (fun u => u.lastName) with
            | some ln => if ln != "" then " " ++ ln else ""
            | none => ""
          preamble0 ++ "\n\nThe current user\x27s name is " ++ fn ++ last ++
            ". Address them by their first name."
        else preamble0
      | none => preamble0
    if preamble == "" then []
    else
      [ ⟨"user", [OutPart.text ("Follow these instructions in every response:\n\n" ++ preamble)]⟩,
        ⟨"model", [OutPart.text "Got it! I\x27ll follow those instructions."]⟩ ]

/-- The `baseHistory` of both sessions. -/
def baseHistory (history : List HistMsg) : List Turn :=
  history.map (fun m =>
    ⟨if m.role == "user" then "user" else "model", [OutPart.text (m.content.getD "")]⟩)

/-- The outbound `parts` of both sessions: the text part is dropped by the
filter exactly when `newMessage` is `undefined`. -/
def outboundParts (newMessage : Option String) (imageParts : List Img) : List OutPart :=
  (match newMessage with
   | some t => [OutPart.text t]
   | none => []) ++
  imageParts.map (fun img =>
    OutPart.inlineData
      (match img.mimeType with
       | some m => if m != "" then m else "image/png"
       | none => "image/png")
      img.data)

/-- The chat both sessions start for a candidate: `model.startChat` on
`[...buildSystemHistory(userInfo), ...baseHistory]`. -/
def chatFor (args : Args) (tools : Tools) (modelName : String) : Chat :=
  ⟨modelName, tools, buildSystemHistory args.systemPrompt args.userInfo ++ baseHistory args.history⟩

/-! ## geminiProxy.js: the tool-calling session -/

/-- An entry of `toolCalls`. -/
structure ToolCallRecord where
  name : String
  args : JVal
  result : ToolResult

/-- The record `chatWithToolsInternal` returns. -/
structure ChatResult where
  text : String
  charts : List ToolResult
  toolCalls : List ToolCallRecord

/-- One call `chat.sendMessage(parts)`. -/
def sendOnce {σ : Type} (env : Env σ) (chat : Chat) (parts : List OutPart) : Run σ Response :=
  fun s =>
    match env.sendMessage chat parts s with
    | (r, s1) => (r, s1, [Act.send chat parts])

/-- The loop `for (let round = 0; round < 5; round++)`, with `n = 5 - round`
iterations left.  `findSome?` reads `respParts.find((p) => p.functionCall)`
followed by `funcCall.functionCall`. -/
def toolLoop {σ : Type} (env : Env σ) (chat : Chat) (channelData : JVal) :
    Nat → Response → List ToolResult → List ToolCallRecord →
      Run σ (Response × List ToolResult × List ToolCallRecord)
  | 0, response, charts, toolCalls, s => (.ok (response, charts, toolCalls), s, [])
  | n + 1, response, charts, toolCalls, s =>
    match response.parts.findSome? (fun p => p.functionCall) with
    | none => (.ok (response, charts, toolCalls), s, [])
    | some fc =>
      match env.executeTool fc.name fc.args channelData s with
      | (.error e, s1) => (.error e, s1, [Act.tool fc.name fc.args])
      | (.ok toolResult, s1) =>
        let displayResult := toolResult
        let geminiResult := deleteField toolResult "imageBase64"
        let toolCalls1 := toolCalls ++ [⟨fc.name, fc.args, displayResult⟩]
        let charts1 :=
          if truthyField (getField displayResult "_toolType") then charts ++ [displayResult]
          else charts
        match withRetry (sendOnce env chat [OutPart.functionResponse fc.name geminiResult]) s1 with
        | (.error e, s2, a2) => (.error e, s2, Act.tool fc.name fc.args :: a2)
        | (.ok response1, s2, a2) =>
          match toolLoop env chat channelData n response1 charts1 toolCalls1 s2 with
          | (r, s3, a3) => (r, s3, Act.tool fc.name fc.args :: (a2 ++ a3))

/-- The `try` block of `chatWithToolsInternal` for one candidate. -/
def chatWithToolsAttempt {σ : Type} (env : Env σ) (args : Args) (modelName : String) :
    Run σ ChatResult :=
  fun s =>
    let chat := chatFor args Tools.functionDeclarations modelName
    let parts := outboundParts args.newMessage args.imageParts
    match withRetry (sendOnce env chat parts) s with
    | (.error e, s1, a1) => (.error e, s1, Act.startChat chat :: a1)
    | (.ok response, s1, a1) =>
      match toolLoop env chat args.channelData 5 response [] [] s1 with
      | (.error e, s2, a2) => (.error e, s2, Act.startChat chat :: (a1 ++ a2))
      | (.ok (response1, charts, toolCalls), s2, a2) =>
        match response1.text with
        | .error e => (.error e, s2, Act.startChat chat :: (a1 ++ a2))
        | .ok t => (.ok ⟨t, charts, toolCalls⟩, s2, Act.startChat chat :: (a1 ++ a2))

/-- The loop `for (const modelName of modelsToTry)` of `chatWithToolsInternal`
with its `catch`, followed by `throw friendlyGeminiError()`. -/
def chatWithToolsModels {σ : Type} (env : Env σ) (args : Args) : List String → Run σ ChatResult
  | [], s => (.error friendlyGeminiError, s, [])
  | modelName :: rest, s =>
    match chatWithToolsAttempt env args modelName s with
    | (.ok r, s1, a1) => (.ok r, s1, a1)
    | (.error err, s1, a1) =>
      if is404OrNotSupported err then
        match chatWithToolsModels env args rest s1 with
        | (r, s2, a2) => (r, s2, a1 ++ a2)
      else (.error err, s1, a1)

/-- `chatWithToolsInternal`.  `apiKey` is `process.env.GEMINI_API_KEY` and
`modelsToTry` is what `getModelFallbackList()` returns once
`getGeminiModelName()` has resolved. -/
def chatWithToolsInternal {σ : Type} (env : Env σ) (apiKey : Option String)
    (modelsToTry : List String) (args : Args) : Run σ ChatResult :=
  fun s =>
    if !truthyStr apiKey then (.error ⟨"GEMINI_API_KEY not configured"⟩, s, [])
    else chatWithToolsModels env args modelsToTry s

/-! ## geminiProxy.js: the streaming session -/

/-- A typed entry of the `parts` of a `fullResponse` event. -/
inductive SPart where
  | text (text : String) : SPart
  | code (language : String) (code : String) : SPart
  | result (outcome : String) (output : String) : SPart
  | image (mimeType : Option String) (data : String) : SPart

/-- An event yielded by `streamChatInternal`. -/
inductive StreamEvent where
  | text (text : String) : StreamEvent
  | fullResponse (parts : List SPart) : StreamEvent
  | grounding (data : JVal) : StreamEvent

/-- A generator run: events yielded in order, how it finished (`return` or
a thrown error), new world, actions performed. -/
abbrev Gen (σ : Type) := σ → List StreamEvent × Except Err Unit × σ × List Act

/-- One call `chat.sendMessageStream(parts)`. -/
def sendStreamOnce {σ : Type} (env : Env σ) (chat : Chat) (parts : List OutPart) :
    Run σ StreamResult :=
  fun s =>
    match env.sendMessageStream chat parts s with
    | (r, s1) => (r, s1, [Act.sendStream chat parts])

/-- The statement `if (part.text) yield { type: 'text', text: part.text }`:
the event it yields, if any. -/
def textEvent? (part : Part) : Option StreamEvent :=
  match part.text with
  | some t => if t != "" then some (StreamEvent.text t) else none
  | none => none

/-- The events of the inner loop `for (const part of chunkParts)`. -/
def chunkEvents (chunkParts : List Part) : List StreamEvent :=
  chunkParts.filterMap textEvent?

/-- The events of `for await (const chunk of result.stream)`. -/
def streamEvents : List (List Part) → List StreamEvent
  | [] => []
  | chunk :: rest => chunkEvents chunk ++ streamEvents rest

/-- The predicate of `allParts.some(...)`. -/
def isCodeExecutionPart (p : Part) : Bool :=
  p.executableCode.isSome ||
  p.codeExecutionResult.isSome ||
  (match p.inlineData with
   | some d =>
     (match d.mimeType with
      | some m => startsWith m "image/"
      | none => false)
   | none => false)

/-- `hasCodeExecution`. -/
def hasCodeExecution (allParts : List Part) : Bool :=
  allParts.any isCodeExecutionPart

/-- The mapping function of `structuredParts` (`none` is `null`). -/
def structuredPart (p : Part) : Option SPart :=
  if truthyStr p.text then some (SPart.text (p.text.getD ""))
  else
    match p.executableCode with
    | some ec =>
      some (SPart.code (if truthyStr ec.language then ec.language.getD "" else "PYTHON") ec.code)
    | none =>
      match p.codeExecutionResult with
      | some r => some (SPart.result r.outcome r.output)
      | none =>
        match p.inlineData with
        | some d => some (SPart.image d.mimeType d.data)
        | none => none

/-- `structuredParts`: `allParts.map(...).filter(Boolean)`. -/
def structuredParts (allParts : List Part) : List SPart :=
  allParts.filterMap structuredPart

/-- The events yielded after `await result.response`. -/
def finalEvents (response : Response) : List StreamEvent :=
  (if hasCodeExecution response.parts then
     [StreamEvent.fullResponse (structuredParts response.parts)]
   else []) ++
  (match response.groundingMetadata with
   | some g => if g.truthy then [StreamEvent.grounding g] else []
   | none => [])

/-- The `tools` of the streaming session. -/
def streamTools (args : Args) : Tools :=
  if args.useCodeExecution then Tools.codeExecution else Tools.search

/-- The `try` block of `streamChatInternal` for one candidate. -/
def streamAttempt {σ : Type} (env : Env σ) (args : Args) (modelName : String) : Gen σ :=
  fun s =>
    let chat := chatFor args (streamTools args) modelName
    let parts := outboundParts args.newMessage args.imageParts
    match withRetry (sendStreamOnce env chat parts) s with
    | (.error e, s1, a1) => ([], .error e, s1, Act.startChat chat :: a1)
    | (.ok result, s1, a1) =>
      let texts := streamEvents result.chunks
      match result.streamError with
      | some e => (texts, .error e, s1, Act.startChat chat :: a1)
      | none =>
        match result.response with
        | .error e => (texts, .error e, s1, Act.startChat chat :: a1)
        | .ok response => (texts ++ finalEvents response, .ok (), s1, Act.startChat chat :: a1)

/-- The loop `for (const modelName of modelsToTry)` of `streamChatInternal`
with its `catch`, followed by `throw friendlyGeminiError()`. -/
def streamModels {σ : Type} (env : Env σ) (args : Args) : List String → Gen σ
  | [], s => ([], .error friendlyGeminiError, s, [])
  | modelName :: rest, s =>
    match streamAttempt env args modelName s with
    | (evs, .ok u, s1, a1) => (evs, .ok u, s1, a1)
    | (evs, .error err, s1, a1) =>
      if is404OrNotSupported err then
        match streamModels env args rest s1 with
        | (evs2, r, s2, a2) => (evs ++ evs2, r, s2, a1 ++ a2)
      else (evs, .error err, s1, a1)

/-- `streamChatInternal`, with `apiKey` and `modelsToTry` as in
`chatWithToolsInternal`. -/
def streamChatInternal {σ : Type} (env : Env σ) (apiKey : Option String)
    (modelsToTry : List String) (args : Args) : Gen σ :=
  fun s =>
    if !truthyStr apiKey then ([], .error ⟨"GEMINI_API_KEY not configured"⟩, s, [])
    else streamModels env args modelsToTry s

/-! ## index.js: the `/api/gemini/stream` handler -/

/-- The HTTP response object, as far as the handler drives it. -/
structure Res where
  statusCode : Nat := 200
  headers : List (String × String) := []
  headersSent : Bool := false
  written : List String := []
  jsonBody : Option JVal := none
  ended : Bool := false

/-- `res.status(code).json(body)`. -/
def Res.sendJson (res : Res) (code : Nat) (body : JVal) : Res :=
  { res with statusCode := code, headersSent := true, jsonBody := some body, ended := true }

/-- `res.write(line)`. -/
def Res.write (res : Res) (line : String) : Res :=
  { res with headersSent := true, written := res.written ++ [line] }

/-- `res.end()`. -/
def Res.end (res : Res) : Res :=
  { res with headersSent := true, ended := true }

/-- The body of `for await (const chunk of ...) res.write(JSON.stringify(chunk) + '\n')`. -/
def writeEvents (stringify : StreamEvent → String) : List StreamEvent → Res → Res
  | [], res => res
  | chunk :: rest, res => writeEvents stringify rest (res.write (stringify chunk ++ "\n"))

/-- The handler `app.post('/api/gemini/stream', ...)`.  `stringify` is
`JSON.stringify`; `args.newMessage` is the `message` member of the request
body. -/
def streamRoute {σ : Type} (env : Env σ) (stringify : StreamEvent → String)
    (apiKey : Option String) (modelsToTry : List String) (args : Args) :
    σ → Res × σ × List Act :=
  fun s =>
    let res : Res := {}
    if !truthyStr args.newMessage then
      (res.sendJson 400 (JVal.obj [("error", JVal.str "message required")]), s, [])
    else
      let res1 : Res :=
        { res with headers :=
            [("Content-Type", "application/x-ndjson"), ("Cache-Control", "no-cache"),
             ("Connection", "keep-alive")] }
      match streamChatInternal env apiKey modelsToTry args s with
      | (evs, .ok _, s1, a1) => ((writeEvents stringify evs res1).end, s1, a1)
      | (evs, .error err, s1, a1) =>
        let res2 := writeEvents stringify evs res1
        if !res2.headersSent then
          (res2.sendJson 500 (JVal.obj [("error", JVal.str err.message)]), s1, a1)
        else (res2.end, s1, a1)

/-- The `catch` block of the handler `app.post('/api/youtube/download', ...)`
of index.js, which streams its lines in the same way.  `stringifyError` is
`JSON.stringify` of the event of type `error` that carries the message. -/
def downloadCatch (stringifyError : String → String) (err : Err) (res : Res) : Res :=
  if !res.headersSent then res.sendJson 500 (JVal.obj [("error", JVal.str err.message)])
  else (res.write (stringifyError err.message ++ "\n")).end

/-! ## Behaviours of the collaborators, as the statements below name them -/

/-- Every candidate of the list is attempted in turn by the tool-calling
session, starting in world `s`, and each attempt fails with an error that
`is404OrNotSupported` classifies as model-unusable; `s'` is the world after
the last of them and `acts` the actions performed on the way. -/
def ToolsAttemptsFail {σ : Type} (env : Env σ) (args : Args) :
    List String → σ → σ → List Act → Prop
  | [], s, s', acts => s' = s ∧ acts = []
  | m :: rest, s, s', acts =>
    ∃ e s1 a1 a2,
      chatWithToolsAttempt env args m s = (.error e, s1, a1) ∧
      is404OrNotSupported e = true ∧
      ToolsAttemptsFail env args rest s1 s' a2 ∧
      acts = a1 ++ a2

/-- For every candidate of the list in turn, starting in world `s`, the
call `withRetry(() => chat.sendMessageStream(parts))` of the streaming
session fails with a model-unusable error. -/
def StreamCallsFail {σ : Type} (env : Env σ) (args : Args) :
    List String → σ → σ → List Act → Prop
  | [], s, s', acts => s' = s ∧ acts = []
  | m :: rest, s, s', acts =>
    ∃ e s1 a1 a2,
      withRetry (sendStreamOnce env (chatFor args (streamTools args) m)
        (outboundParts args.newMessage args.imageParts)) s = (.error e, s1, a1) ∧
      is404OrNotSupported e = true ∧
      StreamCallsFail env args rest s1 s' a2 ∧
      acts = Act.startChat (chatFor args (streamTools args) m) :: a1 ++ a2

/-- One tool round as the backend and the dispatcher play it: the call the
response requests, what the dispatcher returns for it, and the response the
backend gives to the function response. -/
structure Round where
  call : FunctionCall
  result : ToolResult
  next : Response

/-- Starting from response `resp` in world `s`, the backend and the
dispatcher play the given rounds one after the other, ending in world `s'`:
each response requests the round's call, the dispatcher returns the round's
result, and the backend answers the function response with the round's next
response. -/
def RoundsPlay {σ : Type} (env : Env σ) (chat : Chat) (channelData : JVal) :
    Response → σ → List Round → σ → Prop
  | _, s, [], s' => s' = s
  | resp, s, r :: more, s' =>
    resp.parts.findSome? (fun p => p.functionCall) = some r.call ∧
    ∃ s1 s2 a,
      env.executeTool r.call.name r.call.args channelData s = (.ok r.result, s1) ∧
      withRetry (sendOnce env chat
        [OutPart.functionResponse r.call.name (deleteField r.result "imageBase64")]) s1
        = (.ok r.next, s2, a) ∧
      RoundsPlay env chat channelData r.next s2 more s'

/-- The last response of a run: the response to the last round, or the first
response when there was no round. -/
def finalResponse (first : Response) (rounds : List Round) : Response :=
  match rounds.getLast? with
  | some r => r.next
  | none => first

/-- Is the event a `fullResponse` event? -/
def StreamEvent.isFullResponse : StreamEvent → Bool
  | .fullResponse _ => true
  | _ => false

/-- A streamed fragment that carries the text `t` and nothing else. -/
def textFragment (t : String) : List Part :=
  [{ text := some t }]

/-- The response part has a code-execution artifact or an inline image:
`executableCode`, a `codeExecutionResult`, or `inlineData` whose mime type
starts with `image/`. -/
def HasArtifact (p : Part) : Prop :=
  p.executableCode ≠ none ∨ p.codeExecutionResult ≠ none ∨
  ∃ d mime, p.inlineData = some d ∧ d.mimeType = some mime ∧ startsWith mime "image/" = true

/-- The response part has text (a non-empty string: the empty string is
falsy), `executableCode`, a `codeExecutionResult` or `inlineData`. -/
def hasContent (p : Part) : Bool :=
  truthyStr p.text || p.executableCode.isSome || p.codeExecutionResult.isSome ||
    p.inlineData.isSome

/-- Entry `e` is a typed entry (text, code, result or image) built from a
member of part `p`. -/
def EntryOf (p : Part) (e : SPart) : Prop :=
  (∃ t, p.text = some t ∧ e = SPart.text t) ∨
  (∃ ec language, p.executableCode = some ec ∧ e = SPart.code language ec.code) ∨
  (∃ r, p.codeExecutionResult = some r ∧ e = SPart.result r.outcome r.output) ∨
  (∃ d, p.inlineData = some d ∧ e = SPart.image d.mimeType d.data)

/-- No function response carried by the action holds an `imageBase64` field. -/
def NoImageSent (a : Act) : Prop :=
  ∀ (chat : Chat) (parts : List OutPart), a = Act.send chat parts →
    ∀ (name : String) (g : ToolResult), OutPart.functionResponse name g ∈ parts →
      getField g "imageBase64" = none

/-- The shape "the event lines followed by exactly one terminal error
indicator" of the output of a failed stream. -/
def EndsWithOneErrorIndicator (lines : List String) (res : Res) : Prop :=
  ∃ indicator : String, res.written = lines ++ [indicator]

/-! ## Concrete collaborators -/

/-- A response part that requests the tool `lookup` with `{q: "x"}`. -/
def lookupCall : Part :=
  { functionCall := some ⟨"lookup", JVal.obj [("q", JVal.str "x")]⟩ }

/-- A response that requests `lookup`. -/
def callResponse : Response :=
  { parts := [lookupCall], text := .ok "" }

/-- A final response with the given text. -/
def textResponse (t : String) : Response :=
  { parts := [{ text := some t }], text := .ok t }

/-- The scenario backend: the first response requests `lookup`, the second is
the final answer; the dispatcher returns `{value: 42}`.  The world counts the
backend calls. -/
def envLookup : Env Nat where
  sendMessage := fun _ _ s =>
    if s = 0 then (.ok callResponse, s + 1) else (.ok (textResponse "The answer is 42"), s + 1)
  sendMessageStream := fun _ _ s => (.error ⟨"no stream"⟩, s)
  executeTool := fun _ _ _ s => (.ok [("value", JVal.num 42)], s)

/-- A backend on which candidate `m1` stops answering after three calls with
a 404, while every other candidate keeps requesting `lookup`. -/
def envRestart : Env Nat where
  sendMessage := fun chat _ s =>
    if chat.model == "m1" && decide (3 ≤ s) then (.error ⟨"404"⟩, s + 1)
    else (.ok callResponse, s + 1)
  sendMessageStream := fun _ _ s => (.error ⟨"no stream"⟩, s)
  executeTool := fun _ _ _ s => (.ok [("value", JVal.num 42)], s)

/-- The result of an image tool: it carries `imageBase64`. -/
def imageResult : ToolResult :=
  [("_toolType", JVal.str "image"), ("imageBase64", JVal.str "iVBORw0KGgo="),
   ("mimeType", JVal.str "image/png")]

/-- A backend that requests one tool whose result is `imageResult`. -/
def envImage : Env Nat where
  sendMessage := fun _ _ s =>
    if s = 0 then (.ok callResponse, s + 1) else (.ok (textResponse "Here it is"), s + 1)
  sendMessageStream := fun _ _ s => (.error ⟨"no stream"⟩, s)
  executeTool := fun _ _ _ s => (.ok imageResult, s)

/-- The stream of the scenario: fragments "Hi" and " there", then a final
response without code, image or grounding. -/
def hiThere : StreamResult :=
  { chunks := [[{ text := some "Hi" }], [{ text := some " there" }]],
    response := .ok (textResponse "Hi there") }

/-- A backend on which every candidate whose name starts with `bad` is
unusable (404) and every other candidate answers at once. -/
def envFallback : Env Nat where
  sendMessage := fun chat _ s =>
    if startsWith chat.model "bad" then (.error ⟨"404 model not found"⟩, s + 1)
    else (.ok (textResponse "Hello"), s + 1)
  sendMessageStream := fun chat _ s =>
    if startsWith chat.model "bad" then (.error ⟨"404 model not found"⟩, s + 1)
    else (.ok hiThere, s + 1)
  executeTool := fun _ _ _ s => (.ok [], s)

/-- A final response of a code-execution stream: text, code, its result, an
image and a part with nothing the session reads. -/
def codeResponse : Response :=
  { parts :=
      [ { text := some "Plot:" },
        { executableCode := some ⟨none, "print(1)"⟩ },
        { codeExecutionResult := some ⟨"OUTCOME_OK", "1"⟩ },
        { },
        { inlineData := some ⟨some "image/png", "iVBORw0KGgo="⟩ } ],
    text := .ok "Plot:" }

/-- A backend whose stream ends with `codeResponse`. -/
def envCode : Env Nat where
  sendMessage := fun _ _ s => (.error ⟨"no chat"⟩, s)
  sendMessageStream := fun _ _ s =>
    (.ok { chunks := [[{ text := some "Plot:" }]], response := .ok codeResponse }, s + 1)
  executeTool := fun _ _ _ s => (.ok [], s)

/-- A backend whose stream delivers "Hi" and then breaks. -/
def envBroken : Env Nat where
  sendMessage := fun _ _ s => (.error ⟨"no chat"⟩, s)
  sendMessageStream := fun _ _ s =>
    (.ok { chunks := [[{ text := some "Hi" }]], streamError := some ⟨"socket hang up"⟩,
           response := .error ⟨"socket hang up"⟩ }, s + 1)
  executeTool := fun _ _ _ s => (.ok [], s)

/-- A rendering of events as lines, standing for `JSON.stringify`. -/
def showEvent : StreamEvent → String
  | .text t => "text " ++ t
  | .fullResponse _ => "fullResponse"
  | .grounding _ => "grounding"

/-- The request of the scenarios: empty history, message "Hello". -/
def helloArgs : Args :=
  { newMessage := some "Hello" }

/-! ## geminiConfig.js: model selection -/

/-- A model descriptor returned by the discovery endpoint. -/
structure ModelDesc where
  name : Option String

/-- The HTTP response of the discovery request, seen through what
`fetchAvailableModels` reads of it: `res.ok`, `res.status`, the call
`res.text()`, and `(await res.json()).models` (an error when the body cannot
be read as an object). -/
structure HttpRes where
  ok : Bool
  status : Nat
  text : Except Err String
  models : Except Err (Option (List ModelDesc))

/-- The discovery request `fetch(url)` for an API key, on a world `σ`. -/
abbrev Discovery (σ : Type) := String → σ → Except Err HttpRes × σ

/-- The module state of geminiConfig.js. -/
structure ConfigCache where
  cachedModel : Option String := none
  cachedModelList : Option (List String) := none

/-- `fetchAvailableModels(apiKey)`. -/
def fetchAvailableModels {σ : Type} (http : Discovery σ) (apiKey : String) :
    Run σ (List ModelDesc) :=
  fun s =>
    match http apiKey s with
    | (.error e, s1) => (.error e, s1, [Act.listModels apiKey])
    | (.ok res, s1) =>
      if !res.ok then
        match res.text with
        | .error e => (.error e, s1, [Act.listModels apiKey])
        | .ok text =>
          (.error ⟨"ListModels failed: " ++ toString res.status ++ " " ++ text⟩, s1,
            [Act.listModels apiKey])
      else
        match res.models with
        | .error e => (.error e, s1, [Act.listModels apiKey])
        | .ok models => (.ok (models.getD []), s1, [Act.listModels apiKey])

/-- `name.replace(/^models\//, '')`. -/
def stripModels (name : String) : String :=
  if startsWith name "models/" then String.mk (name.toList.drop 7) else name

/-- `models.map((m) => (m.name || '').replace(/^models\//, '')).filter(Boolean)`. -/
def modelNames (models : List ModelDesc) : List String :=
  (models.map (fun m => stripModels (m.name.getD ""))).filter (fun n => n != "")

/-- `/pattern/i.test(n)` for a lower-case ASCII pattern without
metacharacters: without the `u` flag only ASCII letters fold onto ASCII. -/
def testI (pattern : String) (n : String) : Bool :=
  includes (String.mk (n.toList.map Char.toLower)) pattern

/-- `pickBestModel(models)`; `none` is `null`. -/
def pickBestModel (models : List ModelDesc) : Option String :=
  let names := modelNames models
  let flash := names.find? (testI "flash")
  if truthyStr flash then flash
  else
    let pro := names.find? (testI "pro")
    if truthyStr pro then pro
    else
      let any := names.find? (testI "gemini")
      if truthyStr any then any else none

/-- `getGeminiModelName()`: result (`none` is `null`/`undefined`), new module
state, new world, actions.  `apiKey` is `process.env.GEMINI_API_KEY`. -/
def getGeminiModelName {σ : Type} (http : Discovery σ) (apiKey : Option String)
    (cache : ConfigCache) (s : σ) : Except Err (Option String) × ConfigCache × σ × List Act :=
  if truthyStr cache.cachedModel then (.ok cache.cachedModel, cache, s, [])
  else if !truthyStr apiKey then (.error ⟨"GEMINI_API_KEY not configured"⟩, cache, s, [])
  else
    match fetchAvailableModels http (apiKey.getD "") s with
    | (.ok models, s1, a1) =>
      let cache1 := { cache with cachedModelList := some (modelNames models) }
      let selected := pickBestModel models
      if truthyStr selected then
        (.ok selected, { cache1 with cachedModel := selected }, s1, a1)
      else
        (.ok FALLBACK_MODELS[0]?, { cache1 with cachedModel := FALLBACK_MODELS[0]? }, s1, a1)
    | (.error _, s1, a1) =>
      (.ok FALLBACK_MODELS[0]?, { cache with cachedModel := FALLBACK_MODELS[0]? }, s1, a1)

/-- `getCachedModel()`. -/
def getCachedModel (cache : ConfigCache) : Option String :=
  cache.cachedModel

/-- `[...new Set(list)]`: every value once, in order of first occurrence. -/
def setValues (list : List String) : List String :=
  list.foldl (fun acc x => if x ∈ acc then acc else acc ++ [x]) []

/-- The function of `.filter(Boolean)` on a value that may be `null`. -/
def keepTruthy (m : Option String) : Option String :=
  if truthyStr m then m else none

/-- `getModelFallbackList()`. -/
def getModelFallbackList (cache : ConfigCache) : List String :=
  let list :=
    (cache.cachedModel ::
      (FALLBACK_MODELS.filter (fun m => decide (some m ≠ cache.cachedModel))).map some)
      |>.filterMap keepTruthy
  setValues list

/-- `invalidateModelCache()`. -/
def invalidateModelCache (cache : ConfigCache) : ConfigCache :=
  { cache with cachedModel := none }

/-- `setModelToTry(modelName)`. -/
def setModelToTry (modelName : String) (cache : ConfigCache) : ConfigCache :=
  { cache with cachedModel := some modelName }

/-! ## Observing the retry policy -/

/-- The outcome of invocation number `i` (from 0) of an operation that is
invoked again and again, starting in world `s`. -/
def nthOutcome {σ α : Type} (fn : Run σ α) : Nat → σ → Except Err α
  | 0, s => (fn s).1
  | i + 1, s => nthOutcome fn i (fn s).2.1

/-- The world after `i` invocations of the operation, starting in `s`. -/
def afterInvocations {σ α : Type} (fn : Run σ α) : Nat → σ → σ
  | 0, s => s
  | i + 1, s => afterInvocations fn i (fn s).2.1

/-- The operation with an invocation counter added to the world. -/
def counted {σ α : Type} (fn : Run σ α) : Run (σ × Nat) α :=
  fun sc =>
    match fn sc.1 with
    | (r, s1, a) => (r, (s1, sc.2 + 1), a)

/-- The delays waited, in milliseconds, in order. -/
def delaysOf (acts : List Act) : List Nat :=
  acts.filterMap (fun a =>
    match a with
    | .delay ms => some ms
    | _ => none)

/-- The actions of `k` invocations of the operation, each followed by the
backoff delay of its iteration, from iteration `attempt` in world `s`. -/
def retriedActs {σ α : Type} (fn : Run σ α) : Nat → Nat → σ → List Act
  | 0, _, _ => []
  | k + 1, attempt, s =>
    (fn s).2.2 ++ Act.delay (INITIAL_DELAY_MS * 2 ^ attempt)
      :: retriedActs fn k (attempt + 1) (fn s).2.1

/-- Name `n` is the first of `names` that satisfies `p`. -/
def FirstWith (p : String → Bool) (names : List String) (n : String) : Prop :=
  ∃ before after, names = before ++ n :: after ∧ p n = true ∧ ∀ x ∈ before, p x = false

/-- A discovery endpoint that cannot be reached. -/
def unreachableDiscovery : Discovery Nat :=
  fun _ s => (.error ⟨"fetch failed"⟩, s + 1)

/-- A discovery endpoint that lists the given names. -/
def listing (names : List String) : Discovery Nat :=
  fun _ s =>
    (.ok { ok := true, status := 200, text := .ok "",
           models := .ok (some (names.map (fun n => ⟨some n⟩))) }, s + 1)

/-- An operation that is rate-limited on its first `k` invocations and then
returns the number of the invocation.  The world counts the invocations. -/
def limitedFor (k : Nat) : Run Nat Nat :=
  fun s => if s < k then (.error ⟨"429 Too Many Requests"⟩, s + 1, []) else (.ok s, s + 1, [])

/-- An operation that always fails with the given message. -/
def failing (message : String) : Run Nat Nat :=
  fun s => (.error ⟨message ++ " #" ++ toString s⟩, s + 1, [])

/-! ## youtubeTools.js: the tools -/

/-- A loaded record (a video, a CSV row): a plain object, as the ordered list
of its own fields. -/
abbrev Record := List (String × JVal)

/-- `Object.keys(record)`. -/
def keysOf (r : Record) : List String :=
  r.map (fun kv => kv.1)

/-- The built-ins of the language that the tools rely on and that are kept
abstract: an arbitrary type `Num` stands for the numbers of the language. -/
structure Js (Num : Type) where
  /-- `String.prototype.toLowerCase`. -/
  toLowerCase : String → String
  /-- `parseFloat(x)` of a property read; `none` is `NaN`. -/
  parseFloat : Option JVal → Option Num
  /-- `String(x)`, as in a template literal. -/
  toStr : JVal → String
  /-- A number as a value of a result. -/
  numJson : Num → JVal
  /-- `fmt(mean)` of computeStatsJson. -/
  mean : List Num → JVal
  /-- `fmt(median(sorted))`. -/
  median : List Num → JVal
  /-- `fmt(Math.sqrt(variance))`. -/
  std : List Num → JVal
  /-- `Math.min(...vals)`. -/
  min : List Num → JVal
  /-- `Math.max(...vals)`. -/
  max : List Num → JVal
  /-- `new URL(url)`: the `v` search parameter and the path, `none` when the
  constructor throws. -/
  parseUrl : String → Option (Option String × String)
  /-- `s.slice(0, n)` of a string, as a value of a result: the first `n`
  UTF-16 code units, which end in half a surrogate pair when the cut falls
  inside one. -/
  slice : String → Nat → JVal

/-- The class `\s` of a regular expression, also what `trim` removes. -/
def isJsSpace (c : Char) : Bool :=
  c.toNat ∈ [9, 10, 11, 12, 13, 32, 0xa0, 0x1680, 0x2028, 0x2029, 0x202f, 0x205f, 0x3000, 0xfeff]
    || (0x2000 ≤ c.toNat && c.toNat ≤ 0x200a)

/-- `String.prototype.trim`. -/
def trim (s : String) : String :=
  String.mk ((s.toList.dropWhile isJsSpace).reverse.dropWhile isJsSpace).reverse

/-- `length` of a string: UTF-16 code units. -/
def utf16Length (cs : List Char) : Nat :=
  (cs.map (fun c => if 0x10000 ≤ c.toNat then 2 else 1)).sum

/-- `keys.join(', ')` and the like. -/
def joinWith (sep : String) : List String → String
  | [] => ""
  | [x] => x
  | x :: y :: rest => x ++ sep ++ joinWith sep (y :: rest)

/-- The `norm` of resolveField and resolveCol:
`s.toLowerCase().replace(/[\s_-]+/g, '')`. -/
def norm {Num : Type} (js : Js Num) (s : String) : String :=
  String.mk ((js.toLowerCase s).toList.filter
    (fun c => !(isJsSpace c || c == '_' || c == '-')))

/-- `resolveField(videos, field)` for a string `field`. -/
def resolveField {Num : Type} (js : Js Num) (videos : List Record) (field : String) : String :=
  match videos with
  | [] => field
  | first :: _ =>
    if field == "" then field
    else
      let keys := keysOf first
      if keys.contains field then field
      else
        match keys.find? (fun k => norm js k == norm js field) with
        | some k => if k != "" then k else field
        | none => field

/-- The arguments of a tool call, as the declarations of
`YOUTUBE_TOOL_DECLARATIONS` type them; `none` is a missing argument. -/
structure ToolArgs where
  field : Option String := none
  metric : Option String := none
  sort : Option String := none
  video_limit : Option Int := none
  query : Option String := none
  prompt : Option String := none
  anchor_description : Option String := none

/-- `resolveField(videos, args.x)` for an argument that may be missing:
`undefined` is falsy and is returned as it is. -/
def resolveArg {Num : Type} (js : Js Num) (videos : List Record) :
    Option String → Option String
  | none => none
  | some field => some (resolveField js videos field)

/-- The property name `v[field]` reads, and the text `${field}` shows, for a
field that may be `undefined`. -/
def fieldName (field : Option String) : String :=
  field.getD "undefined"

/-- `numericValues(videos, field)`. -/
def numericValues {Num : Type} (js : Js Num) (videos : List Record) (field : Option String) :
    List Num :=
  videos.filterMap (fun v => js.parseFloat (getField v (fieldName field)))

/-- A property of a result whose value may be `undefined`: it is left out, as
in the JSON form of the result. -/
def optField (k : String) : Option JVal → List (String × JVal)
  | none => []
  | some v => [(k, v)]

/-- `computeStatsJson(args, videos)`. -/
def computeStatsJson {Num : Type} (js : Js Num) (args : ToolArgs) (videos : List Record) :
    ToolResult :=
  let field := resolveArg js videos args.field
  let vals := numericValues js videos field
  if vals.isEmpty then
    let available :=
      match videos with
      | first :: _ => joinWith ", " (keysOf first)
      | [] => "none"
    [("error", JVal.str ("No numeric values for \"" ++ fieldName field ++
      "\". Available fields: " ++ available))]
  else
    [("_toolType", JVal.str "stats")] ++ optField "field" (field.map JVal.str) ++
    [("n", JVal.num vals.length), ("mean", js.mean vals), ("median", js.median vals),
     ("std", js.std vals), ("min", js.min vals), ("max", js.max vals)]

/-- An element of `mapped` in plotMetricVsTime, after the filter on
`value`: `date` is the truthy `release_date` as it was read, `title` the
sliced title. -/
structure PlotPoint (Num : Type) where
  date : JVal
  title : JVal
  value : Num
  video_url : JVal

/-- `array.map(f)` for a callback that may throw: the elements are visited in
order and the first error ends the call. -/
def mapExcept {α β : Type} (f : α → Except Err β) : List α → Except Err (List β)
  | [] => .ok []
  | a :: rest =>
    match f a with
    | .error e => .error e
    | .ok b =>
      match mapExcept f rest with
      | .error e => .error e
      | .ok bs => .ok (b :: bs)

/-- `array.find(p)` for a callback that may throw. -/
def findExcept {α : Type} (p : α → Except Err Bool) : List α → Except Err (Option α)
  | [] => .ok none
  | a :: rest =>
    match p a with
    | .error e => .error e
    | .ok true => .ok (some a)
    | .ok false => findExcept p rest

/-- `(v.title || '').toLowerCase()`: a missing or falsy title reads as `''`; a
truthy title that is not a string has no `toLowerCase`, and the call throws a
TypeError. -/
def lowerTitle {Num : Type} (js : Js Num) (v : Record) : Except Err String :=
  match getField v "title" with
  | none => .ok (js.toLowerCase "")
  | some (JVal.str t) => .ok (js.toLowerCase t)
  | some x =>
    if x.truthy then .error ⟨"(v.title || \"\").toLowerCase is not a function"⟩
    else .ok (js.toLowerCase "")

/-- `(v.title || '').slice(0, 60)`: strings and arrays have `slice`; any other
truthy title throws a TypeError. -/
def slicedTitle {Num : Type} (js : Js Num) (v : Record) : Except Err JVal :=
  match getField v "title" with
  | none => .ok (js.slice "" 60)
  | some (JVal.str t) => .ok (js.slice t 60)
  | some (JVal.arr items) => .ok (JVal.arr (items.take 60))
  | some x =>
    if x.truthy then .error ⟨"(v.title || \"\").slice is not a function"⟩
    else .ok (js.slice "" 60)

/-- `x || null` on a property read. -/
def orNull (x : Option JVal) : JVal :=
  match x with
  | some v => if v.truthy then v else JVal.null
  | none => JVal.null

/-- An object literal assigns a property: a key already there keeps its
place and takes the new value. -/
def setField (o : Record) (k : String) (v : JVal) : Record :=
  if o.any (fun kv => kv.1 == k) then o.map (fun kv => if kv.1 == k then (k, v) else kv)
  else o ++ [(k, v)]

/-- `array.slice(0, limit)` for an integer `limit`. -/
def sliceTo {α : Type} (l : List α) (limit : Int) : List α :=
  if 0 ≤ limit then l.take limit.toNat else l.take (l.length - (-limit).toNat)

/-- `plotMetricVsTime(args, videos)`.  `sortByDate desc` is the call
`mapped.sort(...)` on the dates, kept abstract.  The call throws when a
video that passes the first filter has a title without `slice`, and when a
point of the final slice has a date that is not a string (no `split`). -/
def plotMetricVsTime {Num : Type} (js : Js Num)
    (sortByDate : Bool → List (PlotPoint Num) → List (PlotPoint Num))
    (args : ToolArgs) (videos : List Record) : Except Err ToolResult :=
  let metric := resolveArg js videos args.metric
  let sortDir := js.toLowerCase (match args.sort with
    | some d => if d != "" then d else "asc"
    | none => "asc")
  let limit : Int := match args.video_limit with
    | some n => if n != 0 then n else videos.length
    | none => videos.length
  let kept := videos.filter (fun v =>
    truthyField (getField v "release_date") &&
      (match getField v (fieldName metric) with
       | none => false
       | some JVal.null => false
       | some _ => true))
  match mapExcept (fun v =>
      match slicedTitle js v with
      | .error e => .error e
      | .ok title =>
        .ok ((getField v "release_date").getD JVal.null, title,
          js.parseFloat (getField v (fieldName metric)), orNull (getField v "video_url")))
      kept with
  | .error e => .error e
  | .ok raw =>
    let mapped : List (PlotPoint Num) :=
      raw.filterMap (fun p =>
        match p.2.2.1 with
        | some value => some ⟨p.1, p.2.1, value, p.2.2.2⟩
        | none => none)
    let sorted := sortByDate (sortDir == "desc") mapped
    match mapExcept (fun p =>
        match p.date with
        | JVal.str d =>
          .ok (JVal.obj
            (setField
              (setField
                (setField
                  (setField [] "date" (JVal.str (String.mk (d.toList.takeWhile (· != 'T')))))
                  "title" p.title)
                (fieldName metric) (js.numJson p.value))
              "video_url" p.video_url))
        | _ => .error ⟨"v.date.split is not a function"⟩)
        (sliceTo sorted limit) with
    | .error e => .error e
    | .ok data =>
      .ok ([("_toolType", JVal.str "chart"), ("chartType", JVal.str "metric_vs_time")] ++
        optField "metric" (metric.map JVal.str) ++ [("data", JVal.arr data)])

/-- `ORDINALS`, in the order of `Object.entries`. -/
def ORDINALS : List (String × Int) :=
  [("first", 0), ("1st", 0), ("second", 1), ("2nd", 1), ("third", 2), ("3rd", 2),
   ("fourth", 3), ("4th", 3), ("fifth", 4), ("5th", 4), ("sixth", 5), ("6th", 5),
   ("seventh", 6), ("7th", 6), ("eighth", 7), ("8th", 7), ("ninth", 8), ("9th", 8),
   ("tenth", 9), ("10th", 9), ("last", -1)]

/-- `a || b` on a property read. -/
def orElse (x : Option JVal) (d : JVal) : JVal :=
  match x with
  | some v => if v.truthy then v else d
  | none => d

/-- `pathname.split('/').pop()`: what follows the last `/`. -/
def lastSegment (path : String) : String :=
  String.mk (path.toList.reverse.takeWhile (· != '/')).reverse

/-- `extractVideoId(url)`. -/
def extractVideoId {Num : Type} (js : Js Num) (url : Option JVal) : String :=
  match url with
  | none => ""
  | some u =>
    if !u.truthy then ""
    else
      match js.parseUrl (js.toStr u) with
      | none => ""
      | some (v, pathname) =>
        match v with
        | some id => if id != "" then id else lastSegment pathname
        | none => lastSegment pathname

/-- `videoResult(v)`. -/
def videoResult {Num : Type} (js : Js Num) (v : Record) : ToolResult :=
  let videoId := orElse (getField v "video_id") (JVal.str (extractVideoId js (getField v "video_url")))
  [("_toolType", JVal.str "video")] ++ optField "title" (getField v "title") ++
  [("thumbnail_url", orElse (getField v "thumbnail_url")
      (JVal.str ("https://i.ytimg.com/vi/" ++ js.toStr videoId ++ "/hqdefault.jpg"))),
   ("video_url", orElse (getField v "video_url")
      (JVal.str ("https://www.youtube.com/watch?v=" ++ js.toStr videoId))),
   ("video_id", videoId)] ++
  optField "view_count" (getField v "view_count") ++
  optField "like_count" (getField v "like_count") ++
  optField "duration" (getField v "duration")

/-- `v.view_count || 0` as a number (view counts are numbers in the loaded
data). -/
def viewCount (v : Record) : Int :=
  match getField v "view_count" with
  | some (JVal.num n) => n
  | _ => 0

/-- `sorted[0]` after a stable sort with the given order on the view counts:
the first video that no other one goes before. -/
def firstBy (before : Int → Int → Bool) : List Record → Option Record
  | [] => none
  | v :: rest =>
    match firstBy before rest with
    | none => some v
    | some w => if before (viewCount w) (viewCount v) then some w else some v

/-- The loop `for (const [word, idx] of Object.entries(ORDINALS))` of
playVideo: the result it returns, if it returns. -/
def ordinalResult {Num : Type} (js : Js Num) (q : String) (videos : List Record) :
    List (String × Int) → Option ToolResult
  | [] => none
  | (word, idx) :: rest =>
    if includes q word then
      let i : Int := if idx == -1 then (videos.length : Int) - 1 else idx
      if 0 ≤ i && i < videos.length then
        match videos[i.toNat]? with
        | some v => some (videoResult js v)
        | none => some [("error", JVal.str ("Only " ++ toString videos.length ++ " videos loaded."))]
      else some [("error", JVal.str ("Only " ++ toString videos.length ++ " videos loaded."))]
    else ordinalResult js q videos rest

/-- The words of `q.split(/\s+/).filter((w) => w.length > 2)`: cutting at
every whitespace character gives the same pieces, apart from empty ones. -/
def longWords (q : String) : List String :=
  ((q.toList.splitOnP isJsSpace).filter (fun w => 2 < utf16Length w)).map String.mk

/-- The callback of the search by title: `(v.title || '').toLowerCase().includes(q)`. -/
def titleIncludes {Num : Type} (js : Js Num) (q : String) (v : Record) : Except Err Bool :=
  match lowerTitle js v with
  | .error e => .error e
  | .ok t => .ok (includes t q)

/-- The callback of the search by word: the lower-cased title is computed
first, then `words.some((w) => t.includes(w))`. -/
def titleHasWord {Num : Type} (js : Js Num) (words : List String) (v : Record) :
    Except Err Bool :=
  match lowerTitle js v with
  | .error e => .error e
  | .ok t => .ok (words.any (fun w => includes t w))

/-- `playVideo(args, videos)`.  The two searches by title throw when they
reach a video whose title is truthy and not a string. -/
def playVideo {Num : Type} (js : Js Num) (args : ToolArgs) (videos : List Record) :
    Except Err ToolResult :=
  if videos.isEmpty then .ok [("error", JVal.str "No channel data loaded.")]
  else
    let q := trim (js.toLowerCase (match args.query with
      | some x => if x != "" then x else ""
      | none => ""))
    if includes q "most viewed" || includes q "most popular" || includes q "top viewed" then
      match firstBy (fun a b => decide (a > b)) videos with
      | some v => .ok (videoResult js v)
      | none => .ok (videoResult js [])
    else if includes q "least viewed" then
      match firstBy (fun a b => decide (a < b)) videos with
      | some v => .ok (videoResult js v)
      | none => .ok (videoResult js [])
    else
      match ordinalResult js q videos ORDINALS with
      | some r => .ok r
      | none =>
        match findExcept (titleIncludes js q) videos with
        | .error e => .error e
        | .ok (some found) => .ok (videoResult js found)
        | .ok none =>
          let words := longWords q
          match findExcept (titleHasWord js words) videos with
          | .error e => .error e
          | .ok (some fuzzy) => .ok (videoResult js fuzzy)
          | .ok none =>
            .ok [("error", JVal.str ("No video matching \"" ++ fieldName args.query ++
              "\" found in loaded data."))]

/-- An entry of `data.data` in the answer of the image service. -/
structure ImageItem where
  b64_json : Option JVal
  revised_prompt : Option JVal

/-- The answer of the image service, as generateImageTool reads it: `res.ok`,
`res.statusText`, and from `await res.json()` the members
`data.error?.message` and `data.data?.[0]` (an error when `res.json()` throws
or when reading the members of its value throws). -/
structure ImageResponse where
  ok : Bool
  statusText : String
  json : Except Err (Option String × Option ImageItem)

/-- The request `fetch('https://api.openai.com/v1/images/generations', ...)`
for a prompt, on a world `σ`; the prompt is `none` when it is `undefined`,
which `JSON.stringify` leaves out of the body. -/
abbrev ImageApi (σ : Type) := Option String → σ → Except Err ImageResponse × σ

/-- `generateImageTool(args)`; `openaiKey` is `process.env.OPENAI_API_KEY`. -/
def generateImageTool {σ : Type} (api : ImageApi σ) (openaiKey : Option String)
    (args : ToolArgs) (s : σ) : Except Err ToolResult × σ :=
  if !truthyStr openaiKey then
    (.ok [("error", JVal.str "OPENAI_API_KEY not configured — cannot generate images.")], s)
  else
    let prompt : Option String :=
      if truthyStr args.anchor_description then
        some (fieldName args.prompt ++ "\n\nStyle/composition reference: " ++
          fieldName args.anchor_description)
      else args.prompt
    match api prompt s with
    | (.error e, s1) => (.error e, s1)
    | (.ok res, s1) =>
      match res.json with
      | .error e => (.error e, s1)
      | .ok (errorMessage, first) =>
        if !res.ok then
          let errMsg := if truthyStr errorMessage then errorMessage.getD "" else res.statusText
          (.ok [("error", JVal.str ("Image generation failed: " ++ errMsg))], s1)
        else
          match first with
          | none =>
            (.error ⟨"Cannot read properties of undefined (reading \x27b64_json\x27)"⟩, s1)
          | some img =>
            (.ok ([("_toolType", JVal.str "image")] ++ optField "imageBase64" img.b64_json ++
                [("mimeType", JVal.str "image/png")] ++
                optField "prompt" (args.prompt.map JVal.str) ++
                optField "revised_prompt"
                  (match img.revised_prompt with
                   | some v => if v.truthy then some v else args.prompt.map JVal.str
                   | none => args.prompt.map JVal.str)), s1)

/-- `executeTool(toolName, args, channelData)` of youtubeTools.js;
`channelData` is `none` when it is `null` or `undefined`. -/
def executeTool {σ Num : Type} (js : Js Num)
    (sortByDate : Bool → List (PlotPoint Num) → List (PlotPoint Num))
    (api : ImageApi σ) (openaiKey : Option String)
    (toolName : String) (args : ToolArgs) (channelData : Option (List Record)) (s : σ) :
    Except Err ToolResult × σ :=
  let videos := channelData.getD []
  if toolName == "compute_stats_json" then (.ok (computeStatsJson js args videos), s)
  else if toolName == "plot_metric_vs_time" then
    (plotMetricVsTime js sortByDate args videos, s)
  else if toolName == "play_video" then (playVideo js args videos, s)
  else if toolName == "generateImage" then generateImageTool api openaiKey args s
  else (.ok [("error", JVal.str ("Unknown tool: " ++ toolName))], s)

/-! ## csvToolsServer.js -/

/-- `resolveCol(rows, name)` for a string `name`. -/
def resolveCol {Num : Type} (js : Js Num) (rows : List Record) (name : String) : String :=
  match rows with
  | [] => name
  | first :: _ =>
    if name == "" then name
    else
      let keys := keysOf first
      if keys.contains name then name
      else
        let target := norm js name
        match keys.find? (fun k => norm js k == target) with
        | some k => if k != "" then k else name
        | none => name

/-- The names of the `case` labels of `executeTool` in csvToolsServer.js. -/
def CSV_TOOLS : List String :=
  ["compute_column_stats", "get_value_counts", "get_top_tweets"]

/-- `Object.keys(x)` on a JSON value: it throws a TypeError on `null`; a
string and an array have their indices as keys, a number and a boolean have
none, an object has its fields in property order. -/
def objectKeys : JVal → Except Err (List String)
  | .null => .error ⟨"Cannot convert undefined or null to object"⟩
  | .bool _ => .ok []
  | .num _ => .ok []
  | .str t => .ok ((List.range (utf16Length t.toList)).map toString)
  | .arr items => .ok ((List.range items.length).map toString)
  | .obj fields => .ok (keysOf fields)

/-- `executeTool(toolName, args, rows)` of csvToolsServer.js, for an array
`rows` of JSON values.  `availableHeaders` is computed before the `switch`.
The bodies of the three registered cases are kept abstract (`registered`,
which may throw, is given the rows and the headers); the arguments are of any
type `A`. -/
def csvExecuteTool {A : Type}
    (registered : String → A → List JVal → List String → Except Err ToolResult)
    (toolName : String) (args : A) (rows : List JVal) : Except Err ToolResult :=
  let headers : Except Err (List String) :=
    match rows with
    | first :: _ => objectKeys first
    | [] => .ok []
  match headers with
  | .error e => .error e
  | .ok availableHeaders =>
    if CSV_TOOLS.contains toolName then registered toolName args rows availableHeaders
    else .ok [("error", JVal.str ("Unknown tool: " ++ toolName))]

/-! ## index.js: the `/api/gemini/chat` handler -/

/-- The JSON form of the record `chatWithToolsInternal` returns. -/
def chatResultJson (r : ChatResult) : JVal :=
  JVal.obj
    [("text", JVal.str r.text),
     ("charts", JVal.arr (r.charts.map JVal.obj)),
     ("toolCalls", JVal.arr (r.toolCalls.map (fun c =>
        JVal.obj [("name", JVal.str c.name), ("args", c.args), ("result", JVal.obj c.result)])))]

/-- The handler `app.post('/api/gemini/chat', ...)`. -/
def chatRoute {σ : Type} (env : Env σ) (apiKey : Option String) (modelsToTry : List String)
    (args : Args) : σ → Res × σ × List Act :=
  fun s =>
    let res : Res := {}
    if !truthyStr args.newMessage then
      (res.sendJson 400 (JVal.obj [("error", JVal.str "message required")]), s, [])
    else
      match chatWithToolsInternal env apiKey modelsToTry args s with
      | (.ok result, s1, a1) => (res.sendJson 200 (chatResultJson result), s1, a1)
      | (.error err, s1, a1) =>
        (res.sendJson 500 (JVal.obj [("error", JVal.str err.message)]), s1, a1)

/-! ## services/gemini.js: the client of the stream route -/

/-- The response of `fetch` on the stream route: `res.ok`, the text of
`res.text()`, `res.statusText`, and the decoded values read from the body, in
order. -/
structure FetchResponse where
  ok : Bool := true
  text : String := ""
  statusText : String := ""
  chunks : List String

/-- `buffer.split('\n')`. -/
def splitLines : List Char → List (List Char)
  | [] => [[]]
  | c :: cs =>
    if c = '\n' then [] :: splitLines cs
    else
      match splitLines cs with
      | [] => [[c]]
      | l :: ls => (c :: l) :: ls

/-- What the client yields for a line: nothing when the line is blank or
`JSON.parse` throws (`parse` returns `none`). -/
def lineValue (parse : String → Option JVal) (line : List Char) : Option JVal :=
  if trim (String.mk line) == "" then none else parse (String.mk line)

/-- The `while (true)` loop of streamChat over the values read: what it
yields, and the buffer it leaves. -/
def readLoop (parse : String → Option JVal) : List Char → List String → List JVal × List Char
  | buffer, [] => ([], buffer)
  | buffer, value :: rest =>
    let lines := splitLines (buffer ++ value.toList)
    let out := lines.dropLast.filterMap (lineValue parse)
    match readLoop parse (lines.getLast?.getD []) rest with
    | (more, final) => (out ++ more, final)

/-- `streamChat` of services/gemini.js on the response of `fetch`: the values
it yields and how it ends. -/
def streamChat (parse : String → Option JVal) (res : FetchResponse) :
    List JVal × Except Err Unit :=
  if !res.ok then
    ([], .error ⟨if res.text != "" then res.text else res.statusText⟩)
  else
    match readLoop parse [] res.chunks with
    | (out, buffer) => (out ++ (lineValue parse buffer).toList, .ok ())

/-! ## Concrete data for the tools -/

/-- `String(x)` for a JSON value; in the text of an array, `null` reads as
the empty text. -/
def jsString : JVal → String
  | .null => "null"
  | .bool true => "true"
  | .bool false => "false"
  | .num n => toString n
  | .str t => t
  | .arr items => joinWith "," (jsStrings items)
  | .obj _ => "[object Object]"
where
  /-- The texts of the items of an array. -/
  jsStrings : List JVal → List String
    | [] => []
    | .null :: rest => "" :: jsStrings rest
    | x :: rest => jsString x :: jsStrings rest

/-- The first `n` UTF-16 code units of a text, as whole characters: a
character that does not fit is left out. -/
def takeUnits : Nat → List Char → List Char
  | _, [] => []
  | n, c :: cs =>
    if (if 0x10000 ≤ c.toNat then 2 else 1) ≤ n then
      c :: takeUnits (n - (if 0x10000 ≤ c.toNat then 2 else 1)) cs
    else []

/-- The text before the first `://` and the text after it. -/
def cutScheme : List Char → Option (List Char × List Char)
  | [] => none
  | c :: cs =>
    if [':', '/', '/'].isPrefixOf (c :: cs) then some ([], cs.drop 2)
    else
      match cutScheme cs with
      | some (scheme, rest) => some (c :: scheme, rest)
      | none => none

/-- The value of the first parameter `v` of a query `a=1&v=2`. -/
def queryParamV (query : List Char) : Option String :=
  ((query.splitOnP (· == '&')).findSome? (fun kv =>
    if kv.takeWhile (· != '=') == ['v'] then some (String.mk ((kv.dropWhile (· != '=')).drop 1))
    else none))

/-- `new URL(url)` for an ASCII text of the form
`scheme://host/path?query#fragment` without escapes, `+`, or dot segments:
the `v` search parameter and the path.  A text without a scheme or without a
host is not a URL. -/
def parseAsciiUrl (url : String) : Option (Option String × String) :=
  match cutScheme url.toList with
  | none => none
  | some (scheme, rest) =>
    let host := rest.takeWhile (fun c => !(c == '/' || c == '?' || c == '#'))
    if scheme.isEmpty || !(scheme.all (fun c => c.isAlphanum || c == '+' || c == '-' || c == '.'))
        || !(scheme.head?.any Char.isAlpha) || host.isEmpty then none
    else
      let afterHost := rest.dropWhile (fun c => !(c == '/' || c == '?' || c == '#'))
      let path := afterHost.takeWhile (fun c => !(c == '?' || c == '#'))
      let afterPath := afterHost.dropWhile (fun c => !(c == '?' || c == '#'))
      let query :=
        match afterPath with
        | '?' :: more => more.takeWhile (· != '#')
        | _ => []
      some (queryParamV query, if path.isEmpty then "/" else String.mk path)

/-- The whole number a text starts with, after leading whitespace and a
sign: `parseFloat` of a text whose number has no fraction and no exponent;
`none` is `NaN`. -/
def parseWhole (t : String) : Option Int :=
  let cs := t.toList.dropWhile isJsSpace
  let negative := cs.head? == some '-'
  let unsigned := if cs.head? == some '-' || cs.head? == some '+' then cs.drop 1 else cs
  let digits := unsigned.takeWhile Char.isDigit
  if digits.isEmpty then none
  else
    let n : Int := digits.foldl (fun acc d => acc * 10 + (d.toNat - 48 : Nat)) (0 : Int)
    some (if negative then -n else n)

/-- The first `k`, counting up from the given one, with `n < (k + 1)²`. -/
def sqrtFrom (n : Nat) : Nat → Nat → Nat
  | 0, k => k
  | fuel + 1, k => if n < (k + 1) * (k + 1) then k else sqrtFrom n fuel (k + 1)

/-- The whole part of the square root of `n`. -/
def floorSqrt (n : Nat) : Nat :=
  sqrtFrom n n 0

/-- Built-ins for ASCII text and whole numbers of at most 15 digits.
Numbers are integers in this model, so a number with a fraction has no value
of its own: `parseFloat` reads the whole number a text starts with, and the
mean, the median and the deviation are exact when they are whole numbers and
are rounded down to a whole number otherwise.  `slice` is exact unless the
cut falls inside a surrogate pair, which ASCII text does not have. -/
def asciiJs : Js Int where
  toLowerCase := fun s => String.mk (s.toList.map Char.toLower)
  parseFloat := fun x =>
    match x with
    | some v => parseWhole (jsString v)
    | none => none
  toStr := jsString
  numJson := JVal.num
  mean := fun vals => JVal.num (vals.sum / vals.length)
  median := fun vals =>
    let sorted := vals.insertionSort (· ≤ ·)
    let mid := sorted.length / 2
    if sorted.length % 2 = 0 then
      JVal.num ((sorted.getD (mid - 1) 0 + sorted.getD mid 0) / 2)
    else JVal.num (sorted.getD mid 0)
  std := fun vals =>
    JVal.num
      (floorSqrt ((vals.length * (vals.map (fun b => b * b)).sum - vals.sum * vals.sum).toNat)
        / vals.length)
  min := fun vals => JVal.num (vals.foldl Min.min (vals.headD 0))
  max := fun vals => JVal.num (vals.foldl Max.max (vals.headD 0))
  parseUrl := parseAsciiUrl
  slice := fun t n => JVal.str (String.mk (takeUnits n t.toList))

/-- Two loaded videos. -/
def sampleVideos : List Record :=
  [ [("title", JVal.str "The last dance"), ("view_count", JVal.num 10),
     ("release_date", JVal.str "2024-01-02T10:00:00Z")],
    [("title", JVal.str "Intro to Lean"), ("view_count", JVal.num 99),
     ("release_date", JVal.str "2024-03-04T10:00:00Z")] ]

/-- An image service that is never reached. -/
def noImageApi : ImageApi Nat :=
  fun _ s => (.error ⟨"fetch failed"⟩, s + 1)

/-- An image service that answers with one image. -/
def oneImageApi : ImageApi Nat :=
  fun _ s =>
    (.ok { ok := true, statusText := "OK",
           json := .ok (none, some ⟨some (JVal.str "iVBORw0KGgo="), none⟩) }, s + 1)

/-- A `JSON.parse` that reads the lines `1`, `2` and `3`. -/
def parseDigit (line : String) : Option JVal :=
  if trim line == "1" then some (JVal.num 1)
  else if trim line == "2" then some (JVal.num 2)
  else if trim line == "3" then some (JVal.num 3)
  else none

/-- A backend that always asks for `lookup` and whose responses read "more". -/
def envAlwaysCalls : Env Nat where
  sendMessage := fun _ _ s =>
    (.ok { parts := [lookupCall], text := .ok "more" }, s + 1)
  sendMessageStream := fun _ _ s => (.error ⟨"no stream"⟩, s)
  executeTool := fun _ _ _ s => (.ok [("value", JVal.num 42)], s)

/-- A backend that is rate-limited on every call. -/
def envThrottled : Env Nat where
  sendMessage := fun _ _ s => (.error ⟨"429 Resource exhausted"⟩, s + 1)
  sendMessageStream := fun _ _ s => (.error ⟨"429 Resource exhausted"⟩, s + 1)
  executeTool := fun _ _ _ s => (.ok [], s)

/-! ## Shapes of tool results and of the conversation -/

/-- The names of the tools youtubeTools.js registers: the `case` labels of
`executeTool`, which are the names of `YOUTUBE_TOOL_DECLARATIONS`. -/
def YOUTUBE_TOOLS : List String :=
  ["compute_stats_json", "plot_metric_vs_time", "play_video", "generateImage"]

/-- The result is error-shaped and its text names every one of the options. -/
def EnumeratesOptions (result : ToolResult) (options : List String) : Prop :=
  ∃ msg, result = [("error", JVal.str msg)] ∧ ∀ o ∈ options, includes msg o = true

/-- The result carries exactly one of an `error` field and a `_toolType`
marker, and the marker is one of `markers`. -/
def ExactlyOne (result : ToolResult) (markers : List String) : Prop :=
  (getField result "error" ≠ none ∧ getField result "_toolType" = none) ∨
  (getField result "error" = none ∧
    ∃ m ∈ markers, getField result "_toolType" = some (JVal.str m))

/-- The personalization line of the preamble. -/
def personalization (firstName : String) (lastName : Option String) : String :=
  "\n\nThe current user\x27s name is " ++ firstName ++
    (match lastName with
     | some ln => if ln != "" then " " ++ ln else ""
     | none => "") ++
    ". Address them by their first name."

/-- The two turns of a non-empty preamble. -/
def preambleTurns (preamble : String) : List Turn :=
  [ ⟨"user", [OutPart.text ("Follow these instructions in every response:\n\n" ++ preamble)]⟩,
    ⟨"model", [OutPart.text "Got it! I\x27ll follow those instructions."]⟩ ]

/-- The query of playVideo after `toLowerCase().trim()`. -/
def queryOf {Num : Type} (js : Js Num) (args : ToolArgs) : String :=
  trim (js.toLowerCase (args.query.getD ""))

/-- The query holds one of the phrases playVideo looks for before it matches
titles: a most/least-viewed phrase or an ordinal word. -/
def hasKeyword (q : String) : Bool :=
  includes q "most viewed" || includes q "most popular" || includes q "top viewed" ||
    includes q "least viewed" || ORDINALS.any (fun w => includes q w.1)

/-- The whole response text: the values read, one after the other. -/
def wholeText : List String → List Char
  | [] => []
  | value :: rest => value.toList ++ wholeText rest

/-- The JSON value of each non-blank line of a text that parses, in line
order; the last line counts whether or not a newline ends it. -/
def parsedLines (parse : String → Option JVal) (text : List Char) : List JVal :=
  (splitLines text).filterMap (lineValue parse)

/-! ## A session on the tools of youtubeTools.js -/

/-- A string-valued member of an object. -/
def strMember (fields : List (String × JVal)) (k : String) : Option String :=
  match getField fields k with
  | some (JVal.str t) => some t
  | _ => none

/-- The arguments of a function call, read from its `args` object. -/
def argsOf (a : JVal) : ToolArgs :=
  match a with
  | JVal.obj fields =>
    { field := strMember fields "field", metric := strMember fields "metric",
      sort := strMember fields "sort", query := strMember fields "query",
      prompt := strMember fields "prompt",
      anchor_description := strMember fields "anchor_description" }
  | _ => {}

/-- The loaded videos, read from the `channelData` array. -/
def recordsOf (cd : JVal) : Option (List Record) :=
  match cd with
  | JVal.arr items =>
    some (items.filterMap (fun v =>
      match v with
      | JVal.obj r => some r
      | _ => none))
  | _ => none

/-- A response that requests the tool `name` with one string argument. -/
def toolCallResponse (name k v : String) : Response :=
  { parts := [{ functionCall := some ⟨name, JVal.obj [(k, JVal.str v)]⟩ }], text := .ok "" }

/-- A backend that requests `play_video` for "lean", then
`compute_stats_json` for the field "likes", then answers; the dispatcher is
`executeTool` of youtubeTools.js without an image key. -/
def envTools : Env Nat where
  sendMessage := fun _ _ s =>
    if s = 0 then (.ok (toolCallResponse "play_video" "query" "lean"), s + 1)
    else if s = 1 then (.ok (toolCallResponse "compute_stats_json" "field" "likes"), s + 1)
    else (.ok (textResponse "Done"), s + 1)
  sendMessageStream := fun _ _ s => (.error ⟨"no stream"⟩, s)
  executeTool := fun name a cd s =>
    executeTool asciiJs (fun _ l => l) noImageApi none name (argsOf a) (recordsOf cd) s

/-- The request of the scenario: the two sample videos are loaded. -/
def toolsArgs : Args :=
  { newMessage := some "Play the Lean video",
    channelData := JVal.arr (sampleVideos.map JVal.obj) }

/-! ## The words of the claim on pickBestModel -/

/-- The text starts with the word (lower-case ASCII letters), letter case
ignored: each character is the letter of the word or its capital, which
stands 32 code points below it. -/
def startsWithWord : List Char → List Char → Bool
  | [], _ => true
  | _ :: _, [] => false
  | w :: ws, c :: cs => (c == w || c.toNat + 32 == w.toNat) && startsWithWord ws cs

/-- The name contains the word, letter case ignored. -/
def containsWord (word name : String) : Bool :=
  (List.range (name.toList.length + 1)).any
    (fun i => startsWithWord word.toList (name.toList.drop i))

/-- The name without a leading `models/`. -/
def withoutModelsPrefix (name : String) : String :=
  match name.toList with
  | 'm' :: 'o' :: 'd' :: 'e' :: 'l' :: 's' :: '/' :: rest => String.mk rest
  | _ => name

/-- The discovered names, each without a leading `models/`, the empty ones
(and the descriptors without a name) dropped. -/
def discoveredNames (models : List ModelDesc) : List String :=
  models.filterMap (fun m =>
    match m.name with
    | some raw =>
      if withoutModelsPrefix raw = "" then none else some (withoutModelsPrefix raw)
    | none => none)

/-- A backend on which no candidate is usable: every call fails with a 404. -/
def envNoModel : Env Nat where
  sendMessage := fun _ _ s => (.error ⟨"404 model not found"⟩, s + 1)
  sendMessageStream := fun _ _ s => (.error ⟨"404 model not found"⟩, s + 1)
  executeTool := fun _ _ _ s => (.ok [], s)

/-! ## Lemmas on the retry policy and the actions of a session -/

theorem withRetryLoop_acts {σ α : Type} (fn : Run σ α) (P : Act → Prop)
    (hfn : ∀ s, ∀ a ∈ (fn s).2.2, P a) (hd : ∀ ms, P (Act.delay ms)) :
    ∀ (n k : Nat) (le : Option Err) (s : σ), ∀ a ∈ (withRetryLoop fn n k le s).2.2, P a := by
  intro n
  induction n with
  | zero => intro k le s a ha; simp [withRetryLoop] at ha
  | succ n ih =>
    intro k le s a ha
    have h0 := hfn s
    unfold withRetryLoop at ha
    rcases hfs : fn s with ⟨r, s1, a1⟩
    rw [hfs] at ha h0
    cases r with
    | ok v => exact h0 a ha
    | error err =>
      simp only at ha
      split at ha
      · have ih1 := ih (k + 1) (some err) s1
        rcases hrec : withRetryLoop fn n (k + 1) (some err) s1 with ⟨r2, s2, a2⟩
        rw [hrec] at ha ih1
        simp only [List.mem_append, List.mem_cons] at ha
        rcases ha with ha | ha | ha
        · exact h0 a ha
        · rw [ha]; exact hd _
        · exact ih1 a ha
      · exact h0 a ha

theorem withRetry_sendOnce_acts {σ : Type} (env : Env σ) (chat : Chat) (parts : List OutPart)
    (s : σ) : ∀ a ∈ (withRetry (sendOnce env chat parts) s).2.2,
      a = Act.send chat parts ∨ ∃ ms, a = Act.delay ms := by
  apply withRetryLoop_acts
  · intro s a ha
    simp [sendOnce] at ha
    exact Or.inl ha
  · intro ms; exact Or.inr ⟨ms, rfl⟩

theorem withRetry_sendStreamOnce_acts {σ : Type} (env : Env σ) (chat : Chat)
    (parts : List OutPart) (s : σ) :
    ∀ a ∈ (withRetry (sendStreamOnce env chat parts) s).2.2,
      a = Act.sendStream chat parts ∨ ∃ ms, a = Act.delay ms := by
  apply withRetryLoop_acts
  · intro s a ha
    simp [sendStreamOnce] at ha
    exact Or.inl ha
  · intro ms; exact Or.inr ⟨ms, rfl⟩

theorem toolCount_append (a b : List Act) : toolCount (a ++ b) = toolCount a + toolCount b := by
  simp [toolCount, List.countP_append]

theorem toolCount_withRetry_sendOnce {σ : Type} (env : Env σ) (chat : Chat)
    (parts : List OutPart) (s : σ) :
    toolCount (withRetry (sendOnce env chat parts) s).2.2 = 0 := by
  unfold toolCount
  rw [List.countP_eq_zero]
  intro a ha
  rcases withRetry_sendOnce_acts env chat parts s a ha with h | ⟨ms, h⟩ <;> simp [h, Act.isTool]

theorem toolCount_toolLoop {σ : Type} (env : Env σ) (chat : Chat) (cd : JVal) :
    ∀ (n : Nat) (resp : Response) (charts : List ToolResult) (calls : List ToolCallRecord)
      (s : σ), toolCount (toolLoop env chat cd n resp charts calls s).2.2 ≤ n := by
  intro n
  induction n with
  | zero => intro resp charts calls s; simp [toolLoop, toolCount]
  | succ n ih =>
    intro resp charts calls s
    unfold toolLoop
    cases hfc : resp.parts.findSome? (fun p => p.functionCall) with
    | none => simp [toolCount]
    | some fc =>
      simp only
      rcases hex : env.executeTool fc.name fc.args cd s with ⟨r, s1⟩
      cases r with
      | error e => simp [toolCount, Act.isTool]
      | ok tr =>
        simp only
        have hw := toolCount_withRetry_sendOnce env chat
          [OutPart.functionResponse fc.name (deleteField tr "imageBase64")] s1
        rcases hsend : withRetry (sendOnce env chat
          [OutPart.functionResponse fc.name (deleteField tr "imageBase64")]) s1 with ⟨r2, s2, a2⟩
        rw [hsend] at hw
        cases r2 with
        | error e =>
          simp only [toolCount] at hw ⊢
          simp [List.countP_cons, Act.isTool, hw]
        | ok resp1 =>
          simp only
          have ih1 := ih resp1
            (if truthyField (getField tr "_toolType") = true then charts ++ [tr] else charts)
            (calls ++ [⟨fc.name, fc.args, tr⟩]) s2
          rcases hrec : toolLoop env chat cd n resp1
            (if truthyField (getField tr "_toolType") = true then charts ++ [tr] else charts)
            (calls ++ [⟨fc.name, fc.args, tr⟩]) s2 with ⟨r3, s3, a3⟩
          rw [hrec] at ih1
          simp only [toolCount] at hw ih1 ⊢
          simp only [List.countP_cons, List.countP_append, Act.isTool, hw]
          simp only [ite_true, zero_add]
          rw [hrec]
          simp only
          omega

theorem toolCount_attempt {σ : Type} (env : Env σ) (args : Args) (m : String) (s : σ) :
    toolCount (chatWithToolsAttempt env args m s).2.2 ≤ 5 := by
  unfold chatWithToolsAttempt
  simp only
  have hw := toolCount_withRetry_sendOnce env (chatFor args Tools.functionDeclarations m)
    (outboundParts args.newMessage args.imageParts) s
  rcases hsend : withRetry (sendOnce env (chatFor args Tools.functionDeclarations m)
    (outboundParts args.newMessage args.imageParts)) s with ⟨r, s1, a1⟩
  rw [hsend] at hw
  simp only at hw
  cases r with
  | error e =>
    simp only [toolCount] at hw ⊢
    simp [List.countP_cons, Act.isTool, hw]
  | ok resp =>
    simp only
    have hl := toolCount_toolLoop env (chatFor args Tools.functionDeclarations m)
      args.channelData 5 resp [] [] s1
    rcases hloop : toolLoop env (chatFor args Tools.functionDeclarations m)
      args.channelData 5 resp [] [] s1 with ⟨r2, s2, a2⟩
    rw [hloop] at hl
    simp only at hl
    have hc : toolCount (Act.startChat (chatFor args Tools.functionDeclarations m) :: (a1 ++ a2))
        ≤ 5 := by
      have : toolCount (Act.startChat (chatFor args Tools.functionDeclarations m) :: (a1 ++ a2))
          = toolCount a1 + toolCount a2 := by
        simp [toolCount, List.countP_cons, List.countP_append, Act.isTool]
      omega
    cases r2 with
    | error e => exact hc
    | ok v =>
      rcases v with ⟨resp1, charts, calls⟩
      simp only
      cases resp1.text with
      | error e => exact hc
      | ok t => exact hc

theorem toolCount_models {σ : Type} (env : Env σ) (args : Args) :
    ∀ (models : List String) (s : σ),
      toolCount (chatWithToolsModels env args models s).2.2 ≤ 5 * models.length := by
  intro models
  induction models with
  | nil => intro s; simp [chatWithToolsModels, toolCount]
  | cons m rest ih =>
    intro s
    unfold chatWithToolsModels
    have ha := toolCount_attempt env args m s
    rcases hatt : chatWithToolsAttempt env args m s with ⟨r, s1, a1⟩
    rw [hatt] at ha
    simp only at ha
    cases r with
    | ok v => simp only [List.length_cons]; omega
    | error err =>
      simp only
      split
      · have ih1 := ih s1
        rcases hrec : chatWithToolsModels env args rest s1 with ⟨r2, s2, a2⟩
        rw [hrec] at ih1
        simp only at ih1 ⊢
        rw [toolCount_append]
        simp only [List.length_cons]
        omega
      · simp only [List.length_cons]; omega

/-! ## The claims -/

/-- C1, as stated, fails: with roster `m1, m2`, candidate `m1` runs three
tool rounds and then fails with a 404; candidate `m2` starts again at round 0
and runs five more, so one call executes the dispatcher eight times. -/
theorem C1_counterexample :
    ¬ (toolCount (chatWithToolsInternal envRestart (some "key") ["m1", "m2"] helloArgs 0).2.2
        ≤ 5) := by
  decide

/-- C1, amended: every candidate attempt of `chatWithToolsInternal` executes
the tool dispatcher at most 5 times, whatever the backend and the dispatcher
do, and one call executes it at most 5 times per roster candidate; the round
counter belongs to the attempt and starts at 0 for every candidate. -/
theorem C1_tool_rounds_per_candidate {σ : Type} (env : Env σ) (apiKey : Option String)
    (modelsToTry : List String) (args : Args) (s : σ) :
    (∀ (m : String) (s0 : σ), toolCount (chatWithToolsAttempt env args m s0).2.2 ≤ 5) ∧
    toolCount (chatWithToolsInternal env apiKey modelsToTry args s).2.2
      ≤ 5 * modelsToTry.length := by
  refine ⟨fun m s0 => toolCount_attempt env args m s0, ?_⟩
  unfold chatWithToolsInternal
  split
  · simp [toolCount]
  · exact toolCount_models env args modelsToTry s

/-! ### C2: the two views of a tool result -/

theorem getField_deleteField_self (o : ToolResult) (k : String) :
    getField (deleteField o k) k = none := by
  induction o with
  | nil => rfl
  | cons kv rest ih =>
    simp only [getField, deleteField] at ih ⊢
    rw [List.filter_cons]
    cases hb : (kv.1 == k) with
    | true => simp [hb]
    | false => simp [hb, List.find?_cons]

theorem getField_deleteField_other (o : ToolResult) (k k' : String) (hk : k' ≠ k) :
    getField (deleteField o k) k' = getField o k' := by
  induction o with
  | nil => rfl
  | cons kv rest ih =>
    simp only [getField, deleteField] at ih ⊢
    rw [List.filter_cons]
    cases hb : (kv.1 == k) with
    | true =>
      have hb' : (kv.1 == k') = false := by
        have e : kv.1 = k := by simpa using hb
        simp only [beq_eq_false_iff_ne, ne_eq]
        intro e'
        exact hk (e'.symm.trans e)
      simpa [hb, hb', List.find?_cons] using ih
    | false =>
      cases hb' : (kv.1 == k') with
      | true => simp [hb, hb', List.find?_cons]
      | false => simpa [hb, hb', List.find?_cons] using ih

theorem withRetry_sendOnce_head {σ : Type} (env : Env σ) (chat : Chat) (parts : List OutPart)
    (s : σ) : ∃ rest, (withRetry (sendOnce env chat parts) s).2.2 = Act.send chat parts :: rest := by
  unfold withRetry
  show ∃ rest, (withRetryLoop (sendOnce env chat parts) (3 + 1) 0 none s).2.2 = _
  unfold withRetryLoop
  rcases h : env.sendMessage chat parts s with ⟨r, s1⟩
  simp only [sendOnce, h]
  cases r with
  | ok v => exact ⟨[], rfl⟩
  | error e =>
    simp only
    split
    · exact ⟨_, rfl⟩
    · exact ⟨[], rfl⟩

theorem noImageSent_withRetry {σ : Type} (env : Env σ) (chat : Chat) (parts : List OutPart)
    (hp : ∀ (name : String) (g : ToolResult), OutPart.functionResponse name g ∈ parts →
      getField g "imageBase64" = none) (s : σ) :
    ∀ a ∈ (withRetry (sendOnce env chat parts) s).2.2, NoImageSent a := by
  intro a ha
  rcases withRetry_sendOnce_acts env chat parts s a ha with h | ⟨ms, h⟩
  · intro c p hcp name g hg
    rw [h] at hcp
    cases hcp
    exact hp name g hg
  · intro c p hcp
    rw [h] at hcp
    cases hcp

theorem noImageSent_toolLoop {σ : Type} (env : Env σ) (chat : Chat) (cd : JVal) :
    ∀ (n : Nat) (resp : Response) (charts : List ToolResult) (calls : List ToolCallRecord)
      (s : σ), ∀ a ∈ (toolLoop env chat cd n resp charts calls s).2.2, NoImageSent a := by
  intro n
  induction n with
  | zero => intro resp charts calls s a ha; simp [toolLoop] at ha
  | succ n ih =>
    intro resp charts calls s a ha
    unfold toolLoop at ha
    cases hfc : resp.parts.findSome? (fun p => p.functionCall) with
    | none => rw [hfc] at ha; simp at ha
    | some fc =>
      rw [hfc] at ha
      simp only at ha
      have htool : NoImageSent (Act.tool fc.name fc.args) := by
        intro c p hcp; cases hcp
      rcases hex : env.executeTool fc.name fc.args cd s with ⟨r, s1⟩
      rw [hex] at ha
      cases r with
      | error e =>
        simp only [List.mem_singleton] at ha
        rw [ha]; exact htool
      | ok tr =>
        simp only at ha
        have hw := noImageSent_withRetry env chat
          [OutPart.functionResponse fc.name (deleteField tr "imageBase64")]
          (by
            intro name g hg
            simp only [List.mem_singleton, OutPart.functionResponse.injEq] at hg
            rw [hg.2]
            exact getField_deleteField_self tr "imageBase64") s1
        rcases hsend : withRetry (sendOnce env chat
          [OutPart.functionResponse fc.name (deleteField tr "imageBase64")]) s1 with ⟨r2, s2, a2⟩
        rw [hsend] at ha hw
        cases r2 with
        | error e =>
          simp only [List.mem_cons] at ha
          rcases ha with ha | ha
          · rw [ha]; exact htool
          · exact hw a ha
        | ok resp1 =>
          simp only at ha
          have ih1 := ih resp1
            (if truthyField (getField tr "_toolType") = true then charts ++ [tr] else charts)
            (calls ++ [⟨fc.name, fc.args, tr⟩]) s2
          rcases hrec : toolLoop env chat cd n resp1
            (if truthyField (getField tr "_toolType") = true then charts ++ [tr] else charts)
            (calls ++ [⟨fc.name, fc.args, tr⟩]) s2 with ⟨r3, s3, a3⟩
          rw [hrec] at ha ih1
          simp only [List.mem_cons, List.mem_append] at ha
          rcases ha with ha | ha | ha
          · rw [ha]; exact htool
          · exact hw a ha
          · exact ih1 a ha

theorem outboundParts_no_functionResponse (newMessage : Option String) (imageParts : List Img)
    (name : String) (g : ToolResult) :
    OutPart.functionResponse name g ∉ outboundParts newMessage imageParts := by
  unfold outboundParts
  intro h
  rcases List.mem_append.1 h with h | h
  · cases newMessage with
    | none => simp at h
    | some t => simp at h
  · simp at h

theorem noImageSent_attempt {σ : Type} (env : Env σ) (args : Args) (m : String) (s : σ) :
    ∀ a ∈ (chatWithToolsAttempt env args m s).2.2, NoImageSent a := by
  intro a ha
  unfold chatWithToolsAttempt at ha
  simp only at ha
  have hstart : NoImageSent (Act.startChat (chatFor args Tools.functionDeclarations m)) := by
    intro c p hcp; cases hcp
  have hw := noImageSent_withRetry env (chatFor args Tools.functionDeclarations m)
    (outboundParts args.newMessage args.imageParts)
    (fun name g hg => absurd hg (outboundParts_no_functionResponse _ _ name g)) s
  rcases hsend : withRetry (sendOnce env (chatFor args Tools.functionDeclarations m)
    (outboundParts args.newMessage args.imageParts)) s with ⟨r, s1, a1⟩
  rw [hsend] at ha hw
  cases r with
  | error e =>
    simp only [List.mem_cons] at ha
    rcases ha with ha | ha
    · rw [ha]; exact hstart
    · exact hw a ha
  | ok resp =>
    simp only at ha
    have hl := noImageSent_toolLoop env (chatFor args Tools.functionDeclarations m)
      args.channelData 5 resp [] [] s1
    rcases hloop : toolLoop env (chatFor args Tools.functionDeclarations m)
      args.channelData 5 resp [] [] s1 with ⟨r2, s2, a2⟩
    rw [hloop] at ha hl
    have hall : ∀ b ∈ Act.startChat (chatFor args Tools.functionDeclarations m) :: (a1 ++ a2),
        NoImageSent b := by
      intro b hb
      simp only [List.mem_cons, List.mem_append] at hb
      rcases hb with hb | hb | hb
      · rw [hb]; exact hstart
      · exact hw b hb
      · exact hl b hb
    cases r2 with
    | error e => exact hall a ha
    | ok v =>
      rcases v with ⟨resp1, charts, calls⟩
      simp only at ha
      cases htxt : resp1.text with
      | error e => rw [htxt] at ha; exact hall a ha
      | ok t => rw [htxt] at ha; exact hall a ha

theorem noImageSent_models {σ : Type} (env : Env σ) (args : Args) :
    ∀ (models : List String) (s : σ),
      ∀ a ∈ (chatWithToolsModels env args models s).2.2, NoImageSent a := by
  intro models
  induction models with
  | nil => intro s a ha; simp [chatWithToolsModels] at ha
  | cons m rest ih =>
    intro s a ha
    unfold chatWithToolsModels at ha
    have h1 := noImageSent_attempt env args m s
    rcases hatt : chatWithToolsAttempt env args m s with ⟨r, s1, a1⟩
    rw [hatt] at ha h1
    cases r with
    | ok v => exact h1 a ha
    | error err =>
      simp only at ha
      split at ha
      · have ih1 := ih s1
        rcases hrec : chatWithToolsModels env args rest s1 with ⟨r2, s2, a2⟩
        rw [hrec] at ha ih1
        simp only [List.mem_append] at ha
        rcases ha with ha | ha
        · exact h1 a ha
        · exact ih1 a ha
      · exact h1 a ha

theorem toolLoop_calls_extend {σ : Type} (env : Env σ) (chat : Chat) (cd : JVal) :
    ∀ (n : Nat) (resp : Response) (charts : List ToolResult) (calls : List ToolCallRecord)
      (s : σ) (resp' : Response) (charts' : List ToolResult) (calls' : List ToolCallRecord),
      (toolLoop env chat cd n resp charts calls s).1 = .ok (resp', charts', calls') →
      ∃ more, calls' = calls ++ more := by
  intro n
  induction n with
  | zero =>
    intro resp charts calls s resp' charts' calls' h
    simp only [toolLoop, Except.ok.injEq, Prod.mk.injEq] at h
    exact ⟨[], by simp [h.2.2]⟩
  | succ n ih =>
    intro resp charts calls s resp' charts' calls' h
    unfold toolLoop at h
    cases hfc : resp.parts.findSome? (fun p => p.functionCall) with
    | none =>
      rw [hfc] at h
      simp only [Except.ok.injEq, Prod.mk.injEq] at h
      exact ⟨[], by simp [h.2.2]⟩
    | some fc =>
      rw [hfc] at h
      simp only at h
      rcases hex : env.executeTool fc.name fc.args cd s with ⟨r, s1⟩
      rw [hex] at h
      cases r with
      | error e => simp at h
      | ok tr =>
        simp only at h
        rcases hsend : withRetry (sendOnce env chat
          [OutPart.functionResponse fc.name (deleteField tr "imageBase64")]) s1 with ⟨r2, s2, a2⟩
        rw [hsend] at h
        cases r2 with
        | error e => simp at h
        | ok resp1 =>
          simp only at h
          have ih1 := ih resp1
            (if truthyField (getField tr "_toolType") = true then charts ++ [tr] else charts)
            (calls ++ [⟨fc.name, fc.args, tr⟩]) s2 resp' charts' calls'
          rcases hrec : toolLoop env chat cd n resp1
            (if truthyField (getField tr "_toolType") = true then charts ++ [tr] else charts)
            (calls ++ [⟨fc.name, fc.args, tr⟩]) s2 with ⟨r3, s3, a3⟩
          rw [hrec] at h ih1
          simp only at h ih1
          obtain ⟨more, hm⟩ := ih1 h
          exact ⟨⟨fc.name, fc.args, tr⟩ :: more, by simp [hm]⟩

/-- C2: in a tool round in which the response requests a call and the
dispatcher returns `toolResult`, the session next sends the backend a function
response whose object has no `imageBase64` field and reads like `toolResult`
on every other field, and the record appended to `toolCalls` holds
`toolResult` itself (with `imageBase64` when it has one); and no function
response sent during a whole call of `chatWithToolsInternal` ever has an
`imageBase64` field. -/
theorem C2_model_view_without_image {σ : Type} (env : Env σ) (chat : Chat) (channelData : JVal)
    (n : Nat) (response : Response) (charts : List ToolResult) (toolCalls : List ToolCallRecord)
    (s s1 : σ) (call : FunctionCall) (toolResult : ToolResult)
    (hcall : response.parts.findSome? (fun p => p.functionCall) = some call)
    (hexec : env.executeTool call.name call.args channelData s = (.ok toolResult, s1)) :
    (∃ (sent : ToolResult) (rest : List Act),
      (toolLoop env chat channelData (n + 1) response charts toolCalls s).2.2
        = Act.tool call.name call.args
            :: Act.send chat [OutPart.functionResponse call.name sent] :: rest ∧
      getField sent "imageBase64" = none ∧
      ∀ k : String, k ≠ "imageBase64" → getField sent k = getField toolResult k) ∧
    (∀ (response' : Response) (charts' : List ToolResult) (toolCalls' : List ToolCallRecord),
      (toolLoop env chat channelData (n + 1) response charts toolCalls s).1
        = .ok (response', charts', toolCalls') →
      ∃ more, toolCalls' = toolCalls ++ ⟨call.name, call.args, toolResult⟩ :: more) ∧
    (∀ (apiKey : Option String) (modelsToTry : List String) (args : Args) (s0 : σ),
      ∀ a ∈ (chatWithToolsInternal env apiKey modelsToTry args s0).2.2,
        ∀ (c : Chat) (parts : List OutPart), a = Act.send c parts →
          ∀ (name : String) (g : ToolResult), OutPart.functionResponse name g ∈ parts →
            getField g "imageBase64" = none) := by
  refine ⟨?_, ?_, ?_⟩
  · obtain ⟨rest0, hhead⟩ := withRetry_sendOnce_head env chat
      [OutPart.functionResponse call.name (deleteField toolResult "imageBase64")] s1
    refine ⟨deleteField toolResult "imageBase64", ?_⟩
    unfold toolLoop
    rw [hcall]
    simp only
    rw [hexec]
    simp only
    rcases hsend : withRetry (sendOnce env chat
      [OutPart.functionResponse call.name (deleteField toolResult "imageBase64")]) s1
      with ⟨r2, s2, a2⟩
    rw [hsend] at hhead
    simp only at hhead
    cases r2 with
    | error e =>
      exact ⟨rest0, by simp [hhead], getField_deleteField_self _ _,
        fun k hk => getField_deleteField_other _ _ _ hk⟩
    | ok resp1 =>
      simp only
      rcases hrec : toolLoop env chat channelData n resp1
        (if truthyField (getField toolResult "_toolType") = true then charts ++ [toolResult]
          else charts)
        (toolCalls ++ [⟨call.name, call.args, toolResult⟩]) s2 with ⟨r3, s3, a3⟩
      exact ⟨rest0 ++ a3, by rw [hrec]; simp [hhead], getField_deleteField_self _ _,
        fun k hk => getField_deleteField_other _ _ _ hk⟩
  · intro response' charts' toolCalls' h
    unfold toolLoop at h
    rw [hcall] at h
    simp only at h
    rw [hexec] at h
    simp only at h
    rcases hsend : withRetry (sendOnce env chat
      [OutPart.functionResponse call.name (deleteField toolResult "imageBase64")]) s1
      with ⟨r2, s2, a2⟩
    rw [hsend] at h
    cases r2 with
    | error e => simp at h
    | ok resp1 =>
      simp only at h
      have hext := toolLoop_calls_extend env chat channelData n resp1
        (if truthyField (getField toolResult "_toolType") = true then charts ++ [toolResult]
          else charts)
        (toolCalls ++ [⟨call.name, call.args, toolResult⟩]) s2 response' charts' toolCalls'
      rcases hrec : toolLoop env chat channelData n resp1
        (if truthyField (getField toolResult "_toolType") = true then charts ++ [toolResult]
          else charts)
        (toolCalls ++ [⟨call.name, call.args, toolResult⟩]) s2 with ⟨r3, s3, a3⟩
      rw [hrec] at h hext
      obtain ⟨more, hm⟩ := hext h
      exact ⟨more, by simp [hm]⟩
  · intro apiKey modelsToTry args s0 a ha
    unfold chatWithToolsInternal at ha
    split at ha
    · simp at ha
    · exact noImageSent_models env args modelsToTry s0 a ha

/-- C2 at the image tool: the dispatcher returns a result with `imageBase64`;
the function response is sent without it and the record keeps it. -/
theorem C2_model_view_without_image_witness :
    callResponse.parts.findSome? (fun p => p.functionCall)
      = some ⟨"lookup", JVal.obj [("q", JVal.str "x")]⟩ ∧
    envImage.executeTool "lookup" (JVal.obj [("q", JVal.str "x")]) (JVal.arr []) 1
      = (.ok imageResult, 1) ∧
    getField imageResult "imageBase64" = some (JVal.str "iVBORw0KGgo=") ∧
    (∃ (sent : ToolResult) (rest : List Act),
      (toolLoop envImage (chatFor helloArgs Tools.functionDeclarations "m") (JVal.arr []) 5
          callResponse [] [] 1).2.2
        = Act.tool "lookup" (JVal.obj [("q", JVal.str "x")])
            :: Act.send (chatFor helloArgs Tools.functionDeclarations "m")
                [OutPart.functionResponse "lookup" sent] :: rest ∧
      getField sent "imageBase64" = none ∧
      ∀ k : String, k ≠ "imageBase64" → getField sent k = getField imageResult k) :=
  ⟨rfl, rfl, rfl,
    (C2_model_view_without_image envImage (chatFor helloArgs Tools.functionDeclarations "m")
      (JVal.arr []) 4 callResponse [] [] 1 1 ⟨"lookup", JVal.obj [("q", JVal.str "x")]⟩
      imageResult rfl rfl).1⟩

/-! ### C3, C4: what the tool-calling session returns -/

theorem finalResponse_cons (first : Response) (r : Round) (more : List Round) :
    finalResponse first (r :: more) = finalResponse r.next more := by
  cases more with
  | nil => rfl
  | cons r' more' =>
    have h : (r' :: more').getLast? = some ((r' :: more').getLast (by simp)) :=
      List.getLast?_eq_getLast _ _
    simp only [finalResponse, List.getLast?_cons_cons]
    rw [h]

theorem toolLoop_rounds {σ : Type} (env : Env σ) (chat : Chat) (cd : JVal) :
    ∀ (rounds : List Round) (n : Nat) (resp : Response) (charts : List ToolResult)
      (calls : List ToolCallRecord) (s s' : σ),
      RoundsPlay env chat cd resp s rounds s' →
      rounds.length ≤ n →
      (finalResponse resp rounds).parts.findSome? (fun p => p.functionCall) = none →
      ∃ acts, toolLoop env chat cd n resp charts calls s =
        (.ok (finalResponse resp rounds,
              charts ++ (rounds.map (fun r => r.result)).filter
                (fun r => truthyField (getField r "_toolType")),
              calls ++ rounds.map (fun r => ⟨r.call.name, r.call.args, r.result⟩)),
          s', acts) := by
  intro rounds
  induction rounds with
  | nil =>
    intro n resp charts calls s s' hplay _ hfinal
    simp only [RoundsPlay] at hplay
    subst hplay
    have hfin : finalResponse resp [] = resp := rfl
    rw [hfin] at hfinal ⊢
    cases n with
    | zero => exact ⟨[], by simp [toolLoop]⟩
    | succ k =>
      refine ⟨[], ?_⟩
      unfold toolLoop
      rw [hfinal]
      simp
  | cons r more ih =>
    intro n resp charts calls s s' hplay hlen hfinal
    simp only [RoundsPlay] at hplay
    obtain ⟨hcall, s1, s2, a, hexec, hsend, hmore⟩ := hplay
    cases n with
    | zero => simp at hlen
    | succ k =>
      rw [finalResponse_cons] at hfinal ⊢
      have hlen' : more.length ≤ k := by simpa using hlen
      obtain ⟨acts, hrec⟩ := ih k r.next
        (if truthyField (getField r.result "_toolType") = true then charts ++ [r.result]
          else charts)
        (calls ++ [⟨r.call.name, r.call.args, r.result⟩]) s2 s' hmore hlen' hfinal
      refine ⟨Act.tool r.call.name r.call.args :: (a ++ acts), ?_⟩
      unfold toolLoop
      rw [hcall]
      simp only
      rw [hexec]
      simp only
      rw [hsend]
      simp only
      rw [hrec]
      simp only [List.map_cons, List.filter_cons, Prod.mk.injEq, Except.ok.injEq, and_true,
        true_and]
      constructor
      · split <;> simp
      · simp

/-- C3: on a candidate whose first call returns `first`, after which the
backend and the dispatcher play `rounds` (at most 5 tool rounds) and the last
response has no function call and text `t`, `chatWithToolsInternal` returns
the record with `text = t`, `toolCalls` = one entry `{name, args, result}`
per round in request order with the dispatcher's result, and `charts` = those
results, in the same order, whose `_toolType` is set (truthy). -/
theorem C3_returned_record {σ : Type} (env : Env σ) (apiKey : String) (m : String)
    (rest : List String) (args : Args) (s s1 s2 : σ) (a1 : List Act) (first : Response)
    (rounds : List Round) (t : String)
    (hkey : apiKey ≠ "")
    (hfirst : withRetry (sendOnce env (chatFor args Tools.functionDeclarations m)
      (outboundParts args.newMessage args.imageParts)) s = (.ok first, s1, a1))
    (hplay : RoundsPlay env (chatFor args Tools.functionDeclarations m) args.channelData
      first s1 rounds s2)
    (hn : rounds.length ≤ 5)
    (hfinal : (finalResponse first rounds).parts.findSome? (fun p => p.functionCall) = none)
    (htext : (finalResponse first rounds).text = .ok t) :
    (chatWithToolsInternal env (some apiKey) (m :: rest) args s).1 =
      .ok ⟨t,
        (rounds.map (fun r => r.result)).filter (fun r => truthyField (getField r "_toolType")),
        rounds.map (fun r => ⟨r.call.name, r.call.args, r.result⟩)⟩ := by
  obtain ⟨acts, hloop⟩ := toolLoop_rounds env (chatFor args Tools.functionDeclarations m)
    args.channelData rounds 5 first [] [] s1 s2 hplay hn hfinal
  have hk : (!truthyStr (some apiKey)) = false := by simp [truthyStr, hkey]
  unfold chatWithToolsInternal
  rw [hk]
  simp only [Bool.false_eq_true, ↓reduceIte]
  unfold chatWithToolsModels chatWithToolsAttempt
  simp only
  rw [hfirst]
  simp only
  rw [hloop]
  simp only [List.nil_append]
  rw [htext]

/-- C3 on the scenario: the backend requests `lookup` with `{q: "x"}`, the
dispatcher returns `{value: 42}`, the backend then answers "The answer is
42"; the record has that text, no chart and the one tool call. -/
theorem C3_returned_record_witness :
    (chatWithToolsInternal envLookup (some "key") ["gemini-2.0-flash"] helloArgs 0).1 =
      .ok ⟨"The answer is 42", [],
        [⟨"lookup", JVal.obj [("q", JVal.str "x")], [("value", JVal.num 42)]⟩]⟩ :=
  C3_returned_record envLookup "key" "gemini-2.0-flash" [] helloArgs 0 1 2
    [Act.send (chatFor helloArgs Tools.functionDeclarations "gemini-2.0-flash")
      (outboundParts helloArgs.newMessage helloArgs.imageParts)]
    callResponse
    [⟨⟨"lookup", JVal.obj [("q", JVal.str "x")]⟩, [("value", JVal.num 42)],
      textResponse "The answer is 42"⟩]
    "The answer is 42" (by decide) rfl ⟨rfl, 1, 2, _, rfl, rfl, rfl⟩ (by decide) rfl rfl

/-- C4: when the first backend response of a candidate has no part with a
function call, `chatWithToolsInternal` returns that response's text with
`charts = []` and `toolCalls = []`, executes no tool, and performs no action
after those of the first backend call. -/
theorem C4_no_call_returns_text {σ : Type} (env : Env σ) (apiKey : String) (m : String)
    (rest : List String) (args : Args) (s s1 : σ) (a1 : List Act) (first : Response)
    (t : String)
    (hkey : apiKey ≠ "")
    (hfirst : withRetry (sendOnce env (chatFor args Tools.functionDeclarations m)
      (outboundParts args.newMessage args.imageParts)) s = (.ok first, s1, a1))
    (hnocall : ∀ p ∈ first.parts, p.functionCall = none)
    (htext : first.text = .ok t) :
    chatWithToolsInternal env (some apiKey) (m :: rest) args s =
      (.ok ⟨t, [], []⟩, s1, Act.startChat (chatFor args Tools.functionDeclarations m) :: a1) ∧
    toolCount (chatWithToolsInternal env (some apiKey) (m :: rest) args s).2.2 = 0 := by
  have hfind : first.parts.findSome? (fun p => p.functionCall) = none := by
    rw [List.findSome?_eq_none_iff]
    exact hnocall
  have hk : (!truthyStr (some apiKey)) = false := by simp [truthyStr, hkey]
  have hrun : chatWithToolsInternal env (some apiKey) (m :: rest) args s =
      (.ok ⟨t, [], []⟩, s1, Act.startChat (chatFor args Tools.functionDeclarations m) :: a1) := by
    unfold chatWithToolsInternal
    rw [hk]
    simp only [Bool.false_eq_true, ↓reduceIte]
    unfold chatWithToolsModels chatWithToolsAttempt
    simp only
    rw [hfirst]
    simp only
    unfold toolLoop
    rw [hfind]
    simp only [List.append_nil]
    rw [htext]
  refine ⟨hrun, ?_⟩
  rw [hrun]
  have hw := toolCount_withRetry_sendOnce env (chatFor args Tools.functionDeclarations m)
    (outboundParts args.newMessage args.imageParts) s
  rw [hfirst] at hw
  simp only [toolCount] at hw ⊢
  simp [List.countP_cons, Act.isTool, hw]

/-- C4 on a candidate that answers "Hello" at once. -/
theorem C4_no_call_returns_text_witness :
    chatWithToolsInternal envFallback (some "key") ["gemini-2.0-flash"] helloArgs 0 =
      (.ok ⟨"Hello", [], []⟩, 1,
        [Act.startChat (chatFor helloArgs Tools.functionDeclarations "gemini-2.0-flash"),
         Act.send (chatFor helloArgs Tools.functionDeclarations "gemini-2.0-flash")
          (outboundParts helloArgs.newMessage helloArgs.imageParts)]) :=
  (C4_no_call_returns_text envFallback "key" "gemini-2.0-flash" [] helloArgs 0 1
    [Act.send (chatFor helloArgs Tools.functionDeclarations "gemini-2.0-flash")
      (outboundParts helloArgs.newMessage helloArgs.imageParts)]
    (textResponse "Hello") "Hello" (by decide) rfl
    (by intro p hp; simp only [textResponse, List.mem_singleton] at hp; rw [hp]) rfl).1

/-! ### C5: falling back along the roster -/

theorem attempted_append (a b : List Act) : attempted (a ++ b) = attempted a ++ attempted b := by
  simp [attempted, List.filterMap_append]

theorem attempted_eq_nil (acts : List Act) (h : ∀ a ∈ acts, a.started? = none) :
    attempted acts = [] := by
  unfold attempted
  rw [List.filterMap_eq_nil_iff]
  exact h

theorem attempted_withRetry_sendOnce {σ : Type} (env : Env σ) (chat : Chat)
    (parts : List OutPart) (s : σ) :
    attempted (withRetry (sendOnce env chat parts) s).2.2 = [] := by
  apply attempted_eq_nil
  intro a ha
  rcases withRetry_sendOnce_acts env chat parts s a ha with h | ⟨ms, h⟩ <;> rw [h] <;> rfl

theorem attempted_withRetry_sendStreamOnce {σ : Type} (env : Env σ) (chat : Chat)
    (parts : List OutPart) (s : σ) :
    attempted (withRetry (sendStreamOnce env chat parts) s).2.2 = [] := by
  apply attempted_eq_nil
  intro a ha
  rcases withRetry_sendStreamOnce_acts env chat parts s a ha with h | ⟨ms, h⟩ <;> rw [h] <;> rfl

theorem attempted_toolLoop {σ : Type} (env : Env σ) (chat : Chat) (cd : JVal) :
    ∀ (n : Nat) (resp : Response) (charts : List ToolResult) (calls : List ToolCallRecord)
      (s : σ), attempted (toolLoop env chat cd n resp charts calls s).2.2 = [] := by
  intro n
  induction n with
  | zero => intro resp charts calls s; simp [toolLoop, attempted]
  | succ n ih =>
    intro resp charts calls s
    unfold toolLoop
    cases hfc : resp.parts.findSome? (fun p => p.functionCall) with
    | none => simp [attempted]
    | some fc =>
      simp only
      rcases hex : env.executeTool fc.name fc.args cd s with ⟨r, s1⟩
      cases r with
      | error e => simp [attempted, Act.started?]
      | ok tr =>
        simp only
        have hw := attempted_withRetry_sendOnce env chat
          [OutPart.functionResponse fc.name (deleteField tr "imageBase64")] s1
        rcases hsend : withRetry (sendOnce env chat
          [OutPart.functionResponse fc.name (deleteField tr "imageBase64")]) s1 with ⟨r2, s2, a2⟩
        rw [hsend] at hw
        simp only at hw
        cases r2 with
        | error e =>
          show attempted (Act.tool fc.name fc.args :: a2) = []
          have : attempted (Act.tool fc.name fc.args :: a2) = attempted a2 := by
            simp [attempted, Act.started?]
          rw [this, hw]
        | ok resp1 =>
          simp only
          have ih1 := ih resp1
            (if truthyField (getField tr "_toolType") = true then charts ++ [tr] else charts)
            (calls ++ [⟨fc.name, fc.args, tr⟩]) s2
          rcases hrec : toolLoop env chat cd n resp1
            (if truthyField (getField tr "_toolType") = true then charts ++ [tr] else charts)
            (calls ++ [⟨fc.name, fc.args, tr⟩]) s2 with ⟨r3, s3, a3⟩
          rw [hrec] at ih1 ⊢
          simp only at ih1
          show attempted (Act.tool fc.name fc.args :: (a2 ++ a3)) = []
          have : attempted (Act.tool fc.name fc.args :: (a2 ++ a3))
              = attempted a2 ++ attempted a3 := by
            rw [← attempted_append]
            simp [attempted, Act.started?]
          rw [this, hw, ih1]
          rfl

theorem attempted_startChat_cons (chat : Chat) (acts : List Act) :
    attempted (Act.startChat chat :: acts) = chat.model :: attempted acts := by
  simp [attempted, Act.started?]

theorem attempted_attempt {σ : Type} (env : Env σ) (args : Args) (m : String) (s : σ) :
    attempted (chatWithToolsAttempt env args m s).2.2 = [m] := by
  unfold chatWithToolsAttempt
  simp only
  have hw := attempted_withRetry_sendOnce env (chatFor args Tools.functionDeclarations m)
    (outboundParts args.newMessage args.imageParts) s
  rcases hsend : withRetry (sendOnce env (chatFor args Tools.functionDeclarations m)
    (outboundParts args.newMessage args.imageParts)) s with ⟨r, s1, a1⟩
  rw [hsend] at hw
  simp only at hw
  cases r with
  | error e =>
    simp only
    rw [attempted_startChat_cons, hw]
    rfl
  | ok resp =>
    simp only
    have hl := attempted_toolLoop env (chatFor args Tools.functionDeclarations m)
      args.channelData 5 resp [] [] s1
    rcases hloop : toolLoop env (chatFor args Tools.functionDeclarations m)
      args.channelData 5 resp [] [] s1 with ⟨r2, s2, a2⟩
    rw [hloop] at hl
    simp only at hl
    have hc : attempted (Act.startChat (chatFor args Tools.functionDeclarations m) :: (a1 ++ a2))
        = [m] := by
      rw [attempted_startChat_cons, attempted_append, hw, hl]
      rfl
    cases r2 with
    | error e => exact hc
    | ok v =>
      rcases v with ⟨resp1, charts, calls⟩
      simp only
      cases resp1.text with
      | error e => exact hc
      | ok t => exact hc

theorem attempted_streamAttempt {σ : Type} (env : Env σ) (args : Args) (m : String) (s : σ) :
    attempted (streamAttempt env args m s).2.2.2 = [m] := by
  unfold streamAttempt
  simp only
  have hw := attempted_withRetry_sendStreamOnce env (chatFor args (streamTools args) m)
    (outboundParts args.newMessage args.imageParts) s
  rcases hsend : withRetry (sendStreamOnce env (chatFor args (streamTools args) m)
    (outboundParts args.newMessage args.imageParts)) s with ⟨r, s1, a1⟩
  rw [hsend] at hw
  simp only at hw
  have hc : attempted (Act.startChat (chatFor args (streamTools args) m) :: a1) = [m] := by
    rw [attempted_startChat_cons, hw]
    rfl
  cases r with
  | error e => exact hc
  | ok result =>
    simp only
    cases result.streamError with
    | some e => exact hc
    | none =>
      simp only
      cases result.response with
      | error e => exact hc
      | ok response => exact hc

theorem toolsAttemptsFail_attempted {σ : Type} (env : Env σ) (args : Args) :
    ∀ (failed : List String) (s s' : σ) (acts : List Act),
      ToolsAttemptsFail env args failed s s' acts → attempted acts = failed := by
  intro failed
  induction failed with
  | nil =>
    intro s s' acts h
    simp only [ToolsAttemptsFail] at h
    rw [h.2]
    rfl
  | cons m rest ih =>
    intro s s' acts h
    simp only [ToolsAttemptsFail] at h
    obtain ⟨e, s1, a1, a2, hatt, _, hrest, hacts⟩ := h
    have h1 := attempted_attempt env args m s
    rw [hatt] at h1
    simp only at h1
    rw [hacts, attempted_append, h1, ih s1 s' a2 hrest]
    rfl

theorem streamCallsFail_attempted {σ : Type} (env : Env σ) (args : Args) :
    ∀ (failed : List String) (s s' : σ) (acts : List Act),
      StreamCallsFail env args failed s s' acts → attempted acts = failed := by
  intro failed
  induction failed with
  | nil =>
    intro s s' acts h
    simp only [StreamCallsFail] at h
    rw [h.2]
    rfl
  | cons m rest ih =>
    intro s s' acts h
    simp only [StreamCallsFail] at h
    obtain ⟨e, s1, a1, a2, hcall, _, hrest, hacts⟩ := h
    have h1 := attempted_withRetry_sendStreamOnce env (chatFor args (streamTools args) m)
      (outboundParts args.newMessage args.imageParts) s
    rw [hcall] at h1
    simp only at h1
    rw [hacts]
    show attempted (Act.startChat (chatFor args (streamTools args) m) :: (a1 ++ a2)) = m :: rest
    rw [attempted_startChat_cons, attempted_append, h1, ih s1 s' a2 hrest]
    rfl

theorem chatWithToolsModels_skip {σ : Type} (env : Env σ) (args : Args) :
    ∀ (failed : List String) (later : List String) (s s' : σ) (acts : List Act),
      ToolsAttemptsFail env args failed s s' acts →
      chatWithToolsModels env args (failed ++ later) s =
        ((chatWithToolsModels env args later s').1, (chatWithToolsModels env args later s').2.1,
          acts ++ (chatWithToolsModels env args later s').2.2) := by
  intro failed
  induction failed with
  | nil =>
    intro later s s' acts h
    simp only [ToolsAttemptsFail] at h
    rw [h.1, h.2]
    rfl
  | cons m rest ih =>
    intro later s s' acts h
    simp only [ToolsAttemptsFail] at h
    obtain ⟨e, s1, a1, a2, hatt, h404, hrest, hacts⟩ := h
    have ih1 := ih later s1 s' a2 hrest
    rw [List.cons_append]
    conv_lhs => unfold chatWithToolsModels
    rw [hatt]
    simp only [h404, ↓reduceIte]
    rw [ih1, hacts]
    simp

theorem streamModels_skip {σ : Type} (env : Env σ) (args : Args) :
    ∀ (failed : List String) (later : List String) (s s' : σ) (acts : List Act),
      StreamCallsFail env args failed s s' acts →
      streamModels env args (failed ++ later) s =
        ((streamModels env args later s').1, (streamModels env args later s').2.1,
          (streamModels env args later s').2.2.1,
          acts ++ (streamModels env args later s').2.2.2) := by
  intro failed
  induction failed with
  | nil =>
    intro later s s' acts h
    simp only [StreamCallsFail] at h
    rw [h.1, h.2]
    rfl
  | cons m rest ih =>
    intro later s s' acts h
    simp only [StreamCallsFail] at h
    obtain ⟨e, s1, a1, a2, hcall, h404, hrest, hacts⟩ := h
    have ih1 := ih later s1 s' a2 hrest
    rw [List.cons_append]
    conv_lhs => unfold streamModels
    have hatt : streamAttempt env args m s =
        ([], .error e, s1, Act.startChat (chatFor args (streamTools args) m) :: a1) := by
      unfold streamAttempt
      simp only
      rw [hcall]
    rw [hatt]
    simp only [h404, ↓reduceIte]
    rw [ih1, hacts]
    simp

/-- C5: for both sessions and every roster `failed ++ m :: rest`: if the
candidates of `failed` fail one after the other with model-unusable errors
(for the streaming session: their backend call fails) and candidate `m` then
succeeds, the session returns to the caller exactly what the attempt on `m`
produced, no error, and the candidates attempted are, in order, those of
`failed` followed by `m`. -/
theorem C5_fallback_is_transparent {σ : Type} (env : Env σ) (apiKey : String) (args : Args)
    (failed : List String) (m : String) (rest : List String) (hkey : apiKey ≠ "") :
    (∀ (s s' s'' : σ) (acts a : List Act) (r : ChatResult),
      ToolsAttemptsFail env args failed s s' acts →
      chatWithToolsAttempt env args m s' = (.ok r, s'', a) →
      chatWithToolsInternal env (some apiKey) (failed ++ m :: rest) args s
        = (.ok r, s'', acts ++ a) ∧
      attempted (acts ++ a) = failed ++ [m]) ∧
    (∀ (s s' s'' : σ) (acts a : List Act) (evs : List StreamEvent),
      StreamCallsFail env args failed s s' acts →
      streamAttempt env args m s' = (evs, .ok (), s'', a) →
      streamChatInternal env (some apiKey) (failed ++ m :: rest) args s
        = (evs, .ok (), s'', acts ++ a) ∧
      attempted (acts ++ a) = failed ++ [m]) := by
  have hk : (!truthyStr (some apiKey)) = false := by simp [truthyStr, hkey]
  constructor
  · intro s s' s'' acts a r hfail hok
    constructor
    · unfold chatWithToolsInternal
      rw [hk]
      simp only [Bool.false_eq_true, ↓reduceIte]
      rw [chatWithToolsModels_skip env args failed (m :: rest) s s' acts hfail]
      unfold chatWithToolsModels
      rw [hok]
    · have h1 := attempted_attempt env args m s'
      rw [hok] at h1
      simp only at h1
      rw [attempted_append, toolsAttemptsFail_attempted env args failed s s' acts hfail, h1]
  · intro s s' s'' acts a evs hfail hok
    constructor
    · unfold streamChatInternal
      rw [hk]
      simp only [Bool.false_eq_true, ↓reduceIte]
      rw [streamModels_skip env args failed (m :: rest) s s' acts hfail]
      unfold streamModels
      rw [hok]
    · have h1 := attempted_streamAttempt env args m s'
      rw [hok] at h1
      simp only at h1
      rw [attempted_append, streamCallsFail_attempted env args failed s s' acts hfail, h1]

/-- C5 on a roster whose first two candidates are unusable (404) and whose
third answers: both sessions return what the third candidate produced. -/
theorem C5_fallback_is_transparent_witness :
    (chatWithToolsInternal envFallback (some "key") (["bad-1", "bad-2"] ++ "good" :: ["other"])
      helloArgs 0).1 = .ok ⟨"Hello", [], []⟩ ∧
    (streamChatInternal envFallback (some "key") (["bad-1", "bad-2"] ++ "good" :: ["other"])
      helloArgs 0).1 = [StreamEvent.text "Hi", StreamEvent.text " there"] :=
  ⟨congrArg (fun x => x.1)
      ((C5_fallback_is_transparent envFallback "key" helloArgs ["bad-1", "bad-2"] "good"
        ["other"] (by decide)).1 0 2 3 _ _ ⟨"Hello", [], []⟩
        ⟨⟨"404 model not found"⟩, 1, _, _, rfl, by decide,
          ⟨⟨"404 model not found"⟩, 2, _, _, rfl, by decide, ⟨rfl, rfl⟩, rfl⟩, rfl⟩
        rfl).1,
   congrArg (fun x => x.1)
      ((C5_fallback_is_transparent envFallback "key" helloArgs ["bad-1", "bad-2"] "good"
        ["other"] (by decide)).2 0 2 3 _ _ [StreamEvent.text "Hi", StreamEvent.text " there"]
        ⟨⟨"404 model not found"⟩, 1, _, _, rfl, by decide,
          ⟨⟨"404 model not found"⟩, 2, _, _, rfl, by decide, ⟨rfl, rfl⟩, rfl⟩, rfl⟩
        rfl).1⟩

theorem includes_iff (s sub : String) :
    includes s sub = true ↔ sub.toList <:+: s.toList := by
  unfold includes
  rw [List.any_eq_true, List.infix_iff_prefix_suffix]
  constructor
  · rintro ⟨t, ht, hp⟩
    exact ⟨t, List.isPrefixOf_iff_prefix.1 hp, (List.mem_tails _ _).1 ht⟩
  · rintro ⟨t, hp, ht⟩
    exact ⟨t, (List.mem_tails _ _).2 ht, List.isPrefixOf_iff_prefix.2 hp⟩

theorem includes_trans (a b c : String) (hab : includes a b = true)
    (hbc : includes b c = true) : includes a c = true := by
  rw [includes_iff] at *
  exact List.IsInfix.trans hbc hab

theorem friendly_excludes_unusable (e : Err) (h : is404OrNotSupported e = true) :
    includes friendlyGeminiError.message e.message = false := by
  cases hinc : includes friendlyGeminiError.message e.message with
  | false => rfl
  | true =>
    exfalso
    have h404 : includes friendlyGeminiError.message "404" = false := by decide
    have hnf : includes friendlyGeminiError.message "not found" = false := by decide
    have hns : includes friendlyGeminiError.message "not supported" = false := by decide
    have hm : includes friendlyGeminiError.message "Model" = false := by decide
    simp only [is404OrNotSupported, Bool.or_eq_true, Bool.and_eq_true] at h
    rcases h with ((h | h) | h) | ⟨h, _⟩
    · rw [includes_trans _ _ _ hinc h] at h404; cases h404
    · rw [includes_trans _ _ _ hinc h] at hnf; cases hnf
    · rw [includes_trans _ _ _ hinc h] at hns; cases hns
    · rw [includes_trans _ _ _ hinc h] at hm; cases hm

/-! ### C7, C8, C9: the events of the streaming session -/

theorem textEvent_is_text (p : Part) (e : StreamEvent) (h : textEvent? p = some e) :
    ∃ t, e = StreamEvent.text t := by
  unfold textEvent? at h
  cases hp : p.text with
  | none => rw [hp] at h; cases h
  | some t =>
    rw [hp] at h
    simp only at h
    split at h
    · cases h; exact ⟨t, rfl⟩
    · cases h

theorem chunkEvents_texts (ps : List Part) :
    ∃ ts : List String, chunkEvents ps = ts.map StreamEvent.text := by
  induction ps with
  | nil => exact ⟨[], rfl⟩
  | cons p rest ih =>
    obtain ⟨ts, hts⟩ := ih
    unfold chunkEvents at hts ⊢
    cases hp : textEvent? p with
    | none => exact ⟨ts, by rw [List.filterMap_cons_none hp]; exact hts⟩
    | some e =>
      obtain ⟨t, ht⟩ := textEvent_is_text p e hp
      exact ⟨t :: ts, by rw [List.filterMap_cons_some hp, hts, ht]; rfl⟩

theorem streamEvents_texts (chunks : List (List Part)) :
    ∃ ts : List String, streamEvents chunks = ts.map StreamEvent.text := by
  induction chunks with
  | nil => exact ⟨[], rfl⟩
  | cons c rest ih =>
    obtain ⟨ts, hts⟩ := ih
    obtain ⟨ts0, hts0⟩ := chunkEvents_texts c
    exact ⟨ts0 ++ ts, by simp [streamEvents, hts, hts0]⟩

theorem finalEvents_shape (response : Response) :
    ∃ (full : Option (List SPart)) (g : Option JVal),
      finalEvents response =
        full.toList.map StreamEvent.fullResponse ++ g.toList.map StreamEvent.grounding := by
  unfold finalEvents
  by_cases hc : hasCodeExecution response.parts = true
  · cases hg : response.groundingMetadata with
    | none => exact ⟨some (structuredParts response.parts), none, by simp [hc]⟩
    | some g =>
      by_cases ht : g.truthy = true
      · exact ⟨some (structuredParts response.parts), some g, by simp [hc, ht]⟩
      · exact ⟨some (structuredParts response.parts), none, by simp [hc, ht]⟩
  · cases hg : response.groundingMetadata with
    | none => exact ⟨none, none, by simp [hc]⟩
    | some g =>
      by_cases ht : g.truthy = true
      · exact ⟨none, some g, by simp [hc, ht]⟩
      · exact ⟨none, none, by simp [hc, ht]⟩

theorem streamAttempt_shape {σ : Type} (env : Env σ) (args : Args) (m : String) (s : σ) :
    ∃ ts : List String,
      ((∃ e, (streamAttempt env args m s).2.1 = .error e) ∧
        (streamAttempt env args m s).1 = ts.map StreamEvent.text) ∨
      ((streamAttempt env args m s).2.1 = .ok () ∧
        ∃ response, (streamAttempt env args m s).1
          = ts.map StreamEvent.text ++ finalEvents response) := by
  unfold streamAttempt
  simp only
  rcases hsend : withRetry (sendStreamOnce env (chatFor args (streamTools args) m)
    (outboundParts args.newMessage args.imageParts)) s with ⟨r, s1, a1⟩
  cases r with
  | error e => exact ⟨[], Or.inl ⟨⟨e, rfl⟩, rfl⟩⟩
  | ok result =>
    simp only
    obtain ⟨ts, hts⟩ := streamEvents_texts result.chunks
    refine ⟨ts, ?_⟩
    cases result.streamError with
    | some e => exact Or.inl ⟨⟨e, rfl⟩, hts⟩
    | none =>
      simp only
      cases result.response with
      | error e => exact Or.inl ⟨⟨e, rfl⟩, hts⟩
      | ok response => exact Or.inr ⟨rfl, response, by rw [hts]⟩

theorem streamModels_shape {σ : Type} (env : Env σ) (args : Args) :
    ∀ (models : List String) (s : σ),
      ∃ (texts : List String) (full : Option (List SPart)) (g : Option JVal),
        (streamModels env args models s).1 =
          texts.map StreamEvent.text ++
            (full.toList.map StreamEvent.fullResponse ++ g.toList.map StreamEvent.grounding) := by
  intro models
  induction models with
  | nil => intro s; exact ⟨[], none, none, rfl⟩
  | cons m rest ih =>
    intro s
    obtain ⟨ts, hshape⟩ := streamAttempt_shape env args m s
    unfold streamModels
    rcases hatt : streamAttempt env args m s with ⟨evs, r, s1, a1⟩
    rw [hatt] at hshape
    simp only at hshape
    cases r with
    | ok u =>
      simp only
      rcases hshape with ⟨⟨e, he⟩, _⟩ | ⟨_, response, hev⟩
      · cases he
      · obtain ⟨full, g, hfg⟩ := finalEvents_shape response
        exact ⟨ts, full, g, by rw [hev, hfg]⟩
    | error err =>
      simp only
      rcases hshape with ⟨_, hev⟩ | ⟨hok, _⟩
      · split
        · obtain ⟨ts2, full, g, h2⟩ := ih s1
          rcases hrec : streamModels env args rest s1 with ⟨evs2, r2, s2, a2⟩
          rw [hrec] at h2
          simp only at h2 ⊢
          exact ⟨ts ++ ts2, full, g, by rw [hev, h2]; simp⟩
        · exact ⟨ts, none, none, by simp [hev]⟩
      · cases hok

/-- C7: whatever the backend does, also when candidates fail part-way through
a stream and the next candidate takes over, the events yielded by one call of
`streamChatInternal` are text events, then at most one `fullResponse` event,
then at most one `grounding` event. -/
theorem C7_event_order {σ : Type} (env : Env σ) (apiKey : Option String)
    (modelsToTry : List String) (args : Args) (s : σ) :
    ∃ (texts : List String) (full : Option (List SPart)) (grounding : Option JVal),
      (streamChatInternal env apiKey modelsToTry args s).1 =
        texts.map StreamEvent.text ++
          (full.toList.map StreamEvent.fullResponse ++
            grounding.toList.map StreamEvent.grounding) := by
  unfold streamChatInternal
  split
  · exact ⟨[], none, none, rfl⟩
  · exact streamModels_shape env args modelsToTry s

theorem streamEvents_fragments (fragments : List String) (hne : ∀ t ∈ fragments, t ≠ "") :
    streamEvents (fragments.map textFragment) = fragments.map StreamEvent.text := by
  induction fragments with
  | nil => rfl
  | cons t rest ih =>
    have ht : t ≠ "" := hne t (List.mem_cons_self _ _)
    have hrest := ih (fun u hu => hne u (List.mem_cons_of_mem _ hu))
    simp only [List.map_cons, streamEvents, hrest]
    simp [chunkEvents, textFragment, textEvent?, ht]

theorem finalEvents_no_text (response : Response) :
    ∀ e ∈ finalEvents response, ∀ t, e ≠ StreamEvent.text t := by
  obtain ⟨full, g, h⟩ := finalEvents_shape response
  rw [h]
  intro e he t
  simp only [List.mem_append, List.mem_map] at he
  rcases he with ⟨x, _, hx⟩ | ⟨x, _, hx⟩ <;> rw [← hx] <;> intro h' <;> cases h'

theorem isCodeExecutionPart_iff (p : Part) : isCodeExecutionPart p = true ↔ HasArtifact p := by
  unfold isCodeExecutionPart HasArtifact
  rcases p with ⟨text, fc, ec, cer, inl⟩
  cases ec with
  | some e => simp
  | none =>
    cases cer with
    | some r => simp
    | none =>
      cases inl with
      | none => simp
      | some d =>
        rcases d with ⟨mt, data⟩
        cases mt with
        | none => simp
        | some mime => simp

theorem hasCodeExecution_iff (parts : List Part) :
    hasCodeExecution parts = true ↔ ∃ p ∈ parts, HasArtifact p := by
  unfold hasCodeExecution
  rw [List.any_eq_true]
  constructor
  · rintro ⟨p, hp, h⟩; exact ⟨p, hp, (isCodeExecutionPart_iff p).1 h⟩
  · rintro ⟨p, hp, h⟩; exact ⟨p, hp, (isCodeExecutionPart_iff p).2 h⟩

theorem streamChatInternal_success {σ : Type} (env : Env σ) (apiKey : String) (m : String)
    (rest : List String) (args : Args) (s s1 : σ) (a1 : List Act) (result : StreamResult)
    (response : Response) (hkey : apiKey ≠ "")
    (hcall : withRetry (sendStreamOnce env (chatFor args (streamTools args) m)
      (outboundParts args.newMessage args.imageParts)) s = (.ok result, s1, a1))
    (hstream : result.streamError = none) (hresp : result.response = .ok response) :
    (streamChatInternal env (some apiKey) (m :: rest) args s).1
      = streamEvents result.chunks ++ finalEvents response := by
  have hk : (!truthyStr (some apiKey)) = false := by simp [truthyStr, hkey]
  unfold streamChatInternal
  rw [hk]
  simp only [Bool.false_eq_true, ↓reduceIte]
  unfold streamModels streamAttempt
  simp only
  rw [hcall]
  simp only
  rw [hstream]
  simp only
  rw [hresp]

/-- C8: when the first candidate succeeds and the stream delivers fragments
each carrying a non-empty text, `streamChatInternal` yields exactly one text
event per fragment, in arrival order and with the text unchanged, before
anything else, and nothing it yields after them is a text event; if the final
response has no code-execution part, no inline image and no grounding
metadata, it yields no other event at all. -/
theorem C8_text_event_per_fragment {σ : Type} (env : Env σ) (apiKey : String) (m : String)
    (rest : List String) (args : Args) (s s1 : σ) (a1 : List Act) (fragments : List String)
    (response : Response) (hkey : apiKey ≠ "")
    (hne : ∀ t ∈ fragments, t ≠ "")
    (hcall : withRetry (sendStreamOnce env (chatFor args (streamTools args) m)
      (outboundParts args.newMessage args.imageParts)) s
      = (.ok { chunks := fragments.map textFragment, streamError := none,
               response := .ok response }, s1, a1)) :
    (∃ others : List StreamEvent,
      (streamChatInternal env (some apiKey) (m :: rest) args s).1
        = fragments.map StreamEvent.text ++ others ∧
      ∀ e ∈ others, ∀ t, e ≠ StreamEvent.text t) ∧
    ((∀ p ∈ response.parts, ¬ HasArtifact p) → response.groundingMetadata = none →
      (streamChatInternal env (some apiKey) (m :: rest) args s).1
        = fragments.map StreamEvent.text) := by
  have hrun := streamChatInternal_success env apiKey m rest args s s1 a1 _ response hkey hcall
    rfl rfl
  simp only at hrun
  rw [streamEvents_fragments fragments hne] at hrun
  refine ⟨⟨finalEvents response, hrun, finalEvents_no_text response⟩, ?_⟩
  intro hnone hg
  rw [hrun]
  have hc : hasCodeExecution response.parts = false := by
    cases h : hasCodeExecution response.parts with
    | false => rfl
    | true =>
      obtain ⟨p, hp, hart⟩ := (hasCodeExecution_iff _).1 h
      exact absurd hart (hnone p hp)
  simp [finalEvents, hc, hg]

/-- C8 on the scenario: message "Hello", fragments "Hi" and " there", final
response without code, image or grounding: exactly the two text events. -/
theorem C8_text_event_per_fragment_witness :
    (streamChatInternal envFallback (some "key") ["gemini-2.0-flash"] helloArgs 0).1
      = [StreamEvent.text "Hi", StreamEvent.text " there"] :=
  (C8_text_event_per_fragment envFallback "key" "gemini-2.0-flash" [] helloArgs 0 1
    [Act.sendStream (chatFor helloArgs (streamTools helloArgs) "gemini-2.0-flash")
      (outboundParts helloArgs.newMessage helloArgs.imageParts)]
    ["Hi", " there"] (textResponse "Hi there") (by decide) (by decide) rfl).2
    (by
      intro p hp
      simp only [textResponse, List.mem_singleton] at hp
      rw [hp]
      simp [HasArtifact])
    rfl

theorem structuredPart_spec (p : Part) :
    (hasContent p = false ∧ structuredPart p = none) ∨
    (hasContent p = true ∧ ∃ e, structuredPart p = some e ∧ EntryOf p e) := by
  rcases p with ⟨text, fc, ec, cer, inl⟩
  by_cases ht : truthyStr text = true
  · right
    have hsome : ∃ t, text = some t := by
      cases text with
      | none => simp [truthyStr] at ht
      | some t => exact ⟨t, rfl⟩
    obtain ⟨t, rfl⟩ := hsome
    exact ⟨by simp [hasContent, ht],
      SPart.text t, by simp [structuredPart, ht], Or.inl ⟨t, rfl, rfl⟩⟩
  · have ht' : truthyStr text = false := by simpa using ht
    cases ec with
    | some e =>
      right
      exact ⟨by simp [hasContent],
        SPart.code (if truthyStr e.language = true then e.language.getD "" else "PYTHON") e.code,
        by simp only [structuredPart, ht', Bool.false_eq_true, ↓reduceIte],
        Or.inr (Or.inl ⟨e, _, rfl, rfl⟩)⟩
    | none =>
      cases cer with
      | some r =>
        right
        exact ⟨by simp [hasContent],
          SPart.result r.outcome r.output,
          by simp only [structuredPart, ht', Bool.false_eq_true, ↓reduceIte],
          Or.inr (Or.inr (Or.inl ⟨r, rfl, rfl⟩))⟩
      | none =>
        cases inl with
        | some d =>
          right
          exact ⟨by simp [hasContent],
            SPart.image d.mimeType d.data,
            by simp only [structuredPart, ht', Bool.false_eq_true, ↓reduceIte],
            Or.inr (Or.inr (Or.inr ⟨d, rfl, rfl⟩))⟩
        | none =>
          left
          exact ⟨by simp [hasContent, ht'],
            by simp only [structuredPart, ht', Bool.false_eq_true, ↓reduceIte]⟩

theorem structuredParts_entries (parts : List Part) :
    List.Forall₂ EntryOf (parts.filter hasContent) (structuredParts parts) := by
  induction parts with
  | nil => exact List.Forall₂.nil
  | cons p rest ih =>
    unfold structuredParts at ih ⊢
    rcases structuredPart_spec p with ⟨hc, hs⟩ | ⟨hc, e, hs, he⟩
    · rw [List.filter_cons_of_neg (by simp [hc]), List.filterMap_cons_none hs]
      exact ih
    · rw [List.filter_cons_of_pos hc, List.filterMap_cons_some hs]
      exact List.Forall₂.cons he ih

theorem streamEvents_no_full (chunks : List (List Part)) :
    ∀ e ∈ streamEvents chunks, e.isFullResponse = false := by
  obtain ⟨ts, hts⟩ := streamEvents_texts chunks
  rw [hts]
  intro e he
  simp only [List.mem_map] at he
  obtain ⟨t, _, ht⟩ := he
  rw [← ht]
  rfl

/-- C9: for every final response of a successful stream, `streamChatInternal`
yields a `fullResponse` event if and only if some part of the response has
`executableCode`, a `codeExecutionResult`, or `inlineData` whose mime type
starts with `image/`; it never yields more than one; and the `parts` of the
event hold one typed entry (text, code, result or image), built from the
part, for every response part that has text (non-empty), `executableCode`,
`codeExecutionResult` or `inlineData`, in the order of the response. -/
theorem C9_full_response_event {σ : Type} (env : Env σ) (apiKey : String) (m : String)
    (rest : List String) (args : Args) (s s1 : σ) (a1 : List Act) (result : StreamResult)
    (response : Response) (hkey : apiKey ≠ "")
    (hcall : withRetry (sendStreamOnce env (chatFor args (streamTools args) m)
      (outboundParts args.newMessage args.imageParts)) s = (.ok result, s1, a1))
    (hstream : result.streamError = none) (hresp : result.response = .ok response) :
    ((∃ sp, StreamEvent.fullResponse sp ∈
        (streamChatInternal env (some apiKey) (m :: rest) args s).1) ↔
      ∃ p ∈ response.parts, HasArtifact p) ∧
    ((streamChatInternal env (some apiKey) (m :: rest) args s).1.countP
      StreamEvent.isFullResponse ≤ 1) ∧
    (∀ sp, StreamEvent.fullResponse sp ∈
        (streamChatInternal env (some apiKey) (m :: rest) args s).1 →
      List.Forall₂ EntryOf (response.parts.filter hasContent) sp) := by
  rw [streamChatInternal_success env apiKey m rest args s s1 a1 result response hkey hcall
    hstream hresp]
  have hno := streamEvents_no_full result.chunks
  have hmem : ∀ sp, StreamEvent.fullResponse sp ∈ streamEvents result.chunks ++
      finalEvents response ↔
      (hasCodeExecution response.parts = true ∧ sp = structuredParts response.parts) := by
    intro sp
    rw [List.mem_append]
    constructor
    · rintro (h | h)
      · have := hno _ h
        simp [StreamEvent.isFullResponse] at this
      · unfold finalEvents at h
        rw [List.mem_append] at h
        rcases h with h | h
        · by_cases hc : hasCodeExecution response.parts = true
          · simp only [hc, ↓reduceIte, List.mem_singleton, StreamEvent.fullResponse.injEq] at h
            exact ⟨hc, h⟩
          · simp [hc] at h
        · cases hg : response.groundingMetadata with
          | none => rw [hg] at h; simp at h
          | some g =>
            rw [hg] at h
            simp only at h
            split at h
            · simp at h
            · simp at h
    · rintro ⟨hc, rfl⟩
      right
      unfold finalEvents
      simp [hc]
  refine ⟨?_, ?_, ?_⟩
  · constructor
    · rintro ⟨sp, h⟩
      exact (hasCodeExecution_iff _).1 ((hmem sp).1 h).1
    · intro h
      exact ⟨_, (hmem _).2 ⟨(hasCodeExecution_iff _).2 h, rfl⟩⟩
  · rw [List.countP_append]
    have h0 : (streamEvents result.chunks).countP StreamEvent.isFullResponse = 0 := by
      rw [List.countP_eq_zero]
      intro e he
      simp [hno e he]
    rw [h0]
    obtain ⟨full, g, hfg⟩ := finalEvents_shape response
    rw [hfg, List.countP_append]
    have hg0 : (g.toList.map StreamEvent.grounding).countP StreamEvent.isFullResponse = 0 := by
      cases g <;> simp [StreamEvent.isFullResponse]
    rw [hg0]
    cases full <;> simp [StreamEvent.isFullResponse]
  · intro sp h
    rw [((hmem sp).1 h).2]
    exact structuredParts_entries response.parts

/-- C9 on a code-execution response with a text part, a code part, a result
part, a part with nothing to show and an image part: one `fullResponse`
event, with the four typed entries in the order of the response. -/
theorem C9_full_response_event_witness :
    (streamChatInternal envCode (some "key") ["gemini-2.0-flash"] helloArgs 0).1 =
      [StreamEvent.text "Plot:",
       StreamEvent.fullResponse
        [SPart.text "Plot:", SPart.code "PYTHON" "print(1)", SPart.result "OUTCOME_OK" "1",
         SPart.image (some "image/png") "iVBORw0KGgo="]] ∧
    List.Forall₂ EntryOf (codeResponse.parts.filter hasContent)
      [SPart.text "Plot:", SPart.code "PYTHON" "print(1)", SPart.result "OUTCOME_OK" "1",
       SPart.image (some "image/png") "iVBORw0KGgo="] :=
  ⟨rfl,
   (C9_full_response_event envCode "key" "gemini-2.0-flash" [] helloArgs 0 1
    [Act.sendStream (chatFor helloArgs (streamTools helloArgs) "gemini-2.0-flash")
      (outboundParts helloArgs.newMessage helloArgs.imageParts)]
    { chunks := [[{ text := some "Plot:" }]], response := .ok codeResponse } codeResponse
    (by decide) rfl rfl rfl).2.2 _ (List.Mem.tail _ (List.Mem.head _))⟩

/-! ### C10: the stream route when the session fails after output -/

theorem writeEvents_spec (stringify : StreamEvent → String) :
    ∀ (evs : List StreamEvent) (res : Res),
      writeEvents stringify evs res =
        { res with
          headersSent := res.headersSent || !evs.isEmpty,
          written := res.written ++ evs.map (fun ev => stringify ev ++ "\n") } := by
  intro evs
  induction evs with
  | nil => intro res; simp [writeEvents]
  | cons ev rest ih =>
    intro res
    rw [writeEvents, ih]
    simp [Res.write]

/-- C10, as stated, fails: the stream delivers "Hi" and then breaks; the
handler has written the one event line and then only ends the response: no
error indicator follows the line, no error body is sent and the status stays
200. -/
theorem C10_counterexample :
    (streamChatInternal envBroken (some "key") ["gemini-2.0-flash"] helloArgs 0).1
      = [StreamEvent.text "Hi"] ∧
    (streamChatInternal envBroken (some "key") ["gemini-2.0-flash"] helloArgs 0).2.1
      = .error ⟨"socket hang up"⟩ ∧
    ¬ EndsWithOneErrorIndicator ["text Hi\n"]
      (streamRoute envBroken showEvent (some "key") ["gemini-2.0-flash"] helloArgs 0).1 ∧
    (streamRoute envBroken showEvent (some "key") ["gemini-2.0-flash"] helloArgs 0).1.jsonBody
      = none ∧
    (streamRoute envBroken showEvent (some "key") ["gemini-2.0-flash"] helloArgs 0).1.statusCode
      = 200 := by
  refine ⟨rfl, rfl, ?_, rfl, rfl⟩
  rintro ⟨indicator, h⟩
  have hw : (streamRoute envBroken showEvent (some "key") ["gemini-2.0-flash"] helloArgs
      0).1.written = ["text Hi\n"] := rfl
  rw [hw] at h
  simp at h

/-- C10, what the handler does: when the session fails after at least one
event line has been written, the response of the `/api/gemini/stream`
handler consists of the already-written event lines, unchanged and in order,
and nothing else:
the handler only ends the response, with status 200 and no error body, so
the response is the one a session that succeeds after the same events gets. -/
theorem C10_failure_after_output {σ : Type} (env : Env σ) (stringify : StreamEvent → String)
    (apiKey : Option String) (modelsToTry : List String) (args : Args) (s s1 : σ)
    (evs : List StreamEvent) (err : Err) (a1 : List Act)
    (hmsg : truthyStr args.newMessage = true)
    (hrun : streamChatInternal env apiKey modelsToTry args s = (evs, .error err, s1, a1))
    (hev : evs ≠ []) :
    (streamRoute env stringify apiKey modelsToTry args s).1 =
      { statusCode := 200,
        headers := [("Content-Type", "application/x-ndjson"), ("Cache-Control", "no-cache"),
                    ("Connection", "keep-alive")],
        headersSent := true,
        written := evs.map (fun ev => stringify ev ++ "\n"),
        jsonBody := none,
        ended := true } ∧
    (∀ (env' : Env σ) (apiKey' : Option String) (models' : List String) (t t1 : σ)
        (a' : List Act),
      streamChatInternal env' apiKey' models' args t = (evs, .ok (), t1, a') →
      (streamRoute env' stringify apiKey' models' args t).1 =
        (streamRoute env stringify apiKey modelsToTry args s).1) := by
  have hne : evs.isEmpty = false := by
    cases evs with
    | nil => exact absurd rfl hev
    | cons e r => rfl
  have hfail : (streamRoute env stringify apiKey modelsToTry args s).1 =
      { statusCode := 200,
        headers := [("Content-Type", "application/x-ndjson"), ("Cache-Control", "no-cache"),
                    ("Connection", "keep-alive")],
        headersSent := true,
        written := evs.map (fun ev => stringify ev ++ "\n"),
        jsonBody := none,
        ended := true } := by
    unfold streamRoute
    simp only [hmsg, Bool.not_true, Bool.false_eq_true, ↓reduceIte]
    rw [hrun]
    simp only [writeEvents_spec, hne, Bool.not_false, Bool.or_true, Bool.not_true,
      Bool.false_eq_true, ↓reduceIte, Res.end, List.nil_append]
  refine ⟨hfail, ?_⟩
  intro env' apiKey' models' t t1 a' hok
  rw [hfail]
  unfold streamRoute
  simp only [hmsg, Bool.not_true, Bool.false_eq_true, ↓reduceIte]
  rw [hok]
  simp only [writeEvents_spec, hne, Bool.not_false, Bool.or_true, Res.end, List.nil_append]

/-- C10 on the stream that delivers "Hi" and then breaks. -/
theorem C10_failure_after_output_witness :
    (streamRoute envBroken showEvent (some "key") ["gemini-2.0-flash"] helloArgs 0).1 =
      { statusCode := 200,
        headers := [("Content-Type", "application/x-ndjson"), ("Cache-Control", "no-cache"),
                    ("Connection", "keep-alive")],
        headersSent := true,
        written := ["text Hi\n"],
        jsonBody := none,
        ended := true } :=
  (C10_failure_after_output envBroken showEvent (some "key") ["gemini-2.0-flash"] helloArgs 0 1
    [StreamEvent.text "Hi"] ⟨"socket hang up"⟩
    [Act.startChat (chatFor helloArgs (streamTools helloArgs) "gemini-2.0-flash"),
     Act.sendStream (chatFor helloArgs (streamTools helloArgs) "gemini-2.0-flash")
      (outboundParts helloArgs.newMessage helloArgs.imageParts)]
    rfl rfl (by simp)).1

/-- The `catch` of the download handler, once lines have been written, keeps
them and appends one error line before it ends the response. -/
theorem downloadCatch_appends_indicator (stringifyError : String → String) (err : Err)
    (res : Res) (hsent : res.headersSent = true) :
    (downloadCatch stringifyError err res).written =
      res.written ++ [stringifyError err.message ++ "\n"] ∧
    EndsWithOneErrorIndicator res.written (downloadCatch stringifyError err res) ∧
    (downloadCatch stringifyError err res).ended = true := by
  have h : (downloadCatch stringifyError err res).written =
      res.written ++ [stringifyError err.message ++ "\n"] := by
    simp [downloadCatch, hsent, Res.write, Res.end]
  exact ⟨h, ⟨_, h⟩, by simp [downloadCatch, hsent, Res.write, Res.end]⟩

/-! ### C11 to C14: the retry policy -/

theorem nthOutcome_eq {σ α : Type} (fn : Run σ α) :
    ∀ (i : Nat) (s : σ), nthOutcome fn i s = (fn (afterInvocations fn i s)).1 := by
  intro i
  induction i with
  | zero => intro s; rfl
  | succ i ih => intro s; simp only [nthOutcome, afterInvocations]; exact ih _

theorem afterInvocations_succ {σ α : Type} (fn : Run σ α) :
    ∀ (i : Nat) (s : σ),
      afterInvocations fn (i + 1) s = (fn (afterInvocations fn i s)).2.1 := by
  intro i
  induction i with
  | zero => intro s; rfl
  | succ i ih =>
    intro s
    have h := ih (fn s).2.1
    simp only [afterInvocations] at h ⊢
    exact h

theorem nthOutcome_counted {σ α : Type} (fn : Run σ α) :
    ∀ (i : Nat) (s : σ) (c : Nat), nthOutcome (counted fn) i (s, c) = nthOutcome fn i s := by
  intro i
  induction i with
  | zero => intro s c; simp [nthOutcome, counted]
  | succ i ih =>
    intro s c
    simp only [nthOutcome]
    have h : (counted fn (s, c)).2.1 = ((fn s).2.1, c + 1) := by simp [counted]
    rw [h]
    exact ih _ _

theorem afterInvocations_counted {σ α : Type} (fn : Run σ α) :
    ∀ (i : Nat) (s : σ) (c : Nat),
      afterInvocations (counted fn) i (s, c) = (afterInvocations fn i s, c + i) := by
  intro i
  induction i with
  | zero => intro s c; rfl
  | succ i ih =>
    intro s c
    simp only [afterInvocations]
    have h : (counted fn (s, c)).2.1 = ((fn s).2.1, c + 1) := by simp [counted]
    rw [h, ih]
    congr 1
    omega

theorem withRetryLoop_lastError {σ α : Type} (fn : Run σ α) (n attempt : Nat)
    (le le' : Option Err) (s : σ) :
    withRetryLoop fn (n + 1) attempt le s = withRetryLoop fn (n + 1) attempt le' s := by
  unfold withRetryLoop
  rfl

theorem withRetryLoop_retry_step {σ α : Type} (fn : Run σ α) (n attempt : Nat)
    (le : Option Err) (s s1 : σ) (e : Err) (a1 : List Act)
    (hfs : fn s = (.error e, s1, a1)) (hlt : attempt < MAX_RETRIES)
    (hrl : isRateLimitError e = true) :
    withRetryLoop fn (n + 1) attempt le s =
      ((withRetryLoop fn n (attempt + 1) (some e) s1).1,
       (withRetryLoop fn n (attempt + 1) (some e) s1).2.1,
       a1 ++ Act.delay (INITIAL_DELAY_MS * 2 ^ attempt)
        :: (withRetryLoop fn n (attempt + 1) (some e) s1).2.2) := by
  conv_lhs => unfold withRetryLoop
  rw [hfs]
  simp only [hlt, hrl, decide_True, Bool.and_self, ↓reduceIte]

theorem withRetryLoop_ok_step {σ α : Type} (fn : Run σ α) (n attempt : Nat)
    (le : Option Err) (s s1 : σ) (v : α) (a1 : List Act)
    (hfs : fn s = (.ok v, s1, a1)) :
    withRetryLoop fn (n + 1) attempt le s = (.ok v, s1, a1) := by
  conv_lhs => unfold withRetryLoop
  rw [hfs]

theorem withRetryLoop_throw_step {σ α : Type} (fn : Run σ α) (n attempt : Nat)
    (le : Option Err) (s s1 : σ) (e : Err) (a1 : List Act)
    (hfs : fn s = (.error e, s1, a1))
    (hstop : (decide (attempt < MAX_RETRIES) && isRateLimitError e) = false) :
    withRetryLoop fn (n + 1) attempt le s = (.error e, s1, a1) := by
  conv_lhs => unfold withRetryLoop
  rw [hfs]
  simp only [hstop, Bool.false_eq_true, ↓reduceIte]

theorem withRetryLoop_unroll {σ α : Type} (fn : Run σ α) (n : Nat) :
    ∀ (k attempt : Nat) (le : Option Err) (s : σ),
      (∀ i, i < k → ∃ e, nthOutcome fn i s = .error e ∧ isRateLimitError e = true) →
      attempt + k ≤ MAX_RETRIES →
      withRetryLoop fn (n + 1 + k) attempt le s =
        ((withRetryLoop fn (n + 1) (attempt + k) none (afterInvocations fn k s)).1,
         (withRetryLoop fn (n + 1) (attempt + k) none (afterInvocations fn k s)).2.1,
         retriedActs fn k attempt s ++
          (withRetryLoop fn (n + 1) (attempt + k) none (afterInvocations fn k s)).2.2) := by
  intro k
  induction k with
  | zero =>
    intro attempt le s _ _
    simp only [Nat.add_zero, afterInvocations, retriedActs, List.nil_append]
    exact withRetryLoop_lastError fn n attempt le none s
  | succ k ih =>
    intro attempt le s hfail hle
    obtain ⟨e, he, hrl⟩ := hfail 0 (Nat.succ_pos k)
    have hlt : attempt < MAX_RETRIES := by omega
    have hrest : ∀ i, i < k →
        ∃ e, nthOutcome fn i (fn s).2.1 = .error e ∧ isRateLimitError e = true := by
      intro i hi
      exact hfail (i + 1) (Nat.succ_lt_succ hi)
    have ih1 := ih (attempt + 1) (some e) (fn s).2.1 hrest (by omega)
    have hadd : attempt + 1 + k = attempt + (k + 1) := by omega
    rw [hadd] at ih1
    simp only [nthOutcome] at he
    rcases hfs : fn s with ⟨r, s1, a1⟩
    rw [hfs] at he ih1
    simp only at he ih1
    subst he
    show withRetryLoop fn ((n + 1 + k) + 1) attempt le s = _
    rw [withRetryLoop_retry_step fn (n + 1 + k) attempt le s s1 e a1 hfs hlt hrl, ih1]
    simp only [afterInvocations, retriedActs, hfs, List.append_assoc, List.cons_append]

theorem withRetry_success {σ α : Type} (fn : Run σ α) (k : Nat) (s : σ) (v : α)
    (hk : k ≤ MAX_RETRIES)
    (hfail : ∀ i, i < k → ∃ e, nthOutcome fn i s = .error e ∧ isRateLimitError e = true)
    (hok : nthOutcome fn k s = .ok v) :
    withRetry fn s =
      (.ok v, afterInvocations fn (k + 1) s,
        retriedActs fn k 0 s ++ (fn (afterInvocations fn k s)).2.2) := by
  unfold withRetry
  have hsplit : MAX_RETRIES + 1 = (MAX_RETRIES - k) + 1 + k := by omega
  rw [hsplit, withRetryLoop_unroll fn (MAX_RETRIES - k) k 0 none s hfail (by omega)]
  rw [nthOutcome_eq] at hok
  rw [afterInvocations_succ]
  rcases hfs : fn (afterInvocations fn k s) with ⟨r, s1, a1⟩
  rw [hfs] at hok
  simp only at hok
  subst hok
  rw [withRetryLoop_ok_step fn (MAX_RETRIES - k) (0 + k) none _ s1 v a1 hfs]

theorem withRetry_exhausted {σ α : Type} (fn : Run σ α) (s : σ) (e : Err)
    (hfail : ∀ i, i < MAX_RETRIES →
      ∃ e, nthOutcome fn i s = .error e ∧ isRateLimitError e = true)
    (hlast : nthOutcome fn MAX_RETRIES s = .error e) :
    withRetry fn s =
      (.error e, afterInvocations fn (MAX_RETRIES + 1) s,
        retriedActs fn MAX_RETRIES 0 s ++ (fn (afterInvocations fn MAX_RETRIES s)).2.2) := by
  unfold withRetry
  have hsplit : MAX_RETRIES + 1 = 0 + 1 + MAX_RETRIES := by omega
  rw [hsplit, withRetryLoop_unroll fn 0 MAX_RETRIES 0 none s hfail (by omega)]
  rw [nthOutcome_eq] at hlast
  rw [← hsplit, afterInvocations_succ]
  rcases hfs : fn (afterInvocations fn MAX_RETRIES s) with ⟨r, s1, a1⟩
  rw [hfs] at hlast
  simp only at hlast
  subst hlast
  rw [withRetryLoop_throw_step fn 0 (0 + MAX_RETRIES) none _ s1 e a1 hfs (by simp)]

/-- C11: an operation that fails with rate-limit errors on its first `N - 1`
invocations and succeeds on invocation `N`, for `1 ≤ N ≤ MAX_RETRIES + 1`
(so for every `N ≤ 3`), is invoked by `withRetry` exactly `N` times, and
`withRetry` returns the value of the successful invocation. -/
theorem C11_retry_until_success {σ α : Type} (fn : Run σ α) (N : Nat) (s : σ) (v : α)
    (hN1 : 1 ≤ N) (hN : N ≤ MAX_RETRIES + 1)
    (hfail : ∀ i, i + 1 < N →
      ∃ e, nthOutcome fn i s = .error e ∧ isRateLimitError e = true)
    (hok : nthOutcome fn (N - 1) s = .ok v) :
    (withRetry fn s).1 = .ok v ∧
    (withRetry fn s).2.1 = afterInvocations fn N s ∧
    (withRetry (counted fn) (s, 0)).1 = .ok v ∧
    (withRetry (counted fn) (s, 0)).2.1.2 = N := by
  have hk : N - 1 ≤ MAX_RETRIES := by omega
  have hN' : N - 1 + 1 = N := by omega
  have h1 := withRetry_success fn (N - 1) s v hk (fun i hi => hfail i (by omega)) hok
  have h2 := withRetry_success (counted fn) (N - 1) (s, 0) v hk
    (fun i hi => by rw [nthOutcome_counted]; exact hfail i (by omega))
    (by rw [nthOutcome_counted]; exact hok)
  rw [hN'] at h1 h2
  rw [h1, h2, afterInvocations_counted]
  simp

/-- C11 on an operation that is rate-limited twice and succeeds on its third
invocation. -/
theorem C11_retry_until_success_witness :
    (withRetry (limitedFor 2) 0).1 = .ok 2 ∧
    (withRetry (counted (limitedFor 2)) (0, 0)).2.1.2 = 3 :=
  have h := C11_retry_until_success (limitedFor 2) 3 0 2 (by decide) (by decide)
    (by
      intro i hi
      have hi' : i = 0 ∨ i = 1 := by omega
      rcases hi' with rfl | rfl
      · exact ⟨⟨"429 Too Many Requests"⟩, rfl, by decide⟩
      · exact ⟨⟨"429 Too Many Requests"⟩, rfl, by decide⟩)
    rfl
  ⟨h.1, h.2.2.2⟩

/-- C12: an operation that fails with a rate-limit error on every invocation
is invoked by `withRetry` exactly `MAX_RETRIES + 1 = 4` times, and `withRetry`
then fails with the error of the last (fourth) invocation, unchanged. -/
theorem C12_retry_exhausted {σ α : Type} (fn : Run σ α) (s : σ) (e : Err)
    (hfail : ∀ i, i < MAX_RETRIES + 1 →
      ∃ e, nthOutcome fn i s = .error e ∧ isRateLimitError e = true)
    (hlast : nthOutcome fn MAX_RETRIES s = .error e) :
    (withRetry fn s).1 = .error e ∧
    (withRetry fn s).2.1 = afterInvocations fn 4 s ∧
    (withRetry (counted fn) (s, 0)).1 = .error e ∧
    (withRetry (counted fn) (s, 0)).2.1.2 = 4 ∧
    MAX_RETRIES + 1 = 4 := by
  have h1 := withRetry_exhausted fn s e (fun i hi => hfail i (by omega)) hlast
  have h2 := withRetry_exhausted (counted fn) (s, 0) e
    (fun i hi => by rw [nthOutcome_counted]; exact hfail i (by omega))
    (by rw [nthOutcome_counted]; exact hlast)
  rw [h1, h2, afterInvocations_counted]
  exact ⟨rfl, rfl, rfl, by simp [MAX_RETRIES], rfl⟩

/-- C12 on an operation that always fails with a 429: four invocations, and
the error of the fourth. -/
theorem C12_retry_exhausted_witness :
    (withRetry (failing "429") 0).1 = .error ⟨"429 #3"⟩ ∧
    (withRetry (counted (failing "429")) (0, 0)).2.1.2 = 4 :=
  have h := C12_retry_exhausted (failing "429") 0 ⟨"429 #3"⟩
    (by
      intro i hi
      have hi' : i = 0 ∨ i = 1 ∨ i = 2 ∨ i = 3 := by
        simp only [MAX_RETRIES] at hi
        omega
      rcases hi' with rfl | rfl | rfl | rfl
      · exact ⟨⟨"429 #0"⟩, rfl, by decide⟩
      · exact ⟨⟨"429 #1"⟩, rfl, by decide⟩
      · exact ⟨⟨"429 #2"⟩, rfl, by decide⟩
      · exact ⟨⟨"429 #3"⟩, rfl, by decide⟩)
    rfl
  ⟨h.1, h.2.2.2.1⟩

/-- C13: when the first invocation of the operation fails with an error that
is not a rate-limit error, `withRetry` invokes the operation exactly once,
waits for no delay (its actions are those of that one invocation) and fails
with that same error. -/
theorem C13_terminal_error_at_once {σ α : Type} (fn : Run σ α) (s s1 : σ) (e : Err)
    (a1 : List Act)
    (hfirst : fn s = (.error e, s1, a1))
    (hterminal : includes e.message "429" = false ∧
      includes e.message "Resource exhausted" = false) :
    withRetry fn s = (.error e, s1, a1) ∧
    delaysOf (withRetry fn s).2.2 = delaysOf a1 ∧
    (withRetry (counted fn) (s, 0)).1 = .error e ∧
    (withRetry (counted fn) (s, 0)).2.1.2 = 1 := by
  have hrl : isRateLimitError e = false := by
    simp [isRateLimitError, hterminal.1, hterminal.2]
  have h1 : withRetry fn s = (.error e, s1, a1) :=
    withRetryLoop_throw_step fn MAX_RETRIES 0 none s s1 e a1 hfirst (by simp [hrl])
  have hc : counted fn (s, 0) = (.error e, (s1, 1), a1) := by simp [counted, hfirst]
  have h2 : withRetry (counted fn) (s, 0) = (.error e, (s1, 1), a1) :=
    withRetryLoop_throw_step (counted fn) MAX_RETRIES 0 none (s, 0) (s1, 1) e a1 hc
      (by simp [hrl])
  rw [h1, h2]
  exact ⟨rfl, rfl, rfl, rfl⟩

/-- C13 on an operation that fails with "boom". -/
theorem C13_terminal_error_at_once_witness :
    withRetry (failing "boom") 0 = (.error ⟨"boom #0"⟩, 1, []) ∧
    (withRetry (counted (failing "boom")) (0, 0)).2.1.2 = 1 :=
  have h := C13_terminal_error_at_once (failing "boom") 0 1 ⟨"boom #0"⟩ [] rfl
    ⟨by decide, by decide⟩
  ⟨h.1, h.2.2.2⟩

theorem delaysOf_append (a b : List Act) : delaysOf (a ++ b) = delaysOf a ++ delaysOf b := by
  simp [delaysOf, List.filterMap_append]

theorem delaysOf_retriedActs {σ α : Type} (fn : Run σ α)
    (hquiet : ∀ t, delaysOf (fn t).2.2 = []) :
    ∀ (k attempt : Nat) (s : σ),
      delaysOf (retriedActs fn k attempt s) =
        (List.range k).map (fun i => INITIAL_DELAY_MS * 2 ^ (attempt + i)) := by
  intro k
  induction k with
  | zero => intro attempt s; rfl
  | succ k ih =>
    intro attempt s
    simp only [retriedActs]
    rw [delaysOf_append, hquiet]
    have hc : delaysOf (Act.delay (INITIAL_DELAY_MS * 2 ^ attempt)
        :: retriedActs fn k (attempt + 1) (fn s).2.1)
        = (INITIAL_DELAY_MS * 2 ^ attempt) :: delaysOf (retriedActs fn k (attempt + 1) (fn s).2.1) := by
      simp [delaysOf]
    rw [hc, ih, List.range_succ_eq_map]
    simp only [List.nil_append, List.map_cons, Nat.add_zero, List.map_map, List.cons.injEq,
      true_and]
    apply List.map_congr_left
    intro i _
    simp only [Function.comp, Nat.succ_eq_add_one]
    congr 2
    omega

/-- C14: when the operation itself waits for nothing, the delay `withRetry`
waits after invocation `a` (for `a < 3`) has failed with a rate-limit error,
all earlier ones having failed so too, is `INITIAL_DELAY_MS * 2^a = 2000 *
2^a` ms; an operation that fails with a rate-limit error on every invocation
makes it wait 2000, 4000 and 8000 ms, 14000 ms in total, and its last
actions are those of the fourth invocation: no delay follows it. -/
theorem C14_backoff_delays {σ α : Type} (fn : Run σ α) (s : σ)
    (hquiet : ∀ t, delaysOf (fn t).2.2 = []) :
    (∀ a, a < 3 →
      (∀ i, i ≤ a → ∃ e, nthOutcome fn i s = .error e ∧ isRateLimitError e = true) →
      (delaysOf (withRetry fn s).2.2)[a]? = some (INITIAL_DELAY_MS * 2 ^ a) ∧
      INITIAL_DELAY_MS * 2 ^ a = 2000 * 2 ^ a) ∧
    ((∀ i, i < 4 → ∃ e, nthOutcome fn i s = .error e ∧ isRateLimitError e = true) →
      delaysOf (withRetry fn s).2.2 = [2000, 4000, 8000] ∧
      (delaysOf (withRetry fn s).2.2).sum = 14000 ∧
      ∃ before, (withRetry fn s).2.2 = before ++ (fn (afterInvocations fn 3 s)).2.2) := by
  constructor
  · intro a ha hfail
    refine ⟨?_, rfl⟩
    have hsplit : MAX_RETRIES + 1 = (MAX_RETRIES - (a + 1)) + 1 + (a + 1) := by
      simp only [MAX_RETRIES]; omega
    have hun := withRetryLoop_unroll fn (MAX_RETRIES - (a + 1)) (a + 1) 0 none s
      (fun i hi => hfail i (by omega)) (by simp only [MAX_RETRIES]; omega)
    unfold withRetry
    rw [hsplit, hun]
    simp only
    rw [delaysOf_append, delaysOf_retriedActs fn hquiet]
    rw [List.getElem?_append_left (by simp)]
    simp [List.getElem?_range]
  · intro hfail
    obtain ⟨e, he, _⟩ := hfail 3 (by omega)
    have h := withRetry_exhausted fn s e (fun i hi => hfail i (by simp only [MAX_RETRIES] at hi; omega)) he
    rw [h]
    simp only
    have hd : delaysOf (retriedActs fn MAX_RETRIES 0 s ++ (fn (afterInvocations fn MAX_RETRIES s)).2.2)
        = [2000, 4000, 8000] := by
      rw [delaysOf_append, delaysOf_retriedActs fn hquiet, hquiet]
      rfl
    rw [hd]
    exact ⟨rfl, rfl, retriedActs fn MAX_RETRIES 0 s, rfl⟩

/-- C14 on an operation that always fails with a 429. -/
theorem C14_backoff_delays_witness :
    delaysOf (withRetry (failing "429") 0).2.2 = [2000, 4000, 8000] ∧
    (delaysOf (withRetry (failing "429") 0).2.2).sum = 14000 :=
  have h := (C14_backoff_delays (failing "429") 0 (fun _ => rfl)).2
    (by
      intro i hi
      have hi' : i = 0 ∨ i = 1 ∨ i = 2 ∨ i = 3 := by omega
      rcases hi' with rfl | rfl | rfl | rfl
      · exact ⟨⟨"429 #0"⟩, rfl, by decide⟩
      · exact ⟨⟨"429 #1"⟩, rfl, by decide⟩
      · exact ⟨⟨"429 #2"⟩, rfl, by decide⟩
      · exact ⟨⟨"429 #3"⟩, rfl, by decide⟩)
  ⟨h.1, h.2.1⟩

/-! ### C15 to C19: model selection -/

theorem setValues_foldl (l : List String) :
    ∀ acc : List String, (acc ++ l).Nodup →
      l.foldl (fun acc x => if x ∈ acc then acc else acc ++ [x]) acc = acc ++ l := by
  induction l with
  | nil => intro acc _; simp
  | cons x rest ih =>
    intro acc h
    have hx : x ∉ acc := by
      intro hmem
      rw [List.nodup_append] at h
      exact h.2.2 hmem (List.mem_cons_self _ _)
    simp only [List.foldl_cons, hx, ↓reduceIte]
    have h' : (acc ++ [x] ++ rest).Nodup := by simpa using h
    rw [ih (acc ++ [x]) h']
    simp

theorem setValues_of_nodup (l : List String) (h : l.Nodup) : setValues l = l := by
  unfold setValues
  have := setValues_foldl l [] (by simpa using h)
  simpa using this

theorem keepTruthy_some (m : String) (hm : m ≠ "") : keepTruthy (some m) = some m := by
  have ht : truthyStr (some m) = true := by simp [truthyStr, hm]
  simp only [keepTruthy, ht, ↓reduceIte]

theorem keepTruthy_map_some (l : List String) (hne : ∀ m ∈ l, m ≠ "") :
    (l.map some).filterMap keepTruthy = l := by
  induction l with
  | nil => rfl
  | cons m rest ih =>
    have hm : m ≠ "" := hne m (List.mem_cons_self _ _)
    have hrest := ih (fun x hx => hne x (List.mem_cons_of_mem _ hx))
    rw [List.map_cons, List.filterMap_cons_some (keepTruthy_some m hm), hrest]

theorem fallbackList_cached (cache : ConfigCache) (id : String)
    (hc : cache.cachedModel = some id) (hid : id ≠ "") :
    getModelFallbackList cache = id :: FALLBACK_MODELS.filter (fun m => m != id) := by
  have hfilter : FALLBACK_MODELS.filter (fun m => decide (some m ≠ some id))
      = FALLBACK_MODELS.filter (fun m => m != id) := by
    apply List.filter_congr
    intro m _
    by_cases h : m = id <;> simp [h]
  have hne : ∀ m ∈ FALLBACK_MODELS.filter (fun m => m != id), m ≠ "" := by
    intro m hm
    have hmem : m ∈ FALLBACK_MODELS := List.mem_of_mem_filter hm
    have hall : ∀ x ∈ FALLBACK_MODELS, x ≠ "" := by decide
    exact hall m hmem
  have hnodup : (id :: FALLBACK_MODELS.filter (fun m => m != id)).Nodup := by
    rw [List.nodup_cons]
    constructor
    · intro hmem
      have := (List.mem_filter.1 hmem).2
      simp at this
    · exact List.Nodup.filter _ (by decide)
  unfold getModelFallbackList
  simp only
  rw [hc, List.filterMap_cons_some (keepTruthy_some id hid), hfilter,
    keepTruthy_map_some _ hne]
  exact setValues_of_nodup _ hnodup

theorem fallbackList_not_cached (cache : ConfigCache)
    (hc : truthyStr cache.cachedModel = false) :
    getModelFallbackList cache = FALLBACK_MODELS := by
  rcases cache with ⟨cm, cl⟩
  cases cm with
  | none => rfl
  | some id =>
    have hid : id = "" := by
      simp only [truthyStr, bne_eq_false_iff_eq] at hc
      exact hc
    subst hid
    rfl

/-- C15: for every state of the cache, `getModelFallbackList` returns a
non-empty list without duplicates; when a candidate is cached it is that
candidate followed by the entries of `FALLBACK_MODELS` other than it, in
their static order; when nothing is cached it is `FALLBACK_MODELS`. -/
theorem C15_fallback_list (cache : ConfigCache) :
    getModelFallbackList cache ≠ [] ∧
    (getModelFallbackList cache).Nodup ∧
    (∀ id, cache.cachedModel = some id → id ≠ "" →
      getModelFallbackList cache = id :: FALLBACK_MODELS.filter (fun m => m != id)) ∧
    (truthyStr cache.cachedModel = false → getModelFallbackList cache = FALLBACK_MODELS) := by
  have hcases : truthyStr cache.cachedModel = false ∨
      ∃ id, cache.cachedModel = some id ∧ id ≠ "" := by
    cases h : cache.cachedModel with
    | none => exact Or.inl rfl
    | some id =>
      by_cases hid : id = ""
      · left; simp [truthyStr, hid]
      · exact Or.inr ⟨id, rfl, hid⟩
  refine ⟨?_, ?_, fun id hc hid => fallbackList_cached cache id hc hid,
    fun hc => fallbackList_not_cached cache hc⟩
  · rcases hcases with h | ⟨id, hc, hid⟩
    · rw [fallbackList_not_cached cache h]; decide
    · rw [fallbackList_cached cache id hc hid]; simp
  · rcases hcases with h | ⟨id, hc, hid⟩
    · rw [fallbackList_not_cached cache h]; decide
    · rw [fallbackList_cached cache id hc hid, List.nodup_cons]
      constructor
      · intro hmem
        have := (List.mem_filter.1 hmem).2
        simp at this
      · exact List.Nodup.filter _ (by decide)

/-- C15 with `gemini-1.5-pro` cached, and with nothing cached. -/
theorem C15_fallback_list_witness :
    getModelFallbackList { cachedModel := some "gemini-1.5-pro" } =
      ["gemini-1.5-pro", "gemini-2.0-flash", "gemini-1.5-flash", "gemini-1.5-flash-8b",
       "gemini-pro"] ∧
    getModelFallbackList {} = FALLBACK_MODELS :=
  ⟨(C15_fallback_list { cachedModel := some "gemini-1.5-pro" }).2.2.1 "gemini-1.5-pro" rfl
      (by decide),
   (C15_fallback_list {}).2.2.2 rfl⟩

theorem truthyStr_some (o : Option String) (h : truthyStr o = true) :
    ∃ id, o = some id ∧ id ≠ "" := by
  cases o with
  | none => simp [truthyStr] at h
  | some id =>
    refine ⟨id, rfl, ?_⟩
    simpa [truthyStr] using h

theorem getGeminiModelName_cached {σ : Type} (http : Discovery σ) (apiKey : Option String)
    (cache : ConfigCache) (s : σ) (hc : truthyStr cache.cachedModel = true) :
    getGeminiModelName http apiKey cache s = (.ok cache.cachedModel, cache, s, []) := by
  unfold getGeminiModelName
  simp only [hc, ↓reduceIte]

theorem getGeminiModelName_no_key {σ : Type} (http : Discovery σ) (apiKey : Option String)
    (cache : ConfigCache) (s : σ) (hc : truthyStr cache.cachedModel = false)
    (hk : truthyStr apiKey = false) :
    getGeminiModelName http apiKey cache s =
      (.error ⟨"GEMINI_API_KEY not configured"⟩, cache, s, []) := by
  unfold getGeminiModelName
  simp only [hc, hk, Bool.false_eq_true, ↓reduceIte, Bool.not_false]

theorem getGeminiModelName_discovers {σ : Type} (http : Discovery σ) (apiKey : Option String)
    (cache : ConfigCache) (s : σ) (hc : truthyStr cache.cachedModel = false)
    (hk : truthyStr apiKey = true) :
    ∃ id, id ≠ "" ∧ (getGeminiModelName http apiKey cache s).1 = .ok (some id) ∧
      (getGeminiModelName http apiKey cache s).2.1.cachedModel = some id := by
  unfold getGeminiModelName
  simp only [hc, hk, Bool.false_eq_true, ↓reduceIte, Bool.not_true]
  rcases hf : fetchAvailableModels http (apiKey.getD "") s with ⟨r, s1, a1⟩
  cases r with
  | error e => exact ⟨"gemini-2.0-flash", by decide, rfl, rfl⟩
  | ok models =>
    simp only
    by_cases hsel : truthyStr (pickBestModel models) = true
    · obtain ⟨id, hid, hne⟩ := truthyStr_some _ hsel
      simp only [hsel, ↓reduceIte]
      exact ⟨id, hne, by rw [hid], by rw [hid]⟩
    · simp only [hsel, Bool.false_eq_true, ↓reduceIte]
      exact ⟨"gemini-2.0-flash", by decide, rfl, rfl⟩

/-- C16, as stated, fails: with an empty cache and no API key in the process
configuration `getGeminiModelName` throws and returns no identifier. -/
theorem C16_counterexample :
    (getGeminiModelName unreachableDiscovery none {} 0).1
      = .error ⟨"GEMINI_API_KEY not configured"⟩ ∧
    ¬ ∃ id, (getGeminiModelName unreachableDiscovery none {} 0).1 = .ok (some id) := by
  refine ⟨rfl, ?_⟩
  rintro ⟨id, h⟩
  have h0 : (getGeminiModelName unreachableDiscovery none {} 0).1
      = .error ⟨"GEMINI_API_KEY not configured"⟩ := rfl
  rw [h0] at h
  cases h

/-- C16, amended: for every state of the cache and every outcome of the
discovery call, `getGeminiModelName` returns a non-null, non-empty model
identifier whenever a candidate is cached or an API key is configured; with
an empty cache and no API key it throws `GEMINI_API_KEY not configured`. -/
theorem C16_model_name_unless_no_key {σ : Type} (http : Discovery σ)
    (apiKey : Option String) (cache : ConfigCache) (s : σ) :
    (truthyStr cache.cachedModel = true ∨ truthyStr apiKey = true →
      ∃ id, id ≠ "" ∧ (getGeminiModelName http apiKey cache s).1 = .ok (some id)) ∧
    (truthyStr cache.cachedModel = false → truthyStr apiKey = false →
      (getGeminiModelName http apiKey cache s).1 = .error ⟨"GEMINI_API_KEY not configured"⟩) := by
  constructor
  · intro h
    by_cases hc : truthyStr cache.cachedModel = true
    · obtain ⟨id, hid, hne⟩ := truthyStr_some _ hc
      exact ⟨id, hne, by rw [getGeminiModelName_cached http apiKey cache s hc, hid]⟩
    · have hc' : truthyStr cache.cachedModel = false := by simpa using hc
      have hk : truthyStr apiKey = true := by
        rcases h with h | h
        · exact absurd h hc
        · exact h
      obtain ⟨id, hne, hres, _⟩ := getGeminiModelName_discovers http apiKey cache s hc' hk
      exact ⟨id, hne, hres⟩
  · intro hc hk
    rw [getGeminiModelName_no_key http apiKey cache s hc hk]

/-- C16, amended, with an API key and an unreachable discovery endpoint. -/
theorem C16_model_name_unless_no_key_witness :
    ∃ id, id ≠ "" ∧
      (getGeminiModelName unreachableDiscovery (some "key") {} 0).1 = .ok (some id) :=
  (C16_model_name_unless_no_key unreachableDiscovery (some "key") {} 0).1 (Or.inr rfl)

/-- C17: with an empty cache and an API key configured, whenever the
discovery call raises an error or returns a model list from which
`pickBestModel` selects nothing, `getGeminiModelName` returns the first
entry of `FALLBACK_MODELS`, `gemini-2.0-flash`, and leaves it cached. -/
theorem C17_falls_back_to_first_static {σ : Type} (http : Discovery σ) (apiKey : String)
    (cache : ConfigCache) (s : σ)
    (hcache : truthyStr cache.cachedModel = false) (hkey : apiKey ≠ "")
    (hdiscovery : (∃ e, (fetchAvailableModels http apiKey s).1 = .error e) ∨
      (∃ models, (fetchAvailableModels http apiKey s).1 = .ok models ∧
        pickBestModel models = none)) :
    (getGeminiModelName http (some apiKey) cache s).1 = .ok (some "gemini-2.0-flash") ∧
    (getGeminiModelName http (some apiKey) cache s).2.1.cachedModel = some "gemini-2.0-flash" ∧
    FALLBACK_MODELS.head? = some "gemini-2.0-flash" := by
  have hk : truthyStr (some apiKey) = true := by simp [truthyStr, hkey]
  unfold getGeminiModelName
  simp only [hcache, hk, Bool.false_eq_true, ↓reduceIte, Bool.not_true, Option.getD_some]
  rcases hf : fetchAvailableModels http apiKey s with ⟨r, s1, a1⟩
  rw [hf] at hdiscovery
  simp only at hdiscovery
  cases r with
  | error e => exact ⟨rfl, rfl, rfl⟩
  | ok models =>
    rcases hdiscovery with ⟨e, he⟩ | ⟨models', hm, hpick⟩
    · cases he
    · cases hm
      simp only [hpick, truthyStr, Bool.false_eq_true, ↓reduceIte]
      exact ⟨rfl, rfl, rfl⟩

/-- C17 with an unreachable discovery endpoint, and with one that lists no
recognised model. -/
theorem C17_falls_back_to_first_static_witness :
    (getGeminiModelName unreachableDiscovery (some "key") {} 0).1
      = .ok (some "gemini-2.0-flash") ∧
    (getGeminiModelName (listing ["models/text-bison"]) (some "key") {} 0).2.1.cachedModel
      = some "gemini-2.0-flash" :=
  ⟨(C17_falls_back_to_first_static unreachableDiscovery "key" {} 0 rfl (by decide)
      (Or.inl ⟨⟨"fetch failed"⟩, rfl⟩)).1,
   (C17_falls_back_to_first_static (listing ["models/text-bison"]) "key" {} 0 rfl (by decide)
      (Or.inr ⟨[⟨some "models/text-bison"⟩], rfl, by decide⟩)).2.1⟩

/-- C18 on the code: the candidate `gemini-2.0-flash` is selected and cached,
`invalidateModelCache()` clears it, and the next `getGeminiModelName()`
returns `gemini-2.0-flash` again, although the roster has five candidates;
the same happens with a discovery endpoint that keeps listing the same
models. -/
theorem C18_same_candidate_after_invalidate :
    (getGeminiModelName unreachableDiscovery (some "key") {} 0).1
      = .ok (some "gemini-2.0-flash") ∧
    (getGeminiModelName unreachableDiscovery (some "key")
      (invalidateModelCache (getGeminiModelName unreachableDiscovery (some "key") {} 0).2.1)
      (getGeminiModelName unreachableDiscovery (some "key") {} 0).2.2.1).1
      = .ok (some "gemini-2.0-flash") ∧
    (getModelFallbackList (getGeminiModelName unreachableDiscovery (some "key") {} 0).2.1).length
      = 5 ∧
    (getGeminiModelName (listing ["models/gemini-1.5-pro", "models/gemini-1.5-flash"])
      (some "key") (invalidateModelCache { cachedModel := some "gemini-1.5-flash" }) 0).1
      = .ok (some "gemini-1.5-flash") :=
  ⟨rfl, rfl, by decide, rfl⟩

/-- C19: whenever the cache holds a non-empty candidate `id`, whether an
earlier `getGeminiModelName` stored it (a successful call always leaves its
non-empty result cached) or `setModelToTry(id)` set it, `getGeminiModelName`
returns `id` for every `apiKey` (also none) and every discovery endpoint,
without any action (no discovery call) and leaving world and cache unchanged,
so that a repeated call returns `id` again; and `getModelFallbackList` starts
with `id`. -/
theorem C19_cached_candidate_is_returned {σ : Type} (http : Discovery σ)
    (apiKey : Option String) (cache : ConfigCache) (s : σ) (id : String)
    (hcached : cache.cachedModel = some id) (hid : id ≠ "") :
    getGeminiModelName http apiKey cache s = (.ok (some id), cache, s, []) ∧
    getGeminiModelName http apiKey (getGeminiModelName http apiKey cache s).2.1
        (getGeminiModelName http apiKey cache s).2.2.1 = (.ok (some id), cache, s, []) ∧
    (getModelFallbackList cache).head? = some id ∧
    (∀ cache0 : ConfigCache, (setModelToTry id cache0).cachedModel = some id) ∧
    (∀ (apiKey0 : Option String) (cache0 : ConfigCache) (s0 : σ) (id0 : String),
      (getGeminiModelName http apiKey0 cache0 s0).1 = .ok (some id0) →
      (getGeminiModelName http apiKey0 cache0 s0).2.1.cachedModel = some id0 ∧ id0 ≠ "") := by
  have ht : truthyStr cache.cachedModel = true := by simp [hcached, truthyStr, hid]
  have h1 : getGeminiModelName http apiKey cache s = (.ok (some id), cache, s, []) := by
    rw [getGeminiModelName_cached http apiKey cache s ht, hcached]
  refine ⟨h1, ?_, ?_, fun _ => rfl, ?_⟩
  · rw [h1]
    exact h1
  · rw [fallbackList_cached cache id hcached hid]
    rfl
  · intro apiKey0 cache0 s0 id0 hres
    by_cases hc : truthyStr cache0.cachedModel = true
    · rw [getGeminiModelName_cached http apiKey0 cache0 s0 hc] at hres ⊢
      simp only [Except.ok.injEq] at hres
      obtain ⟨id', hid', hne⟩ := truthyStr_some _ hc
      rw [hid'] at hres
      cases hres
      exact ⟨hid', hne⟩
    · have hc' : truthyStr cache0.cachedModel = false := by simpa using hc
      by_cases hk : truthyStr apiKey0 = true
      · obtain ⟨id', hne, hres', hcache'⟩ :=
          getGeminiModelName_discovers http apiKey0 cache0 s0 hc' hk
        rw [hres'] at hres
        cases hres
        exact ⟨hcache', hne⟩
      · have hk' : truthyStr apiKey0 = false := by simpa using hk
        rw [getGeminiModelName_no_key http apiKey0 cache0 s0 hc' hk'] at hres
        cases hres

/-- C19 after `setModelToTry("gemini-1.5-pro")`, without an API key. -/
theorem C19_cached_candidate_is_returned_witness :
    getGeminiModelName unreachableDiscovery none (setModelToTry "gemini-1.5-pro" {}) 0 =
      (.ok (some "gemini-1.5-pro"), setModelToTry "gemini-1.5-pro" {}, 0, []) ∧
    (getModelFallbackList (setModelToTry "gemini-1.5-pro" {})).head? = some "gemini-1.5-pro" :=
  have h := C19_cached_candidate_is_returned unreachableDiscovery none
    (setModelToTry "gemini-1.5-pro" {}) 0 "gemini-1.5-pro" rfl (by decide)
  ⟨h.1, h.2.2.1⟩

theorem modelNames_ne_empty (models : List ModelDesc) : ∀ n ∈ modelNames models, n ≠ "" := by
  intro n hn
  unfold modelNames at hn
  have := (List.mem_filter.1 hn).2
  simpa using this

theorem find_first_with (names : List String) (p : String → Bool)
    (hne : ∀ n ∈ names, n ≠ "") (hex : ∃ n ∈ names, p n = true) :
    ∃ n, names.find? p = some n ∧ FirstWith p names n ∧ truthyStr (some n) = true := by
  cases hf : names.find? p with
  | none =>
    rw [List.find?_eq_none] at hf
    obtain ⟨n, hn, hp⟩ := hex
    exact absurd hp (hf n hn)
  | some n =>
    have hmem := List.mem_of_find?_eq_some hf
    obtain ⟨hp, before, after, hsplit, hbefore⟩ := List.find?_eq_some.1 hf
    refine ⟨n, rfl, ⟨before, after, hsplit, hp, ?_⟩, by simp [truthyStr, hne n hmem]⟩
    intro x hx
    simpa using hbefore x hx

theorem find_none_of_all_false (names : List String) (p : String → Bool)
    (h : ∀ n ∈ names, p n = false) : names.find? p = none := by
  rw [List.find?_eq_none]
  intro x hx
  simp [h x hx]

/-! ### C25: the handlers reject a request without a message -/

/-- C25: when the `message` of the request is missing or empty, the handler
of `/api/gemini/stream` and the handler of `/api/gemini/chat` answer with
status 400 and the body `error: "message required"`, and they perform no
action and leave the world as it is: neither session is entered and no
backend call is made, whatever the backend would do. -/
theorem C25_message_required {σ : Type} (env : Env σ) (stringify : StreamEvent → String)
    (apiKey : Option String) (modelsToTry : List String) (args : Args) (s : σ)
    (hmissing : truthyStr args.newMessage = false) :
    streamRoute env stringify apiKey modelsToTry args s =
      ({ statusCode := 400, headersSent := true,
         jsonBody := some (JVal.obj [("error", JVal.str "message required")]),
         ended := true }, s, []) ∧
    chatRoute env apiKey modelsToTry args s =
      ({ statusCode := 400, headersSent := true,
         jsonBody := some (JVal.obj [("error", JVal.str "message required")]),
         ended := true }, s, []) := by
  constructor
  · simp only [streamRoute, hmissing, Bool.not_false, ↓reduceIte, Res.sendJson]
  · simp only [chatRoute, hmissing, Bool.not_false, ↓reduceIte, Res.sendJson]

/-- C25 on a request without a message, against a backend that would
answer. -/
theorem C25_message_required_witness :
    (streamRoute envFallback showEvent (some "key") ["gemini-2.0-flash"]
      { newMessage := none } 0).1.statusCode = 400 ∧
    (chatRoute envFallback (some "key") ["gemini-2.0-flash"] { newMessage := some "" } 0).2.2
      = [] :=
  ⟨congrArg (fun x => x.1.statusCode)
      (C25_message_required envFallback showEvent (some "key") ["gemini-2.0-flash"]
        { newMessage := none } 0 rfl).1,
   congrArg (fun x => x.2.2)
      (C25_message_required envFallback showEvent (some "key") ["gemini-2.0-flash"]
        { newMessage := some "" } 0 rfl).2⟩

/-! ### C27: the round limit -/

theorem delaysOf_cons_send (chat : Chat) (parts : List OutPart) (acts : List Act) :
    delaysOf (Act.send chat parts :: acts) = delaysOf acts := by
  simp [delaysOf]

theorem delaysOf_cons_tool (name : String) (args : JVal) (acts : List Act) :
    delaysOf (Act.tool name args :: acts) = delaysOf acts := by
  simp [delaysOf]

theorem delaysOf_cons_startChat (chat : Chat) (acts : List Act) :
    delaysOf (Act.startChat chat :: acts) = delaysOf acts := by
  simp [delaysOf]

theorem delaysOf_cons_delay (ms : Nat) (acts : List Act) :
    delaysOf (Act.delay ms :: acts) = ms :: delaysOf acts := by
  simp [delaysOf]

theorem withRetryLoop_sendOnce_counts {σ : Type} (env : Env σ) (chat : Chat)
    (parts : List OutPart) :
    ∀ (n attempt : Nat) (le : Option Err) (s : σ), MAX_RETRIES ≤ attempt + n →
      (withRetryLoop (sendOnce env chat parts) (n + 1) attempt le s).2.2.countP Act.isSend =
        (delaysOf (withRetryLoop (sendOnce env chat parts) (n + 1) attempt le s).2.2).length
          + 1 := by
  intro n
  induction n with
  | zero =>
    intro attempt le s h
    rcases hs : env.sendMessage chat parts s with ⟨r, s1⟩
    have hfs : sendOnce env chat parts s = (r, s1, [Act.send chat parts]) := by
      simp [sendOnce, hs]
    cases r with
    | ok v =>
      rw [withRetryLoop_ok_step _ 0 attempt le s s1 v _ hfs]
      simp [delaysOf, Act.isSend]
    | error e =>
      have hstop : (decide (attempt < MAX_RETRIES) && isRateLimitError e) = false := by
        have : ¬ attempt < MAX_RETRIES := by omega
        simp [this]
      rw [withRetryLoop_throw_step _ 0 attempt le s s1 e _ hfs hstop]
      simp [delaysOf, Act.isSend]
  | succ n ih =>
    intro attempt le s h
    rcases hs : env.sendMessage chat parts s with ⟨r, s1⟩
    have hfs : sendOnce env chat parts s = (r, s1, [Act.send chat parts]) := by
      simp [sendOnce, hs]
    cases r with
    | ok v =>
      rw [withRetryLoop_ok_step _ (n + 1) attempt le s s1 v _ hfs]
      simp [delaysOf, Act.isSend]
    | error e =>
      by_cases hretry : attempt < MAX_RETRIES ∧ isRateLimitError e = true
      · rw [withRetryLoop_retry_step _ (n + 1) attempt le s s1 e _ hfs hretry.1 hretry.2]
        have ih1 := ih (attempt + 1) (some e) s1 (by omega)
        simp only [List.singleton_append, List.countP_cons, Act.isSend, delaysOf_cons_send,
          delaysOf_cons_delay, List.length_cons, ih1]
        simp
      · have hstop : (decide (attempt < MAX_RETRIES) && isRateLimitError e) = false := by
          by_cases h1 : attempt < MAX_RETRIES
          · have : isRateLimitError e = false := by
              cases hb : isRateLimitError e with
              | false => rfl
              | true => exact absurd ⟨h1, hb⟩ hretry
            simp [this]
          · simp [h1]
        rw [withRetryLoop_throw_step _ (n + 1) attempt le s s1 e _ hfs hstop]
        simp [delaysOf, Act.isSend]

theorem withRetry_sendOnce_counts {σ : Type} (env : Env σ) (chat : Chat)
    (parts : List OutPart) (s : σ) :
    (withRetry (sendOnce env chat parts) s).2.2.countP Act.isSend =
      (delaysOf (withRetry (sendOnce env chat parts) s).2.2).length + 1 :=
  withRetryLoop_sendOnce_counts env chat parts MAX_RETRIES 0 none s (by omega)

theorem toolLoop_rounds_counts {σ : Type} (env : Env σ) (chat : Chat) (cd : JVal) :
    ∀ (rounds : List Round) (n : Nat) (resp : Response) (charts : List ToolResult)
      (calls : List ToolCallRecord) (s s' : σ),
      RoundsPlay env chat cd resp s rounds s' →
      rounds.length ≤ n →
      (rounds.length = n ∨
        (finalResponse resp rounds).parts.findSome? (fun p => p.functionCall) = none) →
      ∃ acts, toolLoop env chat cd n resp charts calls s =
        (.ok (finalResponse resp rounds,
              charts ++ (rounds.map (fun r => r.result)).filter
                (fun r => truthyField (getField r "_toolType")),
              calls ++ rounds.map (fun r => ⟨r.call.name, r.call.args, r.result⟩)),
          s', acts) ∧
        toolCount acts = rounds.length ∧
        acts.countP Act.isSend = (delaysOf acts).length + rounds.length := by
  intro rounds
  induction rounds with
  | nil =>
    intro n resp charts calls s s' hplay _ hend
    simp only [RoundsPlay] at hplay
    subst hplay
    have hfin : finalResponse resp [] = resp := rfl
    rw [hfin] at hend ⊢
    cases n with
    | zero => exact ⟨[], by simp [toolLoop], rfl, rfl⟩
    | succ k =>
      have hnone : resp.parts.findSome? (fun p => p.functionCall) = none := by
        rcases hend with h | h
        · simp at h
        · exact h
      refine ⟨[], ?_, rfl, rfl⟩
      unfold toolLoop
      rw [hnone]
      simp
  | cons r more ih =>
    intro n resp charts calls s s' hplay hlen hend
    simp only [RoundsPlay] at hplay
    obtain ⟨hcall, s1, s2, a, hexec, hsend, hmore⟩ := hplay
    cases n with
    | zero => simp at hlen
    | succ k =>
      rw [finalResponse_cons] at hend ⊢
      have hlen' : more.length ≤ k := by simpa using hlen
      have hend' : more.length = k ∨
          (finalResponse r.next more).parts.findSome? (fun p => p.functionCall) = none := by
        rcases hend with h | h
        · left; simpa using h
        · exact Or.inr h
      obtain ⟨acts, hrec, htools, hsends⟩ := ih k r.next
        (if truthyField (getField r.result "_toolType") = true then charts ++ [r.result]
          else charts)
        (calls ++ [⟨r.call.name, r.call.args, r.result⟩]) s2 s' hmore hlen' hend'
      have hw := withRetry_sendOnce_counts env chat
        [OutPart.functionResponse r.call.name (deleteField r.result "imageBase64")] s1
      have hwt := toolCount_withRetry_sendOnce env chat
        [OutPart.functionResponse r.call.name (deleteField r.result "imageBase64")] s1
      rw [hsend] at hw hwt
      simp only at hw hwt
      refine ⟨Act.tool r.call.name r.call.args :: (a ++ acts), ?_, ?_, ?_⟩
      · unfold toolLoop
        rw [hcall]
        simp only
        rw [hexec]
        simp only
        rw [hsend]
        simp only
        rw [hrec]
        simp only [List.map_cons, List.filter_cons, Prod.mk.injEq, Except.ok.injEq, and_true,
          true_and]
        constructor
        · split <;> simp
        · simp
      · have : toolCount (Act.tool r.call.name r.call.args :: (a ++ acts))
            = 1 + (toolCount a + toolCount acts) := by
          rw [← toolCount_append]
          simp [toolCount, List.countP_cons, Act.isTool]
          omega
        rw [this, hwt, htools]
        simp only [List.length_cons]
        omega
      · rw [delaysOf_cons_tool, delaysOf_append, List.length_append]
        simp only [List.countP_cons, List.countP_append, Act.isSend, hw, hsends,
          List.length_cons]
        simp
        omega

theorem toolLoop_calls_bound {σ : Type} (env : Env σ) (chat : Chat) (cd : JVal) :
    ∀ (n : Nat) (resp : Response) (charts : List ToolResult) (calls : List ToolCallRecord)
      (s : σ) (resp' : Response) (charts' : List ToolResult) (calls' : List ToolCallRecord),
      (toolLoop env chat cd n resp charts calls s).1 = .ok (resp', charts', calls') →
      calls'.length ≤ calls.length + n := by
  intro n
  induction n with
  | zero =>
    intro resp charts calls s resp' charts' calls' h
    simp only [toolLoop, Except.ok.injEq, Prod.mk.injEq] at h
    rw [← h.2.2]
    omega
  | succ n ih =>
    intro resp charts calls s resp' charts' calls' h
    unfold toolLoop at h
    cases hfc : resp.parts.findSome? (fun p => p.functionCall) with
    | none =>
      rw [hfc] at h
      simp only [Except.ok.injEq, Prod.mk.injEq] at h
      rw [← h.2.2]
      omega
    | some fc =>
      rw [hfc] at h
      simp only at h
      rcases hex : env.executeTool fc.name fc.args cd s with ⟨r, s1⟩
      rw [hex] at h
      cases r with
      | error e => simp at h
      | ok tr =>
        simp only at h
        rcases hsend : withRetry (sendOnce env chat
          [OutPart.functionResponse fc.name (deleteField tr "imageBase64")]) s1 with ⟨r2, s2, a2⟩
        rw [hsend] at h
        cases r2 with
        | error e => simp at h
        | ok resp1 =>
          simp only at h
          have ih1 := ih resp1
            (if truthyField (getField tr "_toolType") = true then charts ++ [tr] else charts)
            (calls ++ [⟨fc.name, fc.args, tr⟩]) s2 resp' charts' calls'
          rcases hrec : toolLoop env chat cd n resp1
            (if truthyField (getField tr "_toolType") = true then charts ++ [tr] else charts)
            (calls ++ [⟨fc.name, fc.args, tr⟩]) s2 with ⟨r3, s3, a3⟩
          rw [hrec] at h ih1
          simp only at h ih1
          have := ih1 h
          simp only [List.length_append, List.length_singleton] at this
          omega

theorem attempt_calls_bound {σ : Type} (env : Env σ) (args : Args) (m : String) (s : σ)
    (r : ChatResult) (h : (chatWithToolsAttempt env args m s).1 = .ok r) :
    r.toolCalls.length ≤ 5 := by
  unfold chatWithToolsAttempt at h
  simp only at h
  rcases hsend : withRetry (sendOnce env (chatFor args Tools.functionDeclarations m)
    (outboundParts args.newMessage args.imageParts)) s with ⟨r1, s1, a1⟩
  rw [hsend] at h
  cases r1 with
  | error e => simp at h
  | ok resp =>
    simp only at h
    have hb := toolLoop_calls_bound env (chatFor args Tools.functionDeclarations m)
      args.channelData 5 resp [] [] s1
    rcases hloop : toolLoop env (chatFor args Tools.functionDeclarations m)
      args.channelData 5 resp [] [] s1 with ⟨r2, s2, a2⟩
    rw [hloop] at h hb
    cases r2 with
    | error e => simp at h
    | ok v =>
      rcases v with ⟨resp1, charts, calls⟩
      simp only at h
      have hlen := hb resp1 charts calls rfl
      cases htxt : resp1.text with
      | error e => rw [htxt] at h; simp at h
      | ok t =>
        rw [htxt] at h
        simp only [Except.ok.injEq] at h
        rw [← h]
        simpa using hlen

theorem models_calls_bound {σ : Type} (env : Env σ) (args : Args) :
    ∀ (models : List String) (s : σ) (r : ChatResult),
      (chatWithToolsModels env args models s).1 = .ok r → r.toolCalls.length ≤ 5 := by
  intro models
  induction models with
  | nil => intro s r h; simp [chatWithToolsModels] at h
  | cons m rest ih =>
    intro s r h
    unfold chatWithToolsModels at h
    have hb := attempt_calls_bound env args m s
    rcases hatt : chatWithToolsAttempt env args m s with ⟨r1, s1, a1⟩
    rw [hatt] at h hb
    cases r1 with
    | ok v =>
      simp only [Except.ok.injEq] at h
      exact hb r (by rw [h])
    | error err =>
      simp only at h
      split at h
      · have ih1 := ih s1 r
        rcases hrec : chatWithToolsModels env args rest s1 with ⟨r2, s2, a2⟩
        rw [hrec] at h ih1
        exact ih1 h
      · simp at h

/-- C27: in a candidate attempt in which the first response and the
responses to the first four tool results request a function call and the
response to the fifth has text `t` (whatever else it holds, also when it
still requests a function call), the loop stops after 5 tool executions and
6 backend messages (one send each, plus one re-send per backoff delay of the
retry policy), and `chatWithToolsInternal` returns `t` with a `toolCalls` of
length 5 and no error; and in every run the returned `toolCalls` has at most
5 records. -/
theorem C27_round_limit {σ : Type} (env : Env σ) (apiKey : String) (m : String)
    (rest : List String) (args : Args) (s s1 s2 : σ) (a1 : List Act) (first : Response)
    (rounds : List Round) (t : String)
    (hkey : apiKey ≠ "")
    (hfirst : withRetry (sendOnce env (chatFor args Tools.functionDeclarations m)
      (outboundParts args.newMessage args.imageParts)) s = (.ok first, s1, a1))
    (hplay : RoundsPlay env (chatFor args Tools.functionDeclarations m) args.channelData
      first s1 rounds s2)
    (hfive : rounds.length = 5)
    (htext : (finalResponse first rounds).text = .ok t) :
    (∃ (charts : List ToolResult) (toolCalls : List ToolCallRecord) (acts : List Act),
      chatWithToolsInternal env (some apiKey) (m :: rest) args s =
        (.ok ⟨t, charts, toolCalls⟩, s2, acts) ∧
      toolCalls.length = 5 ∧
      toolCount acts = 5 ∧
      acts.countP Act.isSend = (delaysOf acts).length + 6) ∧
    (∀ (apiKey0 : Option String) (models : List String) (args0 : Args) (s0 : σ)
        (r : ChatResult),
      (chatWithToolsInternal env apiKey0 models args0 s0).1 = .ok r →
      r.toolCalls.length ≤ 5) := by
  constructor
  · obtain ⟨acts, hloop, htools, hsends⟩ := toolLoop_rounds_counts env
      (chatFor args Tools.functionDeclarations m) args.channelData rounds 5 first [] [] s1 s2
      hplay (by omega) (Or.inl hfive)
    have hw := withRetry_sendOnce_counts env (chatFor args Tools.functionDeclarations m)
      (outboundParts args.newMessage args.imageParts) s
    have hwt := toolCount_withRetry_sendOnce env (chatFor args Tools.functionDeclarations m)
      (outboundParts args.newMessage args.imageParts) s
    rw [hfirst] at hw hwt
    simp only at hw hwt
    have hk : (!truthyStr (some apiKey)) = false := by simp [truthyStr, hkey]
    refine ⟨(rounds.map (fun r => r.result)).filter
        (fun r => truthyField (getField r "_toolType")),
      rounds.map (fun r => ⟨r.call.name, r.call.args, r.result⟩),
      Act.startChat (chatFor args Tools.functionDeclarations m) :: (a1 ++ acts),
      ?_, ?_, ?_, ?_⟩
    · unfold chatWithToolsInternal
      rw [hk]
      simp only [Bool.false_eq_true, ↓reduceIte]
      unfold chatWithToolsModels chatWithToolsAttempt
      simp only
      rw [hfirst]
      simp only
      rw [hloop]
      simp only [List.nil_append]
      rw [htext]
    · simp [hfive]
    · have : toolCount (Act.startChat (chatFor args Tools.functionDeclarations m)
          :: (a1 ++ acts)) = toolCount a1 + toolCount acts := by
        rw [← toolCount_append]
        simp [toolCount, List.countP_cons, Act.isTool]
      rw [this, hwt, htools, hfive]
    · rw [delaysOf_cons_startChat, delaysOf_append, List.length_append]
      simp only [List.countP_cons, List.countP_append, Act.isSend, hw, hsends, hfive]
      simp
      omega
  · intro apiKey0 models args0 s0 r h
    unfold chatWithToolsInternal at h
    split at h
    · simp at h
    · exact models_calls_bound env args0 models s0 r h

/-- C27 on a backend that requests `lookup` in every response: the sixth
response still requests it, and the session returns its text with five tool
calls. -/
theorem C27_round_limit_witness :
    (envAlwaysCalls.sendMessage (chatFor helloArgs Tools.functionDeclarations "m") [] 5).1
      = .ok { parts := [lookupCall], text := .ok "more" } ∧
    ∃ (charts : List ToolResult) (toolCalls : List ToolCallRecord) (acts : List Act),
      chatWithToolsInternal envAlwaysCalls (some "key") ("m" :: []) helloArgs 0 =
        (.ok ⟨"more", charts, toolCalls⟩, 6, acts) ∧
      toolCalls.length = 5 ∧
      toolCount acts = 5 ∧
      acts.countP Act.isSend = (delaysOf acts).length + 6 :=
  ⟨rfl,
   (C27_round_limit envAlwaysCalls "key" "m" [] helloArgs 0 1 6
    [Act.send (chatFor helloArgs Tools.functionDeclarations "m")
      (outboundParts helloArgs.newMessage helloArgs.imageParts)]
    { parts := [lookupCall], text := .ok "more" }
    (List.replicate 5 ⟨⟨"lookup", JVal.obj [("q", JVal.str "x")]⟩, [("value", JVal.num 42)],
      { parts := [lookupCall], text := .ok "more" }⟩)
    "more" (by decide) rfl
    ⟨rfl, 1, 2, _, rfl, rfl, rfl, 2, 3, _, rfl, rfl, rfl, 3, 4, _, rfl, rfl,
      rfl, 4, 5, _, rfl, rfl, rfl, 5, 6, _, rfl, rfl, rfl⟩
    rfl rfl).1⟩

/-! ### C28: errors that are not model-unusable -/

/-- C28: for both sessions and every roster `failed ++ m :: rest`: when the
candidates of `failed` have failed with model-unusable errors and the attempt
on candidate `m` fails with an error `e` that `is404OrNotSupported` does not
classify as model-unusable, the session fails with `e` itself and the
candidates attempted are those of `failed` followed by `m`: no candidate of
`rest` is attempted. -/
theorem C28_other_errors_propagate {σ : Type} (env : Env σ) (apiKey : String) (args : Args)
    (failed : List String) (m : String) (rest : List String) (hkey : apiKey ≠ "") :
    (∀ (s s' s'' : σ) (acts a : List Act) (e : Err),
      ToolsAttemptsFail env args failed s s' acts →
      chatWithToolsAttempt env args m s' = (.error e, s'', a) →
      is404OrNotSupported e = false →
      chatWithToolsInternal env (some apiKey) (failed ++ m :: rest) args s
        = (.error e, s'', acts ++ a) ∧
      attempted (acts ++ a) = failed ++ [m]) ∧
    (∀ (s s' s'' : σ) (acts a : List Act) (evs : List StreamEvent) (e : Err),
      StreamCallsFail env args failed s s' acts →
      streamAttempt env args m s' = (evs, .error e, s'', a) →
      is404OrNotSupported e = false →
      streamChatInternal env (some apiKey) (failed ++ m :: rest) args s
        = (evs, .error e, s'', acts ++ a) ∧
      attempted (acts ++ a) = failed ++ [m]) := by
  have hk : (!truthyStr (some apiKey)) = false := by simp [truthyStr, hkey]
  constructor
  · intro s s' s'' acts a e hfail herr hother
    constructor
    · unfold chatWithToolsInternal
      rw [hk]
      simp only [Bool.false_eq_true, ↓reduceIte]
      rw [chatWithToolsModels_skip env args failed (m :: rest) s s' acts hfail]
      unfold chatWithToolsModels
      rw [herr]
      simp only [hother, Bool.false_eq_true, ↓reduceIte]
    · have h1 := attempted_attempt env args m s'
      rw [herr] at h1
      simp only at h1
      rw [attempted_append, toolsAttemptsFail_attempted env args failed s s' acts hfail, h1]
  · intro s s' s'' acts a evs e hfail herr hother
    constructor
    · unfold streamChatInternal
      rw [hk]
      simp only [Bool.false_eq_true, ↓reduceIte]
      rw [streamModels_skip env args failed (m :: rest) s s' acts hfail]
      unfold streamModels
      rw [herr]
      simp only [hother, Bool.false_eq_true, ↓reduceIte]
    · have h1 := attempted_streamAttempt env args m s'
      rw [herr] at h1
      simp only at h1
      rw [attempted_append, streamCallsFail_attempted env args failed s s' acts hfail, h1]

/-- C28 on a backend that is rate-limited on every call: the retry budget of
the first candidate is used up, its 429 error reaches the caller, and the
second candidate is not attempted. -/
theorem C28_other_errors_propagate_witness :
    (chatWithToolsInternal envThrottled (some "key") ([] ++ "m" :: ["n"]) helloArgs 0).1
      = .error ⟨"429 Resource exhausted"⟩ ∧
    (streamChatInternal envThrottled (some "key") ([] ++ "m" :: ["n"]) helloArgs 0).2.1
      = .error ⟨"429 Resource exhausted"⟩ ∧
    attempted (chatWithToolsInternal envThrottled (some "key") ([] ++ "m" :: ["n"])
      helloArgs 0).2.2 = ["m"] :=
  have h := C28_other_errors_propagate envThrottled "key" helloArgs [] "m" ["n"] (by decide)
  have ht := h.1 0 0 4 [] _ ⟨"429 Resource exhausted"⟩ ⟨rfl, rfl⟩ rfl (by decide)
  have hs := h.2 0 0 4 [] _ [] ⟨"429 Resource exhausted"⟩ ⟨rfl, rfl⟩ rfl (by decide)
  ⟨congrArg (fun x => x.1) ht.1, congrArg (fun x => x.2.1) hs.1,
    (congrArg (fun x => attempted x.2.2) ht.1).trans ht.2⟩

/-! ### C26: the conversation handed to the backend -/

theorem withRetry_sendStreamOnce_head {σ : Type} (env : Env σ) (chat : Chat)
    (parts : List OutPart) (s : σ) :
    ∃ rest, (withRetry (sendStreamOnce env chat parts) s).2.2
      = Act.sendStream chat parts :: rest := by
  unfold withRetry
  show ∃ rest, (withRetryLoop (sendStreamOnce env chat parts) (3 + 1) 0 none s).2.2 = _
  unfold withRetryLoop
  rcases h : env.sendMessageStream chat parts s with ⟨r, s1⟩
  simp only [sendStreamOnce, h]
  cases r with
  | ok v => exact ⟨[], rfl⟩
  | error e =>
    simp only
    split
    · exact ⟨_, rfl⟩
    · exact ⟨[], rfl⟩

theorem str_append_ne (a b : String) (hb : b ≠ "") : a ++ b ≠ "" := by
  intro h
  apply hb
  have hd := congrArg String.data h
  simp only [String.data_append] at hd
  have hb' : b.data = [] := (List.append_eq_nil.1 hd).2
  exact String.ext hb'

theorem personalization_ne (fn : String) (ln : Option String) : personalization fn ln ≠ "" := by
  unfold personalization
  exact str_append_ne _ _ (by decide)

theorem buildSystemHistory_named (systemPrompt : String) (userInfo : Option UserInfo)
    (fn : String) (hfn : userInfo.bind (fun u => u.firstName) = some fn) (hne : fn ≠ "") :
    buildSystemHistory systemPrompt userInfo =
      preambleTurns (systemPrompt ++
        personalization fn (userInfo.bind (fun u => u.lastName))) := by
  cases userInfo with
  | none => simp at hfn
  | some u =>
    rcases u with ⟨f, l⟩
    simp only [Option.some_bind] at hfn ⊢
    subst hfn
    have hsp : (if (systemPrompt != "") = true then systemPrompt else "") = systemPrompt := by
      by_cases hs : systemPrompt = "" <;> simp [hs]
    have hne' : (fn != "") = true := by simpa using hne
    have hpre : (systemPrompt ++ personalization fn l == "") = false := by
      rw [beq_eq_false_iff_ne]
      exact str_append_ne _ _ (personalization_ne fn l)
    unfold buildSystemHistory
    simp only [Option.isNone_some, Bool.and_false, Bool.false_eq_true, ↓reduceIte,
      Option.some_bind, hsp, hne']
    cases l with
    | none =>
      simp only [personalization, preambleTurns, String.append_assoc] at hpre ⊢
      rw [hpre]
      rfl
    | some ln =>
      simp only [personalization, preambleTurns, String.append_assoc] at hpre ⊢
      rw [hpre]
      rfl

theorem buildSystemHistory_unnamed (systemPrompt : String) (userInfo : Option UserInfo)
    (hfn : truthyStr (userInfo.bind (fun u => u.firstName)) = false) :
    buildSystemHistory systemPrompt userInfo =
      if systemPrompt = "" then [] else preambleTurns systemPrompt := by
  have hsp : (if (systemPrompt != "") = true then systemPrompt else "") = systemPrompt := by
    by_cases hs : systemPrompt = "" <;> simp [hs]
  have hfinal : (if (systemPrompt == "") = true then ([] : List Turn)
      else preambleTurns systemPrompt) =
      if systemPrompt = "" then [] else preambleTurns systemPrompt := by
    by_cases hs : systemPrompt = "" <;> simp [hs]
  unfold buildSystemHistory
  cases hu : userInfo.bind (fun u => u.firstName) with
  | none =>
    simp only [hsp]
    by_cases hc : (systemPrompt == "" && userInfo.isNone) = true
    · simp only [hc, ↓reduceIte]
      have : systemPrompt = "" := by
        simp only [Bool.and_eq_true, beq_iff_eq] at hc
        exact hc.1
      simp [this]
    · simp only [hc, Bool.false_eq_true, ↓reduceIte]
      exact hfinal
  | some fn =>
    have hfn' : fn = "" := by
      rw [hu] at hfn
      simpa [truthyStr] using hfn
    subst hfn'
    simp only [hsp, bne_self_eq_false, Bool.false_eq_true, ↓reduceIte]
    by_cases hc : (systemPrompt == "" && userInfo.isNone) = true
    · simp only [hc, ↓reduceIte]
      have : systemPrompt = "" := by
        simp only [Bool.and_eq_true, beq_iff_eq] at hc
        exact hc.1
      simp [this]
    · simp only [hc, Bool.false_eq_true, ↓reduceIte]
      exact hfinal

theorem chatWithToolsAttempt_head {σ : Type} (env : Env σ) (args : Args) (m : String) (s : σ) :
    ∃ rest, (chatWithToolsAttempt env args m s).2.2 =
      Act.startChat (chatFor args Tools.functionDeclarations m)
        :: Act.send (chatFor args Tools.functionDeclarations m)
            (outboundParts args.newMessage args.imageParts) :: rest := by
  obtain ⟨rest0, hhead⟩ := withRetry_sendOnce_head env
    (chatFor args Tools.functionDeclarations m)
    (outboundParts args.newMessage args.imageParts) s
  unfold chatWithToolsAttempt
  simp only
  rcases hsend : withRetry (sendOnce env (chatFor args Tools.functionDeclarations m)
    (outboundParts args.newMessage args.imageParts)) s with ⟨r, s1, a1⟩
  rw [hsend] at hhead
  simp only at hhead
  cases r with
  | error e => exact ⟨rest0, by simp [hhead]⟩
  | ok resp =>
    simp only
    rcases hloop : toolLoop env (chatFor args Tools.functionDeclarations m)
      args.channelData 5 resp [] [] s1 with ⟨r2, s2, a2⟩
    cases r2 with
    | error e => exact ⟨rest0 ++ a2, by simp [hhead]⟩
    | ok v =>
      rcases v with ⟨resp1, charts, calls⟩
      simp only
      cases resp1.text with
      | error e => exact ⟨rest0 ++ a2, by simp [hhead]⟩
      | ok t => exact ⟨rest0 ++ a2, by simp [hhead]⟩

theorem streamAttempt_head {σ : Type} (env : Env σ) (args : Args) (m : String) (s : σ) :
    ∃ rest, (streamAttempt env args m s).2.2.2 =
      Act.startChat (chatFor args (streamTools args) m)
        :: Act.sendStream (chatFor args (streamTools args) m)
            (outboundParts args.newMessage args.imageParts) :: rest := by
  obtain ⟨rest0, hhead⟩ := withRetry_sendStreamOnce_head env
    (chatFor args (streamTools args) m)
    (outboundParts args.newMessage args.imageParts) s
  unfold streamAttempt
  simp only
  rcases hsend : withRetry (sendStreamOnce env (chatFor args (streamTools args) m)
    (outboundParts args.newMessage args.imageParts)) s with ⟨r, s1, a1⟩
  rw [hsend] at hhead
  simp only at hhead
  cases r with
  | error e => exact ⟨rest0, by simp [hhead]⟩
  | ok result =>
    simp only
    cases result.streamError with
    | some e => exact ⟨rest0, by simp [hhead]⟩
    | none =>
      simp only
      cases result.response with
      | error e => exact ⟨rest0, by simp [hhead]⟩
      | ok response => exact ⟨rest0, by simp [hhead]⟩

/-- C26: for every history, message `t`, image list and caller identity,
both sessions start the chat of a candidate on the preamble turns followed by
one turn per supplied history entry, in order (role `user` kept, any other
role turned into `model`, the text copied), and first send it the message
text followed by one inline-data part per image, in order.  The preamble is
empty or the two preamble turns; with a first name it is the two turns on the
system prompt followed by the personalization line naming the user, without
one it has no such line. -/
theorem C26_conversation {σ : Type} (env : Env σ) (args : Args) (m : String) (s : σ)
    (t : String) (hmsg : args.newMessage = some t) :
    (∀ tools : Tools, (chatFor args tools m).history =
      buildSystemHistory args.systemPrompt args.userInfo ++
        args.history.map (fun h =>
          ⟨if h.role = "user" then "user" else "model", [OutPart.text (h.content.getD "")]⟩)) ∧
    outboundParts args.newMessage args.imageParts =
      OutPart.text t :: args.imageParts.map (fun img =>
        OutPart.inlineData (if truthyStr img.mimeType = true then img.mimeType.getD ""
          else "image/png") img.data) ∧
    (buildSystemHistory args.systemPrompt args.userInfo = [] ∨
      ∃ preamble, buildSystemHistory args.systemPrompt args.userInfo = preambleTurns preamble) ∧
    (∀ fn, args.userInfo.bind (fun u => u.firstName) = some fn → fn ≠ "" →
      buildSystemHistory args.systemPrompt args.userInfo =
        preambleTurns (args.systemPrompt ++
          personalization fn (args.userInfo.bind (fun u => u.lastName)))) ∧
    (truthyStr (args.userInfo.bind (fun u => u.firstName)) = false →
      buildSystemHistory args.systemPrompt args.userInfo =
        if args.systemPrompt = "" then [] else preambleTurns args.systemPrompt) ∧
    (∃ rest, (chatWithToolsAttempt env args m s).2.2 =
      Act.startChat (chatFor args Tools.functionDeclarations m)
        :: Act.send (chatFor args Tools.functionDeclarations m)
            (outboundParts args.newMessage args.imageParts) :: rest) ∧
    (∃ rest, (streamAttempt env args m s).2.2.2 =
      Act.startChat (chatFor args (streamTools args) m)
        :: Act.sendStream (chatFor args (streamTools args) m)
            (outboundParts args.newMessage args.imageParts) :: rest) := by
  refine ⟨?_, ?_, ?_, fun fn h1 h2 => buildSystemHistory_named _ _ fn h1 h2,
    fun h => buildSystemHistory_unnamed _ _ h,
    chatWithToolsAttempt_head env args m s, streamAttempt_head env args m s⟩
  · intro tools
    simp only [chatFor, baseHistory, List.append_cancel_left_eq]
    apply List.map_congr_left
    intro h _
    by_cases hr : h.role = "user" <;> simp [hr]
  · rw [hmsg]
    simp only [outboundParts, List.singleton_append, List.cons.injEq, true_and]
    apply List.map_congr_left
    intro img _
    cases hmt : img.mimeType with
    | none => simp [truthyStr]
    | some mt =>
      by_cases hm : mt = ""
      · simp [truthyStr, hm]
      · simp [truthyStr, hm]
  · by_cases hfn : truthyStr (args.userInfo.bind (fun u => u.firstName)) = true
    · obtain ⟨fn, h1, h2⟩ := truthyStr_some _ hfn
      exact Or.inr ⟨_, buildSystemHistory_named _ _ fn h1 h2⟩
    · have hfn' : truthyStr (args.userInfo.bind (fun u => u.firstName)) = false := by
        simpa using hfn
      rw [buildSystemHistory_unnamed _ _ hfn']
      by_cases hs : args.systemPrompt = ""
      · left; simp [hs]
      · right; exact ⟨args.systemPrompt, by simp [hs]⟩

/-- C26 on a request with one earlier exchange, an image and a named user. -/
theorem C26_conversation_witness :
    (chatFor { systemPrompt := "Be brief.",
               history := [⟨"user", some "Hi"⟩, ⟨"assistant", none⟩],
               newMessage := some "Hello", imageParts := [⟨none, "iVBORw0KGgo="⟩],
               userInfo := some { firstName := some "Ada", lastName := some "Lovelace" } }
        Tools.search "gemini-2.0-flash").history =
      preambleTurns ("Be brief." ++ personalization "Ada" (some "Lovelace")) ++
        [⟨"user", [OutPart.text "Hi"]⟩, ⟨"model", [OutPart.text ""]⟩] ∧
    outboundParts (some "Hello") [⟨none, "iVBORw0KGgo="⟩] =
      [OutPart.text "Hello", OutPart.inlineData "image/png" "iVBORw0KGgo="] :=
  have h := C26_conversation envFallback
    { systemPrompt := "Be brief.",
      history := [⟨"user", some "Hi"⟩, ⟨"assistant", none⟩],
      newMessage := some "Hello", imageParts := [⟨none, "iVBORw0KGgo="⟩],
      userInfo := some { firstName := some "Ada", lastName := some "Lovelace" } }
    "gemini-2.0-flash" 0 "Hello" rfl
  ⟨(h.1 Tools.search).trans (by rw [h.2.2.2.1 "Ada" rfl (by decide)]; rfl), h.2.1⟩

/-! ### C30: the client of the stream route -/

theorem splitLines_ne_nil (l : List Char) : splitLines l ≠ [] := by
  cases l with
  | nil => simp [splitLines]
  | cons c cs =>
    unfold splitLines
    split
    · simp
    · split <;> simp

theorem splitLines_cons_newline (cs : List Char) :
    splitLines ('\n' :: cs) = [] :: splitLines cs := by
  simp [splitLines]

theorem splitLines_cons_other (c : Char) (cs : List Char) (hc : c ≠ '\n') :
    ∃ l ls, splitLines cs = l :: ls ∧ splitLines (c :: cs) = (c :: l) :: ls := by
  cases h : splitLines cs with
  | nil => exact absurd h (splitLines_ne_nil cs)
  | cons l ls =>
    refine ⟨l, ls, rfl, ?_⟩
    conv_lhs => unfold splitLines
    simp [hc, h]

theorem splitLines_append (a b : List Char) :
    splitLines (a ++ b) =
      (splitLines a).dropLast ++ splitLines ((splitLines a).getLast?.getD [] ++ b) := by
  induction a with
  | nil => simp [splitLines]
  | cons c cs ih =>
    by_cases hc : c = '\n'
    · subst hc
      rw [List.cons_append, splitLines_cons_newline, splitLines_cons_newline, ih]
      obtain ⟨x, xs, hx⟩ := List.exists_cons_of_ne_nil (splitLines_ne_nil cs)
      rw [hx]
      simp
    · obtain ⟨l, ls, hcs, hccs⟩ := splitLines_cons_other c cs hc
      obtain ⟨l2, ls2, hcs2, hccs2⟩ := splitLines_cons_other c (cs ++ b) hc
      rw [List.cons_append, hccs2, hccs]
      rw [ih, hcs] at hcs2
      cases ls with
      | nil =>
        simp only [List.dropLast_single, List.nil_append, List.getLast?_singleton,
          Option.getD_some] at hcs2 ⊢
        obtain ⟨l3, ls3, hcs3, hccs3⟩ := splitLines_cons_other c (l ++ b) hc
        rw [List.cons_append, hccs3]
        rw [hcs3] at hcs2
        simp only [List.cons.injEq] at hcs2
        rw [hcs2.1, hcs2.2]
      | cons y ys =>
        simp only [List.dropLast_cons₂, List.cons_append, List.getLast?_cons_cons,
          List.cons.injEq] at hcs2 ⊢
        rw [hcs2.1, hcs2.2]
        simp

theorem splitLines_last_no_newline (l : List Char) :
    '\n' ∉ (splitLines l).getLast?.getD [] := by
  induction l with
  | nil => simp [splitLines]
  | cons c cs ih =>
    by_cases hc : c = '\n'
    · subst hc
      rw [splitLines_cons_newline]
      obtain ⟨x, xs, hx⟩ := List.exists_cons_of_ne_nil (splitLines_ne_nil cs)
      rw [hx] at ih ⊢
      simpa using ih
    · obtain ⟨l, ls, hcs, hccs⟩ := splitLines_cons_other c cs hc
      rw [hccs]
      rw [hcs] at ih
      cases ls with
      | nil =>
        simp only [List.getLast?_singleton, Option.getD_some, List.mem_cons, not_or] at ih ⊢
        exact ⟨fun h => hc h.symm, ih⟩
      | cons y ys =>
        simpa using ih

theorem splitLines_of_no_newline (l : List Char) (h : '\n' ∉ l) : splitLines l = [l] := by
  induction l with
  | nil => rfl
  | cons c cs ih =>
    have hc : c ≠ '\n' := fun e => h (by simp [e])
    have hcs : '\n' ∉ cs := fun e => h (List.mem_cons_of_mem _ e)
    obtain ⟨l, ls, h1, h2⟩ := splitLines_cons_other c cs hc
    rw [h2]
    rw [ih hcs] at h1
    simp only [List.cons.injEq] at h1
    rw [← h1.1, ← h1.2]

theorem readLoop_spec (parse : String → Option JVal) :
    ∀ (chunks : List String) (buffer : List Char), '\n' ∉ buffer →
      (readLoop parse buffer chunks).1 ++ (lineValue parse (readLoop parse buffer chunks).2).toList
        = parsedLines parse (buffer ++ wholeText chunks) := by
  intro chunks
  induction chunks with
  | nil =>
    intro buffer hb
    simp only [readLoop, wholeText, List.append_nil, List.nil_append, parsedLines]
    rw [splitLines_of_no_newline buffer hb]
    simp only [List.filterMap_cons, List.filterMap_nil]
    cases lineValue parse buffer <;> rfl
  | cons value rest ih =>
    intro buffer _
    have ih1 := ih ((splitLines (buffer ++ value.toList)).getLast?.getD [])
      (splitLines_last_no_newline _)
    unfold readLoop
    simp only
    rcases hrec : readLoop parse ((splitLines (buffer ++ value.toList)).getLast?.getD []) rest
      with ⟨more, final⟩
    rw [hrec] at ih1
    simp only at ih1 ⊢
    rw [List.append_assoc, ih1]
    simp only [parsedLines, wholeText]
    rw [← List.append_assoc buffer, splitLines_append (buffer ++ value.toList),
      List.filterMap_append]

/-- C30: for every response text and every way of cutting it into the values
the client reads (also in the middle of a line), `streamChat` of
services/gemini.js yields the JSON value of each non-blank line of the whole
text that parses, in line order, skipping the lines that do not parse and
including a last line without a newline after it; so two ways of cutting the
same text yield the same sequence. -/
theorem C30_chunking_is_invisible (parse : String → Option JVal) (chunks : List String) :
    streamChat parse { chunks := chunks } = (parsedLines parse (wholeText chunks), .ok ()) ∧
    (∀ chunks2 : List String, wholeText chunks2 = wholeText chunks →
      streamChat parse { chunks := chunks2 } = streamChat parse { chunks := chunks }) := by
  have hrun : ∀ cs : List String,
      streamChat parse { chunks := cs } = (parsedLines parse (wholeText cs), .ok ()) := by
    intro cs
    have h := readLoop_spec parse cs [] (by simp)
    simp only [List.nil_append] at h
    unfold streamChat
    simp only [Bool.not_true, Bool.false_eq_true, ↓reduceIte]
    rcases hrec : readLoop parse [] cs with ⟨out, buffer⟩
    rw [hrec] at h
    simp only at h ⊢
    rw [h]
  refine ⟨hrun chunks, ?_⟩
  intro chunks2 h
  rw [hrun chunks2, hrun chunks, h]

/-- C30 on the text `1 2 (blank) x 3`, one item per line, read in three
pieces cut inside lines and read in one piece. -/
theorem C30_chunking_is_invisible_witness :
    streamChat parseDigit { chunks := ["1\n2", "\n\nx\n", "3"] } =
      streamChat parseDigit { chunks := ["1\n2\n\nx\n3"] } ∧
    (streamChat parseDigit { chunks := ["1\n2", "\n\nx\n", "3"] }).1 =
      [JVal.num 1, JVal.num 2, JVal.num 3] :=
  ⟨(C30_chunking_is_invisible parseDigit ["1\n2\n\nx\n3"]).2 ["1\n2", "\n\nx\n", "3"] rfl,
   rfl⟩

/-! ### C23: resolving a requested name -/

theorem find_of_firstWith (p : String → Bool) (names : List String) (n : String)
    (h : FirstWith p names n) : names.find? p = some n := by
  obtain ⟨before, after, hsplit, hp, hbefore⟩ := h
  rw [List.find?_eq_some]
  exact ⟨hp, before, after, hsplit, fun a ha => by simp [hbefore a ha]⟩

theorem resolveCol_eq_resolveField {Num : Type} (js : Js Num) (rows : List Record)
    (name : String) : resolveCol js rows name = resolveField js rows name := by
  cases rows <;> rfl

/-- C23, as stated, fails: the first record has a key that is the empty
string, which is the first key equal to the requested name `_` after
normalisation, and `resolveField` (like `resolveCol`) returns `_`, not that
key. -/
theorem C23_counterexample :
    "_" ∉ keysOf [("", JVal.num 1), ("a", JVal.num 2)] ∧
    FirstWith (fun k => norm asciiJs k == norm asciiJs "_")
      (keysOf [("", JVal.num 1), ("a", JVal.num 2)]) "" ∧
    resolveField asciiJs [[("", JVal.num 1), ("a", JVal.num 2)]] "_" = "_" ∧
    resolveCol asciiJs [[("", JVal.num 1), ("a", JVal.num 2)]] "_" = "_" ∧
    resolveField asciiJs [[("", JVal.num 1), ("a", JVal.num 2)]] "_" ≠ "" := by
  refine ⟨by decide, ⟨[], ["a"], rfl, by decide, by simp⟩, by decide, by decide, by decide⟩

/-- C23, amended: for every non-empty record list and every non-empty
requested name, `resolveField` (and `resolveCol`, which computes the same)
returns the name itself when it is a key of the first record; otherwise, if
some key of the first record equals the name after lower-casing and deleting
all whitespace, underscores and hyphens from both, it returns the first such
key unless that key is the empty string, in which case it returns the name;
otherwise it returns the name unchanged. -/
theorem C23_resolve_field {Num : Type} (js : Js Num) (first : Record) (rest : List Record)
    (name : String) (hname : name ≠ "") :
    (name ∈ keysOf first → resolveField js (first :: rest) name = name) ∧
    (name ∉ keysOf first →
      ∀ k, FirstWith (fun k => norm js k == norm js name) (keysOf first) k → k ≠ "" →
        resolveField js (first :: rest) name = k) ∧
    (name ∉ keysOf first →
      FirstWith (fun k => norm js k == norm js name) (keysOf first) "" →
        resolveField js (first :: rest) name = name) ∧
    (name ∉ keysOf first → (∀ k ∈ keysOf first, norm js k ≠ norm js name) →
      resolveField js (first :: rest) name = name) ∧
    resolveCol js (first :: rest) name = resolveField js (first :: rest) name := by
  have hn : (name == "") = false := by simpa using hname
  refine ⟨?_, ?_, ?_, ?_, resolveCol_eq_resolveField js _ name⟩
  · intro hkey
    have hc : (keysOf first).contains name = true := by simpa using hkey
    simp only [resolveField, hn, Bool.false_eq_true, ↓reduceIte, hc]
  · intro hkey k hfirst hk
    have hc : (keysOf first).contains name = false := by simpa using hkey
    have hk' : (k != "") = true := by simpa using hk
    simp only [resolveField, hn, Bool.false_eq_true, ↓reduceIte, hc,
      find_of_firstWith _ _ _ hfirst, hk']
  · intro hkey hfirst
    have hc : (keysOf first).contains name = false := by simpa using hkey
    simp only [resolveField, hn, Bool.false_eq_true, ↓reduceIte, hc,
      find_of_firstWith _ _ _ hfirst, bne_self_eq_false]
  · intro hkey hnone
    have hc : (keysOf first).contains name = false := by simpa using hkey
    have hfind : (keysOf first).find? (fun k => norm js k == norm js name) = none := by
      rw [List.find?_eq_none]
      intro k hk
      simpa using hnone k hk
    simp only [resolveField, hn, Bool.false_eq_true, ↓reduceIte, hc, hfind]

/-- C23, amended, on the loaded videos: `View-Count` is not a key and
resolves to the key `view_count`. -/
theorem C23_resolve_field_witness :
    resolveField asciiJs sampleVideos "View-Count" = "view_count" :=
  (C23_resolve_field asciiJs
    [("title", JVal.str "The last dance"), ("view_count", JVal.num 10),
     ("release_date", JVal.str "2024-01-02T10:00:00Z")]
    [[("title", JVal.str "Intro to Lean"), ("view_count", JVal.num 99),
      ("release_date", JVal.str "2024-03-04T10:00:00Z")]]
    "View-Count" (by decide)).2.1 (by decide) "view_count"
    ⟨["title"], ["release_date"], rfl, by decide, by decide⟩ (by decide)

/-! ### C20: the model picked from a listing -/

theorem stripModels_eq (name : String) : stripModels name = withoutModelsPrefix name := by
  obtain ⟨l⟩ := name
  by_cases hp : ∃ rest, l = 'm' :: 'o' :: 'd' :: 'e' :: 'l' :: 's' :: '/' :: rest
  · obtain ⟨rest, rfl⟩ := hp
    simp [stripModels, withoutModelsPrefix, startsWith]
  · have hnot : startsWith ⟨l⟩ "models/" = false := by
      cases hs : startsWith ⟨l⟩ "models/" with
      | false => rfl
      | true =>
        exfalso
        obtain ⟨t, ht⟩ := List.isPrefixOf_iff_prefix.1 hs
        exact hp ⟨t, ht.symm⟩
    unfold stripModels withoutModelsPrefix
    rw [hnot]
    simp only [Bool.false_eq_true, ↓reduceIte]
    split
    · rename_i rest h
      exact absurd ⟨rest, h⟩ hp
    · rfl

theorem modelNames_eq (models : List ModelDesc) : modelNames models = discoveredNames models := by
  unfold modelNames discoveredNames
  induction models with
  | nil => rfl
  | cons m rest ih =>
    rw [List.map_cons, List.filter_cons, List.filterMap_cons, ih]
    cases hname : m.name with
    | none =>
      have h0 : stripModels ((none : Option String).getD "") = "" := by decide
      rw [h0]
      rfl
    | some raw =>
      simp only [Option.getD_some, stripModels_eq]
      by_cases he : withoutModelsPrefix raw = ""
      · simp [he]
      · simp [he]

theorem ofNat_add_toNat (n : Nat) (h1 : 65 ≤ n) (h2 : n ≤ 90) :
    (Char.ofNat (n + 32)).toNat = n + 32 := by
  interval_cases n <;> rfl

theorem toLower_eq_letter (w c : Char) (h1 : 97 ≤ w.toNat) (h2 : w.toNat ≤ 122) :
    (c.toLower == w) = (c == w || c.toNat + 32 == w.toNat) := by
  unfold Char.toLower
  by_cases hup : c.toNat ≥ 65 ∧ c.toNat ≤ 90
  · simp only [hup, and_self, ↓reduceIte]
    have hne : (c == w) = false := by
      rw [beq_eq_false_iff_ne]
      intro h
      rw [h] at hup
      omega
    rw [hne, Bool.false_or]
    have hk := ofNat_add_toNat c.toNat hup.1 hup.2
    by_cases hn : c.toNat + 32 = w.toNat
    · have : Char.ofNat (c.toNat + 32) = w := by
        rw [hn, Char.ofNat_toNat]
      simp [this, hn]
    · have : Char.ofNat (c.toNat + 32) ≠ w := by
        intro h
        rw [h] at hk
        exact hn hk.symm
      simp [this, hn]
  · simp only [hup, ↓reduceIte]
    have hn : (c.toNat + 32 == w.toNat) = false := by
      rw [beq_eq_false_iff_ne]
      intro h
      apply hup
      omega
    rw [hn, Bool.or_false]

theorem isPrefixOf_lower (word : List Char)
    (hword : ∀ w ∈ word, 97 ≤ w.toNat ∧ w.toNat ≤ 122) :
    ∀ t : List Char, word.isPrefixOf (t.map Char.toLower) = startsWithWord word t := by
  induction word with
  | nil => intro t; cases t <;> rfl
  | cons w ws ih =>
    intro t
    cases t with
    | nil => rfl
    | cons c cs =>
      have hw := hword w (List.mem_cons_self _ _)
      have hrec := ih (fun x hx => hword x (List.mem_cons_of_mem _ hx)) cs
      simp only [List.map_cons, List.isPrefixOf, startsWithWord]
      rw [hrec]
      have hl := toLower_eq_letter w c hw.1 hw.2
      have hsym : (w == c.toLower) = (c.toLower == w) := by
        by_cases h : w = c.toLower
        · rw [h]
        · rw [beq_eq_false_iff_ne.2 h, beq_eq_false_iff_ne.2 (Ne.symm h)]
      rw [hsym, hl]

theorem any_tails_eq {α : Type} (p : List α → Bool) :
    ∀ l : List α, l.tails.any p = (List.range (l.length + 1)).any (fun i => p (l.drop i)) := by
  intro l
  induction l with
  | nil => rfl
  | cons a l ih =>
    have h : (List.range (l.length + 1 + 1)).any (fun i => p ((a :: l).drop i)) =
        (p (a :: l) || (List.range (l.length + 1)).any (fun i => p (l.drop i))) := by
      rw [List.range_succ_eq_map, List.any_cons, List.any_map]
      rfl
    show ((a :: l) :: l.tails).any p = _
    rw [List.any_cons, ih, List.length_cons, h]

theorem testI_eq (word : String) (hword : ∀ w ∈ word.toList, 97 ≤ w.toNat ∧ w.toNat ≤ 122)
    (n : String) : testI word n = containsWord word n := by
  unfold testI includes containsWord
  have h1 : (String.mk (n.toList.map Char.toLower)).toList = n.toList.map Char.toLower := rfl
  rw [h1, any_tails_eq, List.length_map]
  apply congrArg
  funext i
  rw [← List.map_drop, isPrefixOf_lower word.toList hword]

theorem testI_flash : testI "flash" = containsWord "flash" :=
  funext (testI_eq "flash" (by decide))

theorem testI_pro : testI "pro" = containsWord "pro" :=
  funext (testI_eq "pro" (by decide))

theorem testI_gemini : testI "gemini" = containsWord "gemini" :=
  funext (testI_eq "gemini" (by decide))

/-- C20: with `names` the discovered names after stripping a leading
`models/` and dropping empty names (`discoveredNames`, written from the words
of the claim), `pickBestModel` returns the first name containing `flash`,
letter case ignored (`containsWord`), if there is one; otherwise the first
name containing `pro`; otherwise the first name containing `gemini`;
otherwise null.  A result that is not null is one of `names`: a discovered
name without its leading `models/`. -/
theorem C20_pick_best_model (models : List ModelDesc) :
    (∀ n, FirstWith (containsWord "flash") (discoveredNames models) n →
      pickBestModel models = some n) ∧
    ((∀ x ∈ discoveredNames models, containsWord "flash" x = false) →
      ∀ n, FirstWith (containsWord "pro") (discoveredNames models) n →
        pickBestModel models = some n) ∧
    ((∀ x ∈ discoveredNames models, containsWord "flash" x = false) →
      (∀ x ∈ discoveredNames models, containsWord "pro" x = false) →
      ∀ n, FirstWith (containsWord "gemini") (discoveredNames models) n →
        pickBestModel models = some n) ∧
    ((∀ x ∈ discoveredNames models, containsWord "flash" x = false) →
      (∀ x ∈ discoveredNames models, containsWord "pro" x = false) →
      (∀ x ∈ discoveredNames models, containsWord "gemini" x = false) →
      pickBestModel models = none) ∧
    (∀ word, (∃ x ∈ discoveredNames models, containsWord word x = true) →
      ∃ n, FirstWith (containsWord word) (discoveredNames models) n) ∧
    (∀ n, pickBestModel models = some n →
      n ∈ discoveredNames models ∧
      ∃ m ∈ models, ∃ raw, m.name = some raw ∧ n = withoutModelsPrefix raw) := by
  have hne : ∀ n ∈ discoveredNames models, n ≠ "" := by
    rw [← modelNames_eq]
    exact modelNames_ne_empty models
  have hnone : truthyStr (none : Option String) = false := rfl
  have hsome : ∀ n ∈ discoveredNames models, truthyStr (some n) = true := by
    intro n hn
    simp [truthyStr, hne n hn]
  have hmem : ∀ (p : String → Bool) n, FirstWith p (discoveredNames models) n →
      n ∈ discoveredNames models := by
    rintro p n ⟨before, after, hsplit, _, _⟩
    rw [hsplit]
    simp
  refine ⟨?_, ?_, ?_, ?_, ?_, ?_⟩
  · intro n hfirst
    have hf := find_of_firstWith _ _ _ hfirst
    unfold pickBestModel
    simp only [modelNames_eq, testI_flash, hf, hsome n (hmem _ n hfirst), ↓reduceIte]
  · intro hnf n hfirst
    have hf := find_of_firstWith _ _ _ hfirst
    unfold pickBestModel
    simp only [modelNames_eq, testI_flash, testI_pro, find_none_of_all_false _ _ hnf, hnone,
      Bool.false_eq_true, hf, hsome n (hmem _ n hfirst), ↓reduceIte]
  · intro hnf hnp n hfirst
    have hf := find_of_firstWith _ _ _ hfirst
    unfold pickBestModel
    simp only [modelNames_eq, testI_flash, testI_pro, testI_gemini,
      find_none_of_all_false _ _ hnf, find_none_of_all_false _ _ hnp, hnone,
      Bool.false_eq_true, hf, hsome n (hmem _ n hfirst), ↓reduceIte]
  · intro hnf hnp hng
    unfold pickBestModel
    simp only [modelNames_eq, testI_flash, testI_pro, testI_gemini,
      find_none_of_all_false _ _ hnf, find_none_of_all_false _ _ hnp,
      find_none_of_all_false _ _ hng, hnone, Bool.false_eq_true, ↓reduceIte]
  · intro word hex
    obtain ⟨n, _, hfirst, _⟩ := find_first_with _ _ hne hex
    exact ⟨n, hfirst⟩
  · intro n hpick
    have hmem : n ∈ modelNames models := by
      unfold pickBestModel at hpick
      simp only at hpick
      split at hpick
      · exact List.mem_of_find?_eq_some hpick
      · split at hpick
        · exact List.mem_of_find?_eq_some hpick
        · split at hpick
          · exact List.mem_of_find?_eq_some hpick
          · cases hpick
    rw [modelNames_eq] at hmem
    refine ⟨hmem, ?_⟩
    unfold discoveredNames at hmem
    obtain ⟨m, hm, hmn⟩ := List.mem_filterMap.1 hmem
    cases hname : m.name with
    | none => rw [hname] at hmn; cases hmn
    | some raw =>
      rw [hname] at hmn
      simp only at hmn
      split at hmn
      · cases hmn
      · exact ⟨m, hm, raw, hname, (Option.some.inj hmn).symm⟩

/-- C20 on a listing with a `pro` model before two `flash` models: the first
`flash` one, written with capitals, is picked, without its `models/`. -/
theorem C20_pick_best_model_witness :
    pickBestModel [⟨some "models/text-bison"⟩, ⟨some "models/gemini-1.5-pro"⟩,
        ⟨some "models/Gemini-FLASH-x"⟩, ⟨some "gemini-1.5-flash"⟩] = some "Gemini-FLASH-x" ∧
    pickBestModel [⟨some "models/text-bison"⟩, ⟨none⟩, ⟨some "models/"⟩,
        ⟨some "models/gemini-PRO"⟩, ⟨some "gemini-1.0"⟩] = some "gemini-PRO" :=
  ⟨(C20_pick_best_model [⟨some "models/text-bison"⟩, ⟨some "models/gemini-1.5-pro"⟩,
      ⟨some "models/Gemini-FLASH-x"⟩, ⟨some "gemini-1.5-flash"⟩]).1 "Gemini-FLASH-x"
      ⟨["text-bison", "gemini-1.5-pro"], ["gemini-1.5-flash"], rfl, by decide, by decide⟩,
   (C20_pick_best_model [⟨some "models/text-bison"⟩, ⟨none⟩, ⟨some "models/"⟩,
      ⟨some "models/gemini-PRO"⟩, ⟨some "gemini-1.0"⟩]).2.1 (by decide) "gemini-PRO"
      ⟨["text-bison"], ["gemini-1.0"], rfl, by decide, by decide⟩⟩

/-! ### C6: the roster is exhausted -/

theorem includes_chars (s m : String) (h : includes s m = true) :
    ∀ c ∈ m.toList, c ∈ s.toList := by
  rw [includes_iff] at h
  exact fun c hc => h.subset hc

/-- C6, as stated, fails: discovery lists the one model `Gemini`, which
`pickBestModel` picks; with it cached the roster is `Gemini` followed by the
static candidates; no candidate is usable; both sessions fail with the
generic error, and its text contains the candidate identifier `Gemini`. -/
theorem C6_counterexample :
    pickBestModel [⟨some "models/Gemini"⟩] = some "Gemini" ∧
    getModelFallbackList { cachedModel := some "Gemini" } = "Gemini" :: FALLBACK_MODELS ∧
    (streamChatInternal envNoModel (some "key") ("Gemini" :: FALLBACK_MODELS) helloArgs 0).1
      = [] ∧
    (streamChatInternal envNoModel (some "key") ("Gemini" :: FALLBACK_MODELS) helloArgs 0).2.1
      = .error friendlyGeminiError ∧
    (chatWithToolsInternal envNoModel (some "key") ("Gemini" :: FALLBACK_MODELS) helloArgs 0).1
      = .error friendlyGeminiError ∧
    includes friendlyGeminiError.message "Gemini" = true :=
  ⟨by decide, by decide, rfl, rfl, rfl, by decide⟩

/-- C6, amended: for every roster, if the backend call of every candidate
fails with a model-unusable error, the streaming session yields no event and
fails with `friendlyGeminiError()`, and so does the tool-calling session; that
error is one fixed text, the same for every roster and every underlying
error.  The text contains no message of a model-unusable error, none of the
static candidate identifiers, and no identifier that has a digit, a hyphen,
an underscore, a slash or a colon; it does contain an identifier that is a
piece of the fixed text itself. -/
theorem C6_roster_exhausted {σ : Type} (env : Env σ) (apiKey : String) (args : Args)
    (roster : List String) (hkey : apiKey ≠ "") :
    (∀ (s s' : σ) (acts : List Act), StreamCallsFail env args roster s s' acts →
      streamChatInternal env (some apiKey) roster args s
        = ([], .error friendlyGeminiError, s', acts)) ∧
    (∀ (s s' : σ) (acts : List Act), ToolsAttemptsFail env args roster s s' acts →
      chatWithToolsInternal env (some apiKey) roster args s
        = (.error friendlyGeminiError, s', acts)) ∧
    friendlyGeminiError.message =
      "Gemini is not available right now. No supported model could be reached. Please try again later." ∧
    (∀ m ∈ FALLBACK_MODELS, includes friendlyGeminiError.message m = false) ∧
    (∀ m : String,
      m.toList.any (fun c => c.isDigit || c == '-' || c == '_' || c == '/' || c == ':') = true →
      includes friendlyGeminiError.message m = false) ∧
    (∀ m : String, includes friendlyGeminiError.message m = true ↔
      m.toList <:+: friendlyGeminiError.message.toList) ∧
    (∀ e : Err, is404OrNotSupported e = true →
      includes friendlyGeminiError.message e.message = false) := by
  have hk : (!truthyStr (some apiKey)) = false := by simp [truthyStr, hkey]
  refine ⟨?_, ?_, rfl, by decide, ?_, fun m => includes_iff _ m, friendly_excludes_unusable⟩
  · intro s s' acts hfail
    have h := streamModels_skip env args roster [] s s' acts hfail
    rw [List.append_nil] at h
    unfold streamChatInternal
    rw [hk]
    simp only [Bool.false_eq_true, ↓reduceIte]
    rw [h]
    simp [streamModels]
  · intro s s' acts hfail
    have h := chatWithToolsModels_skip env args roster [] s s' acts hfail
    rw [List.append_nil] at h
    unfold chatWithToolsInternal
    rw [hk]
    simp only [Bool.false_eq_true, ↓reduceIte]
    rw [h]
    simp [chatWithToolsModels]
  · intro m hm
    cases hinc : includes friendlyGeminiError.message m with
    | false => rfl
    | true =>
      exfalso
      obtain ⟨c, hc, hbad⟩ := List.any_eq_true.1 hm
      have hin := includes_chars _ _ hinc c hc
      have hall : friendlyGeminiError.message.toList.all
          (fun c => !(c.isDigit || c == '-' || c == '_' || c == '/' || c == ':')) = true := by
        decide
      have := List.all_eq_true.1 hall c hin
      rw [hbad] at this
      cases this

/-- C6 on a roster of three unusable candidates: no event, and the one
generic error, for both sessions. -/
theorem C6_roster_exhausted_witness :
    (streamChatInternal envFallback (some "key") ["bad-1", "bad-2", "bad-3"] helloArgs 0).1 = [] ∧
    (streamChatInternal envFallback (some "key") ["bad-1", "bad-2", "bad-3"] helloArgs 0).2.1
      = .error friendlyGeminiError ∧
    (chatWithToolsInternal envFallback (some "key") ["bad-1", "bad-2", "bad-3"] helloArgs 0).1
      = .error friendlyGeminiError ∧
    includes friendlyGeminiError.message "bad-1" = false :=
  ⟨congrArg (fun x => x.1)
      ((C6_roster_exhausted envFallback "key" helloArgs ["bad-1", "bad-2", "bad-3"]
        (by decide)).1 0 3 _
        ⟨⟨"404 model not found"⟩, 1, _, _, rfl, by decide,
          ⟨⟨"404 model not found"⟩, 2, _, _, rfl, by decide,
            ⟨⟨"404 model not found"⟩, 3, _, _, rfl, by decide, ⟨rfl, rfl⟩, rfl⟩, rfl⟩, rfl⟩),
   congrArg (fun x => x.2.1)
      ((C6_roster_exhausted envFallback "key" helloArgs ["bad-1", "bad-2", "bad-3"]
        (by decide)).1 0 3 _
        ⟨⟨"404 model not found"⟩, 1, _, _, rfl, by decide,
          ⟨⟨"404 model not found"⟩, 2, _, _, rfl, by decide,
            ⟨⟨"404 model not found"⟩, 3, _, _, rfl, by decide, ⟨rfl, rfl⟩, rfl⟩, rfl⟩, rfl⟩),
   congrArg (fun x => x.1)
      ((C6_roster_exhausted envFallback "key" helloArgs ["bad-1", "bad-2", "bad-3"]
        (by decide)).2.1 0 3 _
        ⟨⟨"404 model not found"⟩, 1, _, _, rfl, by decide,
          ⟨⟨"404 model not found"⟩, 2, _, _, rfl, by decide,
            ⟨⟨"404 model not found"⟩, 3, _, _, rfl, by decide, ⟨rfl, rfl⟩, rfl⟩, rfl⟩, rfl⟩),
   (C6_roster_exhausted envFallback "key" helloArgs ["bad-1", "bad-2", "bad-3"]
        (by decide)).2.2.2.2.1 "bad-1" (by decide)⟩

/-! ### C21: unknown tools -/

theorem objectKeys_ok (first : JVal) (h : first ≠ JVal.null) :
    ∃ keys, objectKeys first = .ok keys := by
  cases first with
  | null => exact absurd rfl h
  | bool b => exact ⟨_, rfl⟩
  | num n => exact ⟨_, rfl⟩
  | str t => exact ⟨_, rfl⟩
  | arr items => exact ⟨_, rfl⟩
  | obj fields => exact ⟨_, rfl⟩

/-- C21, as stated, fails for csvToolsServer.js: for the array `[null]` and
the unregistered name `lookup`, `executeTool` throws a TypeError, from
`Object.keys(rows[0])` before the `switch`. -/
theorem C21_counterexample :
    "lookup" ∉ CSV_TOOLS ∧
    csvExecuteTool (fun _ (_ : Unit) _ _ => .ok []) "lookup" () [JVal.null] =
      .error ⟨"Cannot convert undefined or null to object"⟩ :=
  ⟨by decide, rfl⟩

/-- C21, amended: for a tool name that is not registered, every arguments
value and every context data, `executeTool` of youtubeTools.js returns,
without throwing and without touching the world, the result `error: "Unknown
tool: <name>"` with that one field; `executeTool` of csvToolsServer.js does so
for every array of rows that is empty or whose first element is not `null`,
and for an array whose first element is `null` it throws a TypeError,
whatever the tool name. -/
theorem C21_unknown_tool {σ Num A : Type} (js : Js Num)
    (sortByDate : Bool → List (PlotPoint Num) → List (PlotPoint Num))
    (api : ImageApi σ) (openaiKey : Option String)
    (registered : String → A → List JVal → List String → Except Err ToolResult)
    (toolName : String) :
    (toolName ∉ YOUTUBE_TOOLS →
      ∀ (args : ToolArgs) (channelData : Option (List Record)) (s : σ),
        executeTool js sortByDate api openaiKey toolName args channelData s =
          (.ok [("error", JVal.str ("Unknown tool: " ++ toolName))], s)) ∧
    (toolName ∉ CSV_TOOLS →
      ∀ (args : A) (rows : List JVal), rows.head? ≠ some JVal.null →
        csvExecuteTool registered toolName args rows =
          .ok [("error", JVal.str ("Unknown tool: " ++ toolName))]) ∧
    (∀ (args : A) (rest : List JVal),
      csvExecuteTool registered toolName args (JVal.null :: rest) =
        .error ⟨"Cannot convert undefined or null to object"⟩) := by
  refine ⟨?_, ?_, ?_⟩
  · intro h args channelData s
    simp only [YOUTUBE_TOOLS, List.mem_cons, List.mem_singleton, List.not_mem_nil, or_false,
      not_or] at h
    obtain ⟨h1, h2, h3, h4⟩ := h
    simp [executeTool, h1, h2, h3, h4]
  · intro h args rows hrows
    have hc : CSV_TOOLS.contains toolName = false := by
      simpa using h
    cases rows with
    | nil => simp only [csvExecuteTool, hc, Bool.false_eq_true, ↓reduceIte]
    | cons first rest =>
      have hfirst : first ≠ JVal.null := by
        intro hnull
        apply hrows
        rw [hnull]
        rfl
      obtain ⟨keys, hkeys⟩ := objectKeys_ok first hfirst
      simp only [csvExecuteTool, hkeys, hc, Bool.false_eq_true, ↓reduceIte]
  · intro args rest
    rfl

/-- C21 on the tool name `lookup`, which neither module registers, with the
two sample videos as context data. -/
theorem C21_unknown_tool_witness :
    (executeTool asciiJs (fun _ l => l) noImageApi none "lookup" {} (some sampleVideos) 0 =
      (.ok [("error", JVal.str "Unknown tool: lookup")], 0)) ∧
    (csvExecuteTool (fun _ (_ : Unit) _ _ => .error ⟨"not reached"⟩) "lookup" ()
        (sampleVideos.map JVal.obj) =
      .ok [("error", JVal.str "Unknown tool: lookup")]) :=
  have h := C21_unknown_tool asciiJs (fun _ l => l) noImageApi none
    (fun _ (_ : Unit) _ _ => .error ⟨"not reached"⟩) "lookup"
  ⟨h.1 (by decide) {} (some sampleVideos) 0,
   h.2.1 (by decide) () (sampleVideos.map JVal.obj) (by simp [sampleVideos])⟩


/-! ### C22, C24, C29: the results of the tools -/

theorem getField_eq_none_of_not_mem (r : ToolResult) (k : String) (h : k ∉ keysOf r) :
    getField r k = none := by
  unfold getField
  have : r.find? (fun kv => kv.1 == k) = none := by
    rw [List.find?_eq_none]
    intro kv hkv hk
    apply h
    have hk' : kv.1 = k := by simpa using hk
    rw [← hk']
    exact List.mem_map_of_mem _ hkv
  rw [this]
  rfl

theorem keysOf_append (a b : ToolResult) : keysOf (a ++ b) = keysOf a ++ keysOf b := by
  simp [keysOf]

theorem mem_keysOf_optField (k x : String) (o : Option JVal) (h : x ∈ keysOf (optField k o)) :
    x = k := by
  cases o with
  | none => simp [optField, keysOf] at h
  | some v => simpa [optField, keysOf] using h

theorem videoResult_marker {Num : Type} (js : Js Num) (v : Record) :
    getField (videoResult js v) "_toolType" = some (JVal.str "video") := by
  simp [videoResult, getField]

theorem videoResult_no_error {Num : Type} (js : Js Num) (v : Record) :
    getField (videoResult js v) "error" = none := by
  apply getField_eq_none_of_not_mem
  intro h
  simp only [videoResult, keysOf_append, List.mem_append] at h
  rcases h with ((((h | h) | h) | h) | h) | h
  · simp [keysOf] at h
  · have := mem_keysOf_optField _ _ _ h; simp at this
  · simp [keysOf] at h
  · have := mem_keysOf_optField _ _ _ h; simp at this
  · have := mem_keysOf_optField _ _ _ h; simp at this
  · have := mem_keysOf_optField _ _ _ h; simp at this

theorem videoResult_title {Num : Type} (js : Js Num) (v : Record) :
    getField (videoResult js v) "title" = getField v "title" := by
  cases h : getField v "title" with
  | none =>
    apply getField_eq_none_of_not_mem
    intro hm
    simp only [videoResult, h, optField, List.append_nil, keysOf_append, List.mem_append] at hm
    rcases hm with (((hm | hm) | hm) | hm) | hm
    · simp [keysOf] at hm
    · simp [keysOf] at hm
    · have := mem_keysOf_optField _ _ _ hm; simp at this
    · have := mem_keysOf_optField _ _ _ hm; simp at this
    · have := mem_keysOf_optField _ _ _ hm; simp at this
  | some t =>
    simp only [videoResult, h, optField]
    rfl

theorem chartResult_shape (metric : Option JVal) (data : List JVal) :
    getField ([("_toolType", JVal.str "chart"), ("chartType", JVal.str "metric_vs_time")] ++
      optField "metric" metric ++ [("data", JVal.arr data)]) "_toolType"
        = some (JVal.str "chart") ∧
    getField ([("_toolType", JVal.str "chart"), ("chartType", JVal.str "metric_vs_time")] ++
      optField "metric" metric ++ [("data", JVal.arr data)]) "error" = none := by
  constructor
  · simp [getField]
  · apply getField_eq_none_of_not_mem
    intro h
    simp only [keysOf_append, List.mem_append] at h
    rcases h with (h | h) | h
    · simp [keysOf] at h
    · have := mem_keysOf_optField _ _ _ h; simp at this
    · simp [keysOf] at h

theorem plot_marker {Num : Type} (js : Js Num)
    (sortByDate : Bool → List (PlotPoint Num) → List (PlotPoint Num))
    (args : ToolArgs) (videos : List Record) (r : ToolResult)
    (h : plotMetricVsTime js sortByDate args videos = .ok r) :
    getField r "_toolType" = some (JVal.str "chart") ∧ getField r "error" = none := by
  unfold plotMetricVsTime at h
  simp only at h
  split at h
  · cases h
  · split at h
    · cases h
    · cases h
      exact chartResult_shape _ _

theorem stats_shape {Num : Type} (js : Js Num) (args : ToolArgs) (videos : List Record) :
    ExactlyOne (computeStatsJson js args videos) ["stats", "chart", "video"] := by
  unfold computeStatsJson
  simp only
  split
  · left
    exact ⟨by simp [getField], by simp [getField]⟩
  · right
    refine ⟨?_, "stats", by simp, by simp [getField]⟩
    apply getField_eq_none_of_not_mem
    intro h
    simp only [keysOf_append, List.mem_append] at h
    rcases h with (h | h) | h
    · simp [keysOf] at h
    · have := mem_keysOf_optField _ _ _ h; simp at this
    · simp [keysOf] at h

theorem errorResult_shape (msg : String) (markers : List String) :
    ExactlyOne [("error", JVal.str msg)] markers :=
  Or.inl ⟨by simp [getField], by simp [getField]⟩

theorem videoResult_shape {Num : Type} (js : Js Num) (v : Record) :
    ExactlyOne (videoResult js v) ["stats", "chart", "video"] :=
  Or.inr ⟨videoResult_no_error js v, "video", by simp, videoResult_marker js v⟩

theorem ordinalResult_shape {Num : Type} (js : Js Num) (q : String) (videos : List Record) :
    ∀ (words : List (String × Int)) (r : ToolResult),
      ordinalResult js q videos words = some r → ExactlyOne r ["stats", "chart", "video"] := by
  intro words
  induction words with
  | nil => intro r h; simp [ordinalResult] at h
  | cons w rest ih =>
    intro r h
    rcases w with ⟨word, idx⟩
    unfold ordinalResult at h
    split at h
    · simp only at h
      repeat' split at h
      all_goals
        cases h
        first
          | exact videoResult_shape js _
          | exact errorResult_shape _ _
    · exact ih r h

theorem ordinalResult_none {Num : Type} (js : Js Num) (q : String) (videos : List Record) :
    ∀ words : List (String × Int), words.any (fun w => includes q w.1) = false →
      ordinalResult js q videos words = none := by
  intro words
  induction words with
  | nil => intro _; rfl
  | cons w rest ih =>
    intro h
    rcases w with ⟨word, idx⟩
    simp only [List.any_cons, Bool.or_eq_false_iff] at h
    unfold ordinalResult
    simp only [h.1, Bool.false_eq_true, ↓reduceIte]
    exact ih h.2

theorem playVideo_shape {Num : Type} (js : Js Num) (args : ToolArgs) (videos : List Record)
    (r : ToolResult) (h : playVideo js args videos = .ok r) :
    ExactlyOne r ["stats", "chart", "video"] := by
  unfold playVideo at h
  split at h
  · cases h
    exact errorResult_shape _ _
  · simp only at h
    split at h
    · split at h
      · cases h
        exact videoResult_shape js _
      · cases h
        exact videoResult_shape js _
    · split at h
      · split at h
        · cases h
          exact videoResult_shape js _
        · cases h
          exact videoResult_shape js _
      · split at h
        · rename_i r0 hr
          cases h
          exact ordinalResult_shape js _ videos ORDINALS _ hr
        · split at h
          · cases h
          · cases h
            exact videoResult_shape js _
          · split at h
            · cases h
            · cases h
              exact videoResult_shape js _
            · cases h
              exact errorResult_shape _ _

theorem findExcept_none {α : Type} (p : α → Except Err Bool) :
    ∀ l : List α, (∀ a ∈ l, p a = .ok false) → findExcept p l = .ok none := by
  intro l
  induction l with
  | nil => intro _; rfl
  | cons a rest ih =>
    intro h
    unfold findExcept
    rw [h a (List.mem_cons_self _ _)]
    exact ih (fun x hx => h x (List.mem_cons_of_mem _ hx))

theorem findExcept_first {α : Type} (p : α → Except Err Bool) (a : α) (after : List α) :
    ∀ before : List α, (∀ x ∈ before, p x = .ok false) → p a = .ok true →
      findExcept p (before ++ a :: after) = .ok (some a) := by
  intro before
  induction before with
  | nil =>
    intro _ ha
    show findExcept p (a :: after) = _
    unfold findExcept
    rw [ha]
  | cons b rest ih =>
    intro h ha
    show findExcept p (b :: (rest ++ a :: after)) = _
    unfold findExcept
    rw [h b (List.mem_cons_self _ _)]
    exact ih (fun x hx => h x (List.mem_cons_of_mem _ hx)) ha

theorem findExcept_throws {α : Type} (p : α → Except Err Bool) (a : α) (after : List α)
    (e : Err) :
    ∀ before : List α, (∀ x ∈ before, p x = .ok false) → p a = .error e →
      findExcept p (before ++ a :: after) = .error e := by
  intro before
  induction before with
  | nil =>
    intro _ ha
    show findExcept p (a :: after) = _
    unfold findExcept
    rw [ha]
  | cons b rest ih =>
    intro h ha
    show findExcept p (b :: (rest ++ a :: after)) = _
    unfold findExcept
    rw [h b (List.mem_cons_self _ _)]
    exact ih (fun x hx => h x (List.mem_cons_of_mem _ hx)) ha

/-- In a list whose elements all have a verdict, one of which is `true`, the
first element with the verdict `true` is found. -/
theorem split_at_first {α : Type} (p : α → Except Err Bool) :
    ∀ l : List α, (∀ x ∈ l, ∃ b, p x = .ok b) → (∃ x ∈ l, p x = .ok true) →
      ∃ before a after, l = before ++ a :: after ∧ (∀ x ∈ before, p x = .ok false) ∧
        p a = .ok true := by
  intro l
  induction l with
  | nil => rintro _ ⟨x, hx, _⟩; simp at hx
  | cons b rest ih =>
    intro hall hex
    obtain ⟨vb, hvb⟩ := hall b (List.mem_cons_self _ _)
    cases vb with
    | true => exact ⟨[], b, rest, rfl, by simp, hvb⟩
    | false =>
      have hex2 : ∃ x ∈ rest, p x = .ok true := by
        obtain ⟨x, hx, hpx⟩ := hex
        rcases List.mem_cons.1 hx with h | h
        · rw [h, hvb] at hpx
          cases hpx
        · exact ⟨x, h, hpx⟩
      obtain ⟨before, a, after, hsplit, hbefore, ha⟩ :=
        ih (fun x hx => hall x (List.mem_cons_of_mem _ hx)) hex2
      refine ⟨b :: before, a, after, by rw [hsplit]; rfl, ?_, ha⟩
      intro x hx
      rcases List.mem_cons.1 hx with h | h
      · rw [h]; exact hvb
      · exact hbefore x h

theorem query_expr (args : ToolArgs) :
    (match args.query with
      | some x => if x != "" then x else ""
      | none => "") = args.query.getD "" := by
  cases h : args.query with
  | none => rfl
  | some x =>
    by_cases hx : x = ""
    · simp [hx]
    · simp [hx]

theorem hasKeyword_false (q : String) (h : hasKeyword q = false) :
    (includes q "most viewed" || includes q "most popular" || includes q "top viewed") = false ∧
    includes q "least viewed" = false ∧
    ORDINALS.any (fun w => includes q w.1) = false := by
  unfold hasKeyword at h
  simp only [Bool.or_eq_false_iff] at h ⊢
  obtain ⟨⟨⟨⟨h1, h2⟩, h3⟩, h4⟩, h5⟩ := h
  exact ⟨⟨⟨h1, h2⟩, h3⟩, h4, h5⟩

/-- Without a most/least-viewed phrase or an ordinal word in the query,
playVideo goes on to the two searches by title, and its outcome is theirs. -/
theorem playVideo_no_keyword {Num : Type} (js : Js Num) (args : ToolArgs) (videos : List Record)
    (hne : videos ≠ []) (hkw : hasKeyword (queryOf js args) = false) :
    (∀ v, findExcept (titleIncludes js (queryOf js args)) videos = .ok (some v) →
      playVideo js args videos = .ok (videoResult js v)) ∧
    (∀ e, findExcept (titleIncludes js (queryOf js args)) videos = .error e →
      playVideo js args videos = .error e) ∧
    (findExcept (titleIncludes js (queryOf js args)) videos = .ok none →
      ∀ v, findExcept (titleHasWord js (longWords (queryOf js args))) videos = .ok (some v) →
        playVideo js args videos = .ok (videoResult js v)) ∧
    (findExcept (titleIncludes js (queryOf js args)) videos = .ok none →
      ∀ e, findExcept (titleHasWord js (longWords (queryOf js args))) videos = .error e →
        playVideo js args videos = .error e) ∧
    (findExcept (titleIncludes js (queryOf js args)) videos = .ok none →
      findExcept (titleHasWord js (longWords (queryOf js args))) videos = .ok none →
      playVideo js args videos =
        .ok [("error", JVal.str ("No video matching \"" ++ fieldName args.query ++
          "\" found in loaded data."))]) := by
  obtain ⟨h1, h2, h3⟩ := hasKeyword_false _ hkw
  have hemp : videos.isEmpty = false := by
    cases videos with
    | nil => exact absurd rfl hne
    | cons v rest => rfl
  have hq : ∀ x : String, (if (x != "") = true then x else "") = x := by
    intro x
    by_cases hx : x = ""
    · simp [hx]
    · simp [hx]
  obtain ⟨fld, met, srt, vl, query, pr, ad⟩ := args
  cases query with
  | none =>
    simp only [queryOf, Option.getD] at h1 h2 h3 ⊢
    have hord := ordinalResult_none js _ videos ORDINALS h3
    refine ⟨?_, ?_, ?_, ?_, ?_⟩
    · intro v hf
      unfold playVideo
      simp only [hemp, h1, h2, hord, hf, Bool.false_eq_true, ↓reduceIte]
    · intro e hf
      unfold playVideo
      simp only [hemp, h1, h2, hord, hf, Bool.false_eq_true, ↓reduceIte]
    · intro hf v hf2
      unfold playVideo
      simp only [hemp, h1, h2, hord, hf, hf2, Bool.false_eq_true, ↓reduceIte]
    · intro hf e hf2
      unfold playVideo
      simp only [hemp, h1, h2, hord, hf, hf2, Bool.false_eq_true, ↓reduceIte]
    · intro hf hf2
      unfold playVideo
      simp only [hemp, h1, h2, hord, hf, hf2, Bool.false_eq_true, ↓reduceIte]
  | some x =>
    simp only [queryOf, Option.getD] at h1 h2 h3 ⊢
    have hord := ordinalResult_none js _ videos ORDINALS h3
    refine ⟨?_, ?_, ?_, ?_, ?_⟩
    · intro v hf
      unfold playVideo
      simp only [hq, hemp, h1, h2, hord, hf, Bool.false_eq_true, ↓reduceIte]
    · intro e hf
      unfold playVideo
      simp only [hq, hemp, h1, h2, hord, hf, Bool.false_eq_true, ↓reduceIte]
    · intro hf v hf2
      unfold playVideo
      simp only [hq, hemp, h1, h2, hord, hf, hf2, Bool.false_eq_true, ↓reduceIte]
    · intro hf e hf2
      unfold playVideo
      simp only [hq, hemp, h1, h2, hord, hf, hf2, Bool.false_eq_true, ↓reduceIte]
    · intro hf hf2
      unfold playVideo
      simp only [hq, hemp, h1, h2, hord, hf, hf2, Bool.false_eq_true, ↓reduceIte]

theorem titleIncludes_of_lowerTitle {Num : Type} (js : Js Num) (q : String) (v : Record)
    (t : String) (h : lowerTitle js v = .ok t) :
    titleIncludes js q v = .ok (includes t q) := by
  unfold titleIncludes
  rw [h]

theorem titleHasWord_of_lowerTitle {Num : Type} (js : Js Num) (words : List String)
    (v : Record) (t : String) (h : lowerTitle js v = .ok t) :
    titleHasWord js words v = .ok (words.any (fun w => includes t w)) := by
  unfold titleHasWord
  rw [h]

theorem titleIncludes_throws {Num : Type} (js : Js Num) (q : String) (v : Record)
    (e : Err) (h : lowerTitle js v = .error e) : titleIncludes js q v = .error e := by
  unfold titleIncludes
  rw [h]

/-! ### C24: play_video by partial title -/

/-- C24, as stated, fails: with the two sample videos loaded, the query
"last" is a substring of the title "The last dance", but `last` is an ordinal
word and play_video returns the last video, "Intro to Lean", whose title does
not contain the query.  It also fails on a title that is not a string: with
the videos `title: 5` and `title: "Intro to Lean"` the query "lean" is in the
second title, and play_video throws a TypeError on the first. -/
theorem C24_counterexample :
    sampleVideos ≠ [] ∧
    (∃ v ∈ sampleVideos, getField v "title" = some (JVal.str "The last dance") ∧
      lowerTitle asciiJs v = .ok "the last dance" ∧
      includes "the last dance" (queryOf asciiJs { query := some "last" }) = true) ∧
    (∃ r, playVideo asciiJs { query := some "last" } sampleVideos = .ok r ∧
      getField r "title" = some (JVal.str "Intro to Lean")) ∧
    includes (asciiJs.toLowerCase "Intro to Lean") (queryOf asciiJs { query := some "last" })
      = false ∧
    playVideo asciiJs { query := some "lean" }
        [[("title", JVal.num 5)], [("title", JVal.str "Intro to Lean")]] =
      .error ⟨"(v.title || \"\").toLowerCase is not a function"⟩ :=
  ⟨by simp [sampleVideos], ⟨_, List.mem_cons_self _ _, rfl, rfl, by decide⟩,
    ⟨_, rfl, rfl⟩, by decide, rfl⟩

/-- C24, amended: let `q` be the lower-cased and trimmed query, holding no
most/least-viewed phrase and no ordinal word.  If the loaded videos are
`before ++ v :: after`, every video of `before` has a title that is a string
(or is falsy or missing, read as the empty text) whose lower-cased form does
not contain `q`, and the lower-cased title of `v` contains `q`, then
play_video returns the video result of `v`: marker `video`, no `error` field,
the title of `v`.  In particular, when every loaded video has such a title
and one of them contains `q`, play_video returns the video result of a video
whose lower-cased title contains `q`.  When instead the first video that is
not passed over has a truthy title that is not a string, play_video throws.
For a title that is a string, the lower-cased title is `toLowerCase` of it. -/
theorem C24_title_match {Num : Type} (js : Js Num) (args : ToolArgs) (videos : List Record)
    (hkw : hasKeyword (queryOf js args) = false) :
    (∀ (before : List Record) (v : Record) (after : List Record) (t : String),
      videos = before ++ v :: after →
      (∀ x ∈ before, ∃ tx, lowerTitle js x = .ok tx ∧ includes tx (queryOf js args) = false) →
      lowerTitle js v = .ok t → includes t (queryOf js args) = true →
      playVideo js args videos = .ok (videoResult js v) ∧
      getField (videoResult js v) "_toolType" = some (JVal.str "video") ∧
      getField (videoResult js v) "error" = none ∧
      getField (videoResult js v) "title" = getField v "title") ∧
    ((∀ v ∈ videos, ∃ t, lowerTitle js v = .ok t) →
      (∃ v ∈ videos, ∃ t, lowerTitle js v = .ok t ∧ includes t (queryOf js args) = true) →
      ∃ v ∈ videos, ∃ t, lowerTitle js v = .ok t ∧ includes t (queryOf js args) = true ∧
        playVideo js args videos = .ok (videoResult js v)) ∧
    (∀ (before : List Record) (v : Record) (after : List Record) (e : Err),
      videos = before ++ v :: after →
      (∀ x ∈ before, ∃ tx, lowerTitle js x = .ok tx ∧ includes tx (queryOf js args) = false) →
      lowerTitle js v = .error e →
      playVideo js args videos = .error e) ∧
    (∀ (v : Record) (t : String), getField v "title" = some (JVal.str t) →
      lowerTitle js v = .ok (js.toLowerCase t)) := by
  have hbefore : ∀ before : List Record,
      (∀ x ∈ before, ∃ tx, lowerTitle js x = .ok tx ∧ includes tx (queryOf js args) = false) →
      ∀ x ∈ before, titleIncludes js (queryOf js args) x = .ok false := by
    intro before h x hx
    obtain ⟨tx, htx, hinc⟩ := h x hx
    rw [titleIncludes_of_lowerTitle js _ x tx htx, hinc]
  have hfirst : ∀ (before : List Record) (v : Record) (after : List Record) (t : String),
      videos = before ++ v :: after →
      (∀ x ∈ before, ∃ tx, lowerTitle js x = .ok tx ∧ includes tx (queryOf js args) = false) →
      lowerTitle js v = .ok t → includes t (queryOf js args) = true →
      playVideo js args videos = .ok (videoResult js v) := by
    intro before v after t hsplit hb hv hinc
    have hne : videos ≠ [] := by
      rw [hsplit]
      simp
    apply (playVideo_no_keyword js args videos hne hkw).1 v
    rw [hsplit]
    apply findExcept_first _ _ _ _ (hbefore before hb)
    rw [titleIncludes_of_lowerTitle js _ v t hv, hinc]
  refine ⟨?_, ?_, ?_, ?_⟩
  · intro before v after t hsplit hb hv hinc
    exact ⟨hfirst before v after t hsplit hb hv hinc, videoResult_marker js v,
      videoResult_no_error js v, videoResult_title js v⟩
  · intro hall hex
    have hall2 : ∀ x ∈ videos, ∃ b, titleIncludes js (queryOf js args) x = .ok b := by
      intro x hx
      obtain ⟨t, ht⟩ := hall x hx
      exact ⟨_, titleIncludes_of_lowerTitle js _ x t ht⟩
    have hex2 : ∃ x ∈ videos, titleIncludes js (queryOf js args) x = .ok true := by
      obtain ⟨v, hv, t, ht, hinc⟩ := hex
      refine ⟨v, hv, ?_⟩
      rw [titleIncludes_of_lowerTitle js _ v t ht, hinc]
    obtain ⟨before, v, after, hsplit, hb, hv⟩ := split_at_first _ videos hall2 hex2
    have hvmem : v ∈ videos := by
      rw [hsplit]
      simp
    obtain ⟨t, ht⟩ := hall v hvmem
    have hinc : includes t (queryOf js args) = true := by
      rw [titleIncludes_of_lowerTitle js _ v t ht] at hv
      exact Except.ok.inj hv
    refine ⟨v, hvmem, t, ht, hinc, ?_⟩
    have hne : videos ≠ [] := by
      rw [hsplit]
      simp
    apply (playVideo_no_keyword js args videos hne hkw).1 v
    rw [hsplit]
    exact findExcept_first _ _ _ _ hb hv
  · intro before v after e hsplit hb hv
    have hne : videos ≠ [] := by
      rw [hsplit]
      simp
    apply (playVideo_no_keyword js args videos hne hkw).2.1 e
    rw [hsplit]
    exact findExcept_throws _ _ _ _ _ (hbefore before hb) (titleIncludes_throws js _ v e hv)
  · intro v t h
    unfold lowerTitle
    rw [h]

/-- C24 on the two sample videos: the query " LEAN " passes over "The last
dance" and finds "Intro to Lean". -/
theorem C24_title_match_witness :
    playVideo asciiJs { query := some " LEAN " } sampleVideos =
      .ok (videoResult asciiJs
        [("title", JVal.str "Intro to Lean"), ("view_count", JVal.num 99),
         ("release_date", JVal.str "2024-03-04T10:00:00Z")]) ∧
    getField (videoResult asciiJs
        [("title", JVal.str "Intro to Lean"), ("view_count", JVal.num 99),
         ("release_date", JVal.str "2024-03-04T10:00:00Z")]) "_toolType"
      = some (JVal.str "video") ∧
    getField (videoResult asciiJs
        [("title", JVal.str "Intro to Lean"), ("view_count", JVal.num 99),
         ("release_date", JVal.str "2024-03-04T10:00:00Z")]) "error" = none ∧
    getField (videoResult asciiJs
        [("title", JVal.str "Intro to Lean"), ("view_count", JVal.num 99),
         ("release_date", JVal.str "2024-03-04T10:00:00Z")]) "title"
      = some (JVal.str "Intro to Lean") :=
  (C24_title_match asciiJs { query := some " LEAN " } sampleVideos (by decide)).1
    [[("title", JVal.str "The last dance"), ("view_count", JVal.num 10),
      ("release_date", JVal.str "2024-01-02T10:00:00Z")]]
    [("title", JVal.str "Intro to Lean"), ("view_count", JVal.num 99),
      ("release_date", JVal.str "2024-03-04T10:00:00Z")]
    [] "intro to lean" rfl
    (fun x hx => ⟨"the last dance", by rw [List.mem_singleton.1 hx]; rfl, by decide⟩)
    rfl (by decide)

/-! ### C22: inputs that do not resolve -/

theorem joinWith_contains (sep : String) :
    ∀ (ks : List String) (k : String), k ∈ ks → k.toList <:+: (joinWith sep ks).toList := by
  intro ks
  induction ks with
  | nil => intro k hk; simp at hk
  | cons x rest ih =>
    intro k hk
    cases rest with
    | nil =>
      have hkx : k = x := by simpa using hk
      rw [hkx]
      exact List.infix_refl _
    | cons y more =>
      have hj : (joinWith sep (x :: y :: more)).toList =
          x.toList ++ (sep.toList ++ (joinWith sep (y :: more)).toList) := by
        simp [joinWith, String.toList, String.data_append]
      rw [hj]
      rcases List.mem_cons.1 hk with hkx | hkr
      · rw [hkx]
        exact (List.prefix_append _ _).isInfix
      · exact (ih k hkr).trans
          ((List.suffix_append _ _).isInfix.trans (List.suffix_append _ _).isInfix)

theorem includes_joinWith (pre sep : String) (ks : List String) (k : String) (hk : k ∈ ks) :
    includes (pre ++ joinWith sep ks) k = true := by
  rw [includes_iff]
  have hj : (pre ++ joinWith sep ks).toList = pre.toList ++ (joinWith sep ks).toList := by
    simp [String.toList, String.data_append]
  rw [hj]
  exact (joinWith_contains sep ks k hk).trans (List.suffix_append _ _).isInfix

theorem numericValues_nil {Num : Type} (js : Js Num) (videos : List Record)
    (field : Option String) (hnan : js.parseFloat none = none)
    (h : ∀ v ∈ videos, getField v (fieldName field) = none) :
    numericValues js videos field = [] := by
  unfold numericValues
  rw [List.filterMap_eq_nil_iff]
  intro v hv
  rw [h v hv]
  exact hnan

theorem computeStatsJson_no_values {Num : Type} (js : Js Num) (args : ToolArgs)
    (first : Record) (rest : List Record)
    (h : numericValues js (first :: rest) (resolveArg js (first :: rest) args.field) = []) :
    computeStatsJson js args (first :: rest) =
      [("error", JVal.str ("No numeric values for \"" ++
        fieldName (resolveArg js (first :: rest) args.field) ++
        "\". Available fields: " ++ joinWith ", " (keysOf first)))] ∧
    EnumeratesOptions (computeStatsJson js args (first :: rest)) (keysOf first) := by
  have heq : computeStatsJson js args (first :: rest) =
      [("error", JVal.str ("No numeric values for \"" ++
        fieldName (resolveArg js (first :: rest) args.field) ++
        "\". Available fields: " ++ joinWith ", " (keysOf first)))] := by
    unfold computeStatsJson
    simp only [h, List.isEmpty_nil, ↓reduceIte]
  refine ⟨heq, _, heq, ?_⟩
  intro o ho
  exact includes_joinWith _ _ _ _ ho

/-- What plot_metric_vs_time does with a metric that no loaded video has: it
returns a chart without data points, not an error. -/
theorem plotMetricVsTime_unresolved :
    plotMetricVsTime asciiJs (fun _ l => l) { metric := some "likes" } sampleVideos =
      .ok [("_toolType", JVal.str "chart"), ("chartType", JVal.str "metric_vs_time"),
       ("metric", JVal.str "likes"), ("data", JVal.arr [])] := by
  rfl

/-- C22, as stated, fails: with the two sample videos loaded, no title
contains "zzz" or one of its words, and play_video returns an error-shaped
result whose text repeats the query and does not name the available fields
(nor any title). -/
theorem C22_counterexample :
    sampleVideos ≠ [] ∧
    (∀ v ∈ sampleVideos, ∃ t, lowerTitle asciiJs v = .ok t ∧ includes t "zzz" = false) ∧
    playVideo asciiJs { query := some "zzz" } sampleVideos =
      .ok [("error", JVal.str "No video matching \"zzz\" found in loaded data.")] ∧
    ¬ EnumeratesOptions [("error", JVal.str "No video matching \"zzz\" found in loaded data.")]
        ["title", "view_count", "release_date"] ∧
    ¬ EnumeratesOptions [("error", JVal.str "No video matching \"zzz\" found in loaded data.")]
        ["The last dance", "Intro to Lean"] := by
  refine ⟨by simp [sampleVideos], ?_, rfl, ?_, ?_⟩
  · intro v hv
    rcases List.mem_cons.1 hv with h | h
    · rw [h]; exact ⟨_, rfl, by decide⟩
    · rw [List.mem_singleton.1 h]; exact ⟨_, rfl, by decide⟩
  · rintro ⟨msg, hmsg, hall⟩
    simp only [List.cons.injEq, Prod.mk.injEq, JVal.str.injEq, true_and, and_true] at hmsg
    have h := hall "title" (by simp)
    rw [← hmsg] at h
    exact absurd h (by decide)
  · rintro ⟨msg, hmsg, hall⟩
    simp only [List.cons.injEq, Prod.mk.injEq, JVal.str.injEq, true_and, and_true] at hmsg
    have h := hall "Intro to Lean" (by simp)
    rw [← hmsg] at h
    exact absurd h (by decide)

/-- C22, amended: for every non-empty loaded data set `first :: rest`:
compute_stats_json, when no loaded video gives a numeric value for the
resolved field (in particular when no video has the field), returns the
error-shaped result "No numeric values for "<resolved field>". Available
fields: <keys>", which names the field as `resolveField` resolved it and
every key of the first video; and play_video, when the lower-cased and
trimmed query holds no most/least-viewed phrase and no ordinal word, every
loaded video has a title that is a string (or falsy, or missing), and neither
the query nor one of its words of more than two characters is in a
lower-cased title, returns the error-shaped result "No video matching
"<query>" found in loaded data.", which repeats the query and lists no
option.  Both are returned, not thrown. -/
theorem C22_unresolved_inputs {Num : Type} (js : Js Num) (args : ToolArgs) (first : Record)
    (rest : List Record) :
    (numericValues js (first :: rest) (resolveArg js (first :: rest) args.field) = [] →
      computeStatsJson js args (first :: rest) =
        [("error", JVal.str ("No numeric values for \"" ++
          fieldName (resolveArg js (first :: rest) args.field) ++
          "\". Available fields: " ++ joinWith ", " (keysOf first)))] ∧
      EnumeratesOptions (computeStatsJson js args (first :: rest)) (keysOf first)) ∧
    (js.parseFloat none = none →
      (∀ v ∈ first :: rest,
        getField v (fieldName (resolveArg js (first :: rest) args.field)) = none) →
      computeStatsJson js args (first :: rest) =
        [("error", JVal.str ("No numeric values for \"" ++
          fieldName (resolveArg js (first :: rest) args.field) ++
          "\". Available fields: " ++ joinWith ", " (keysOf first)))] ∧
      EnumeratesOptions (computeStatsJson js args (first :: rest)) (keysOf first)) ∧
    (hasKeyword (queryOf js args) = false →
      (∀ v ∈ first :: rest, ∃ t, lowerTitle js v = .ok t ∧
        includes t (queryOf js args) = false ∧
        ∀ w ∈ longWords (queryOf js args), includes t w = false) →
      playVideo js args (first :: rest) =
        .ok [("error", JVal.str ("No video matching \"" ++ fieldName args.query ++
          "\" found in loaded data."))]) := by
  refine ⟨computeStatsJson_no_values js args first rest, ?_, ?_⟩
  · intro hnan hnone
    exact computeStatsJson_no_values js args first rest
      (numericValues_nil js _ _ hnan hnone)
  · intro hkw htitle
    have h1 : findExcept (titleIncludes js (queryOf js args)) (first :: rest) = .ok none := by
      apply findExcept_none
      intro v hv
      obtain ⟨t, ht, hinc, _⟩ := htitle v hv
      rw [titleIncludes_of_lowerTitle js _ v t ht, hinc]
    have h2 : findExcept (titleHasWord js (longWords (queryOf js args))) (first :: rest)
        = .ok none := by
      apply findExcept_none
      intro v hv
      obtain ⟨t, ht, _, hwords⟩ := htitle v hv
      rw [titleHasWord_of_lowerTitle js _ v t ht]
      have : (longWords (queryOf js args)).any (fun w => includes t w) = false := by
        rw [List.any_eq_false]
        intro w hw
        simp [hwords w hw]
      rw [this]
    exact (playVideo_no_keyword js args (first :: rest) (List.cons_ne_nil _ _) hkw).2.2.2.2
      h1 h2

/-- C22 on the two sample videos: no video has the requested field "likes",
and no title holds "zzz". -/
theorem C22_unresolved_inputs_witness :
    computeStatsJson asciiJs { field := some "likes", query := some "zzz" } sampleVideos =
      [("error", JVal.str
        "No numeric values for \"likes\". Available fields: title, view_count, release_date")] ∧
    EnumeratesOptions
      (computeStatsJson asciiJs { field := some "likes", query := some "zzz" } sampleVideos)
      ["title", "view_count", "release_date"] ∧
    playVideo asciiJs { field := some "likes", query := some "zzz" } sampleVideos =
      .ok [("error", JVal.str "No video matching \"zzz\" found in loaded data.")] :=
  ⟨((C22_unresolved_inputs asciiJs { field := some "likes", query := some "zzz" }
      [("title", JVal.str "The last dance"), ("view_count", JVal.num 10),
        ("release_date", JVal.str "2024-01-02T10:00:00Z")]
      [[("title", JVal.str "Intro to Lean"), ("view_count", JVal.num 99),
        ("release_date", JVal.str "2024-03-04T10:00:00Z")]]).1 rfl).1,
   (C22_unresolved_inputs asciiJs { field := some "likes", query := some "zzz" }
      [("title", JVal.str "The last dance"), ("view_count", JVal.num 10),
        ("release_date", JVal.str "2024-01-02T10:00:00Z")]
      [[("title", JVal.str "Intro to Lean"), ("view_count", JVal.num 99),
        ("release_date", JVal.str "2024-03-04T10:00:00Z")]]).2.1 rfl
      (fun v hv => by
        rcases List.mem_cons.1 hv with h | h
        · rw [h]; rfl
        · rw [List.mem_singleton.1 h]; rfl) |>.2,
   (C22_unresolved_inputs asciiJs { field := some "likes", query := some "zzz" }
      [("title", JVal.str "The last dance"), ("view_count", JVal.num 10),
        ("release_date", JVal.str "2024-01-02T10:00:00Z")]
      [[("title", JVal.str "Intro to Lean"), ("view_count", JVal.num 99),
        ("release_date", JVal.str "2024-03-04T10:00:00Z")]]).2.2 (by decide)
      (fun v hv => by
        rcases List.mem_cons.1 hv with h | h
        · rw [h]; exact ⟨"the last dance", rfl, by decide, by decide⟩
        · rw [List.mem_singleton.1 h]; exact ⟨"intro to lean", rfl, by decide, by decide⟩)⟩

/-! ### C29: a result has an error field or a marker, never both -/

theorem ExactlyOne_mono (r : ToolResult) (ms ms2 : List String) (hsub : ∀ m ∈ ms, m ∈ ms2)
    (h : ExactlyOne r ms) : ExactlyOne r ms2 := by
  rcases h with h | ⟨he, m, hm, hmark⟩
  · exact Or.inl h
  · exact Or.inr ⟨he, m, hsub m hm, hmark⟩

theorem plot_shape {Num : Type} (js : Js Num)
    (sortByDate : Bool → List (PlotPoint Num) → List (PlotPoint Num))
    (args : ToolArgs) (videos : List Record) (r : ToolResult)
    (h : plotMetricVsTime js sortByDate args videos = .ok r) :
    ExactlyOne r ["stats", "chart", "video"] :=
  Or.inr ⟨(plot_marker js sortByDate args videos r h).2, "chart", by simp,
    (plot_marker js sortByDate args videos r h).1⟩

theorem generateImageTool_shape {σ : Type} (api : ImageApi σ) (openaiKey : Option String)
    (args : ToolArgs) (s : σ) (r : ToolResult)
    (h : (generateImageTool api openaiKey args s).1 = .ok r) : ExactlyOne r ["image"] := by
  unfold generateImageTool at h
  split at h
  · cases h
    exact errorResult_shape _ _
  · simp only at h
    split at h
    · cases h
    · rename_i res s1 hres
      split at h
      · cases h
      · split at h
        · cases h
          exact errorResult_shape _ _
        · split at h
          · cases h
          · cases h
            right
            refine ⟨?_, "image", by simp, by simp [getField]⟩
            apply getField_eq_none_of_not_mem
            intro hm
            simp only [keysOf_append, List.mem_append] at hm
            rcases hm with (((hm | hm) | hm) | hm) | hm
            · simp [keysOf] at hm
            · have := mem_keysOf_optField _ _ _ hm; simp at this
            · simp [keysOf] at hm
            · have := mem_keysOf_optField _ _ _ hm; simp at this
            · have := mem_keysOf_optField _ _ _ hm; simp at this

theorem executeTool_shape {σ Num : Type} (js : Js Num)
    (sortByDate : Bool → List (PlotPoint Num) → List (PlotPoint Num))
    (api : ImageApi σ) (openaiKey : Option String)
    (toolName : String) (args : ToolArgs) (channelData : Option (List Record)) (s : σ)
    (r : ToolResult)
    (h : (executeTool js sortByDate api openaiKey toolName args channelData s).1 = .ok r) :
    (toolName ≠ "generateImage" → ExactlyOne r ["stats", "chart", "video"]) ∧
    (toolName = "generateImage" → ExactlyOne r ["image"]) := by
  unfold executeTool at h
  simp only at h
  split at h
  · rename_i hn
    have hn' : toolName = "compute_stats_json" := by simpa using hn
    cases h
    exact ⟨fun _ => stats_shape js args _, fun hg => by rw [hn'] at hg; simp at hg⟩
  · split at h
    · rename_i hn
      have hn' : toolName = "plot_metric_vs_time" := by simpa using hn
      exact ⟨fun _ => plot_shape js sortByDate args _ r h,
        fun hg => by rw [hn'] at hg; simp at hg⟩
    · split at h
      · rename_i hn
        have hn' : toolName = "play_video" := by simpa using hn
        exact ⟨fun _ => playVideo_shape js args _ r h, fun hg => by rw [hn'] at hg; simp at hg⟩
      · split at h
        · rename_i hn
          have hn' : toolName = "generateImage" := by simpa using hn
          exact ⟨fun hne => absurd hn' hne,
            fun _ => generateImageTool_shape api openaiKey args s r h⟩
        · rename_i hn
          have hn' : toolName ≠ "generateImage" := by simpa using hn
          cases h
          exact ⟨fun _ => errorResult_shape _ _, fun hg => absurd hg hn'⟩

theorem marker_iff_no_error (r : ToolResult) (ms : List String)
    (hms : ∀ m ∈ ms, m ≠ "") (h : ExactlyOne r ms) :
    truthyField (getField r "_toolType") = (getField r "error").isNone := by
  rcases h with ⟨he, hm⟩ | ⟨he, m, hmem, hm⟩
  · rw [hm]
    cases hx : getField r "error" with
    | none => exact absurd hx he
    | some v => rfl
  · rw [hm, he]
    simp [truthyField, JVal.truthy, hms m hmem]

/-- The charts of the tool loop are the recorded results that carry a
truthy marker, in order; and every recorded result is one the dispatcher
returned. -/
theorem toolLoop_charts {σ : Type} (env : Env σ) (chat : Chat) (cd : JVal)
    (P : ToolResult → Prop)
    (hP : ∀ (name : String) (a c : JVal) (s s1 : σ) (r : ToolResult),
      env.executeTool name a c s = (.ok r, s1) → P r) :
    ∀ (n : Nat) (resp : Response) (charts : List ToolResult) (calls : List ToolCallRecord)
      (s : σ) (out : Response × List ToolResult × List ToolCallRecord),
      (∀ c ∈ calls, P c.result) →
      charts = (calls.map (fun c => c.result)).filter
        (fun r => truthyField (getField r "_toolType")) →
      (toolLoop env chat cd n resp charts calls s).1 = .ok out →
      (∀ c ∈ out.2.2, P c.result) ∧
      out.2.1 = (out.2.2.map (fun c => c.result)).filter
        (fun r => truthyField (getField r "_toolType")) := by
  intro n
  induction n with
  | zero =>
    intro resp charts calls s out hcalls hcharts h
    simp only [toolLoop, Except.ok.injEq] at h
    subst h
    exact ⟨hcalls, hcharts⟩
  | succ k ih =>
    intro resp charts calls s out hcalls hcharts h
    unfold toolLoop at h
    split at h
    · simp only [Except.ok.injEq] at h
      subst h
      exact ⟨hcalls, hcharts⟩
    · rename_i fc hfc
      split at h
      · cases h
      · rename_i toolResult s1 hexec
        simp only at h
        split at h
        · cases h
        · rename_i response1 s2 a2 hsend
          have hres : P toolResult := hP _ _ _ _ _ _ hexec
          refine ih response1 _ _ s2 out ?_ ?_ h
          · intro c hc
            rcases List.mem_append.1 hc with hc | hc
            · exact hcalls c hc
            · rw [List.mem_singleton.1 hc]
              exact hres
          · rw [hcharts]
            simp only [List.map_append, List.filter_append, List.map_cons, List.map_nil]
            split <;> simp_all [List.filter_cons]

theorem session_charts {σ : Type} (env : Env σ) (P : ToolResult → Prop)
    (hP : ∀ (name : String) (a c : JVal) (s s1 : σ) (r : ToolResult),
      env.executeTool name a c s = (.ok r, s1) → P r)
    (args : Args) :
    ∀ (models : List String) (s : σ) (res : ChatResult),
      (chatWithToolsModels env args models s).1 = .ok res →
      (∀ c ∈ res.toolCalls, P c.result) ∧
      res.charts = (res.toolCalls.map (fun c => c.result)).filter
        (fun r => truthyField (getField r "_toolType")) := by
  intro models
  induction models with
  | nil => intro s res h; simp [chatWithToolsModels] at h
  | cons m rest ih =>
    intro s res h
    unfold chatWithToolsModels at h
    split at h
    · rename_i r s1 a1 hatt
      simp only [Except.ok.injEq] at h
      subst h
      unfold chatWithToolsAttempt at hatt
      simp only at hatt
      split at hatt
      · cases hatt
      · rename_i response s2 a2 hfirst
        split at hatt
        · cases hatt
        · rename_i response1 charts toolCalls s3 a3 hloop
          have hl := toolLoop_charts env _ _ P hP 5 response [] [] s2
            (response1, charts, toolCalls) (by simp) (by simp) (by rw [hloop])
          split at hatt
          · cases hatt
          · simp only [Prod.mk.injEq, Except.ok.injEq] at hatt
            rw [← hatt.1]
            exact hl
    · rename_i err s1 a1 hatt
      split at h
      · split at h
        rename_i r s2 a2 hrest
        simp only at h
        exact ih s1 res (by rw [hrest]; exact h)
      · cases h

/-- C29: for every tool name, arguments and context data, a result that
`executeTool` of youtubeTools.js returns for a name other than generateImage
(compute_stats_json, plot_metric_vs_time, play_video or an unknown name)
carries exactly one of an `error` field and a `_toolType` marker, the marker
being `stats`, `chart` or `video`; a result it returns for generateImage
carries exactly one of an `error` field and the marker `image`.  Consequently,
in a tool-calling session whose dispatcher is this `executeTool` (however the
arguments and the context data are decoded), the `charts` returned are the
results recorded in `toolCalls` that have no `error` field, in order: an
error-shaped result is never among the charts, and every other result is. -/
theorem C29_error_or_marker {σ Num : Type} (js : Js Num)
    (sortByDate : Bool → List (PlotPoint Num) → List (PlotPoint Num))
    (api : ImageApi σ) (openaiKey : Option String) :
    (∀ (toolName : String) (args : ToolArgs) (channelData : Option (List Record)) (s : σ)
        (r : ToolResult),
      (executeTool js sortByDate api openaiKey toolName args channelData s).1 = .ok r →
      (toolName ≠ "generateImage" → ExactlyOne r ["stats", "chart", "video"]) ∧
      (toolName = "generateImage" → ExactlyOne r ["image"])) ∧
    (∀ (env : Env σ) (toArgs : JVal → ToolArgs) (toData : JVal → Option (List Record)),
      (∀ (name : String) (a c : JVal) (s : σ), env.executeTool name a c s =
        executeTool js sortByDate api openaiKey name (toArgs a) (toData c) s) →
      ∀ (apiKey : Option String) (models : List String) (args : Args) (s : σ)
        (res : ChatResult),
        (chatWithToolsInternal env apiKey models args s).1 = .ok res →
        res.charts = (res.toolCalls.map (fun c => c.result)).filter
          (fun r => (getField r "error").isNone) ∧
        (∀ c ∈ res.toolCalls, getField c.result "error" ≠ none → c.result ∉ res.charts) ∧
        (∀ c ∈ res.toolCalls, getField c.result "error" = none → c.result ∈ res.charts)) := by
  constructor
  · intro toolName args channelData s r h
    exact executeTool_shape js sortByDate api openaiKey toolName args channelData s r h
  · intro env toArgs toData henv apiKey models args s res h
    have hP : ∀ (name : String) (a c : JVal) (s s1 : σ) (r : ToolResult),
        env.executeTool name a c s = (.ok r, s1) →
        ExactlyOne r ["stats", "chart", "video", "image"] := by
      intro name a c s0 s1 r hex
      rw [henv] at hex
      have hsh := executeTool_shape js sortByDate api openaiKey name (toArgs a) (toData c) s0 r
        (by rw [hex])
      by_cases hn : name = "generateImage"
      · exact ExactlyOne_mono _ _ _ (by simp) (hsh.2 hn)
      · exact ExactlyOne_mono _ _ _ (by simp) (hsh.1 hn)
    unfold chatWithToolsInternal at h
    split at h
    · simp at h
    · obtain ⟨hall, hcharts⟩ := session_charts env _ hP args models s res h
      have hfilter : res.charts = (res.toolCalls.map (fun c => c.result)).filter
          (fun r => (getField r "error").isNone) := by
        rw [hcharts]
        apply List.filter_congr
        intro r hr
        obtain ⟨c, hc, hcr⟩ := List.mem_map.1 hr
        rw [← hcr]
        exact marker_iff_no_error _ _ (by simp) (hall c hc)
      refine ⟨hfilter, ?_, ?_⟩
      · intro c _ herr hmem
        rw [hfilter] at hmem
        have := (List.mem_filter.1 hmem).2
        cases hx : getField c.result "error" with
        | none => exact herr hx
        | some v => rw [hx] at this; simp at this
      · intro c hc herr
        rw [hfilter]
        exact List.mem_filter.2 ⟨List.mem_map_of_mem _ hc, by rw [herr]; rfl⟩

/-- C29 on the two sample videos: play_video for "lean" gives a video
result, compute_stats_json for the missing field "likes" an error; the
session records both and returns the video as its only chart. -/
theorem C29_error_or_marker_witness :
    ExactlyOne (videoResult asciiJs
        [("title", JVal.str "Intro to Lean"), ("view_count", JVal.num 99),
         ("release_date", JVal.str "2024-03-04T10:00:00Z")])
      ["stats", "chart", "video"] ∧
    (∀ res : ChatResult,
      (chatWithToolsInternal envTools (some "key") ["m"] toolsArgs 0).1 = .ok res →
      res.charts = (res.toolCalls.map (fun c => c.result)).filter
        (fun r => (getField r "error").isNone)) ∧
    (∃ res : ChatResult,
      (chatWithToolsInternal envTools (some "key") ["m"] toolsArgs 0).1 = .ok res ∧
      res.toolCalls.length = 2 ∧
      res.charts = [videoResult asciiJs
        [("title", JVal.str "Intro to Lean"), ("view_count", JVal.num 99),
         ("release_date", JVal.str "2024-03-04T10:00:00Z")]]) :=
  ⟨((C29_error_or_marker asciiJs (fun _ l => l) noImageApi none).1 "play_video"
      { query := some "lean" } (some sampleVideos) 0 _ rfl).1 (by decide),
   fun res h => ((C29_error_or_marker asciiJs (fun _ l => l) noImageApi none).2 envTools
      argsOf recordsOf (fun _ _ _ _ => rfl) (some "key") ["m"] toolsArgs 0 res h).1,
   ⟨_, rfl, rfl, rfl⟩⟩

end GeminiProxy
